import Mathlib

/-!
# mock-fps: the resource repository, the transition driver and the dispatcher

A shallow embedding of `internal/store/memory.go`, `internal/lifecycle`,
`internal/webhook/dispatcher.go`, the Create handlers of `internal/handlers`
for the kinds with a status chain and the wiring of `cmd/server/main.go`,
followed by the properties proved about them.

Conventions of the embedding.

* A Go `string` is a Lean `String`; `len` and the slice `k[:n]` are taken in
  characters, the units of the sequence.
* A Go `map[string]V` is a `GoMap V`: a list of entries with pairwise distinct
  keys. `range` visits the entries in list order, which is one of the orders Go
  may choose.
* A Go `error` is an `Option Error`; `none` is `nil`.
* A method with a pointer receiver that writes to the store returns the store
  after the call next to its Go result. The read/write lock makes every method
  atomic, so a run of the store is a sequence of such calls.
* `time.Time` is an `Int`, a count of clock ticks.
-/

namespace MockFps

/-! ## Go maps -/

/-- A Go map with string keys: the entries, with no key occurring twice. -/
structure GoMap (V : Type) where
  entries : List (String × V)
  nodup : (entries.map Prod.fst).Nodup

namespace GoMap

variable {V : Type}

/-- The map `make(map[string]V)`. -/
def empty : GoMap V := ⟨[], List.nodup_nil⟩

/-- The lookup `v, ok := m[k]`: `some v` when `ok`, `none` otherwise. -/
def get? (m : GoMap V) (k : String) : Option V := m.entries.lookup k

/-- The `ok` of `_, ok := m[k]`. -/
def contains (m : GoMap V) (k : String) : Bool := (m.get? k).isSome

/-- The entries after `m[k] = v`: the entry of `k` is replaced where it stands,
a new key is added at the end. -/
def setEntries : List (String × V) → String → V → List (String × V)
  | [], k, v => [(k, v)]
  | e :: es, k, v => if e.1 = k then (k, v) :: es else e :: setEntries es k v

/-- The assignment `m[k] = v`. -/
def set (m : GoMap V) (k : String) (v : V) : GoMap V :=
  ⟨setEntries m.entries k v, by
    have key : ∀ es : List (String × V), (setEntries es k v).map Prod.fst =
        if k ∈ es.map Prod.fst then es.map Prod.fst else es.map Prod.fst ++ [k] := by
      intro es
      induction es with
      | nil => simp [setEntries]
      | cons e es ih =>
        by_cases h : e.1 = k
        · simp [setEntries, h]
        · have h2 : ¬ k = e.1 := fun h3 => h h3.symm
          simp only [setEntries, h, if_false, List.map_cons, ih, List.mem_cons, h2, false_or]
          split <;> simp
    rw [key]
    split
    · exact m.nodup
    · rename_i h
      exact List.Nodup.append m.nodup (List.nodup_singleton k) (by simpa using h)⟩

/-- The builtin `delete(m, k)`. -/
def delete (m : GoMap V) (k : String) : GoMap V :=
  ⟨m.entries.filter (fun e => decide (e.1 ≠ k)), by
    have h := m.nodup
    exact (List.Nodup.sublist (List.Sublist.map Prod.fst (List.filter_sublist _)) h)⟩

/-- The values in iteration order: what `for _, v := range m` visits. -/
def values (m : GoMap V) : List V := m.entries.map Prod.snd

instance [DecidableEq V] : DecidableEq (GoMap V) := fun a b =>
  decidable_of_iff (a.entries = b.entries)
    ⟨fun h => by cases a; cases b; cases h; rfl, fun h => by rw [h]⟩

instance : Inhabited (GoMap V) := ⟨empty⟩

end GoMap

/-! ## Models (`internal/models`) -/

/-- An instant of `time.Time`, in clock ticks. -/
abbrev Time := Int

/-- Resource is the base for all JSON:API resources. The Go field `Type` is
`Typ` here. -/
structure Resource where
  Typ : String
  ID : String
  OrganisationID : String
  Version : Int
  CreatedOn : Time
  ModifiedOn : Time
deriving DecidableEq, Inhabited

/-- AccountParty represents a debtor or beneficiary party. -/
structure AccountParty where
  AccountName : String
  AccountNumber : String
  SortCode : String
deriving DecidableEq, Inhabited

/-- ChargesInformation holds charges data. -/
structure ChargesInformation where
  BearerCode : String
deriving DecidableEq, Inhabited

/-- FxInfo holds foreign exchange information. -/
structure FxInfo where
  ContractReference : String
  ExchangeRate : String
  OriginalAmount : String
  OriginalCurrency : String
deriving DecidableEq, Inhabited

/-- RelationshipData is a JSON:API relationship link. -/
structure RelationshipData where
  Typ : String
  ID : String
deriving DecidableEq, Inhabited

/-- Relationship wraps a single relationship. -/
structure Relationship where
  Data : List RelationshipData
deriving DecidableEq, Inhabited

/-- PaymentAttributes holds the payment data fields. -/
structure PaymentAttributes where
  Amount : String
  Currency : String
  EndToEndReference : String
  NumericReference : String
  PaymentScheme : String
  PaymentType : String
  ProcessingDate : String
  Reference : String
  SchemePaymentSubType : String
  SchemePaymentType : String
  BeneficiaryParty : Option AccountParty
  DebtorParty : Option AccountParty
  ChargesInformation : Option ChargesInformation
  Fx : Option FxInfo
deriving DecidableEq, Inhabited

/-- PaymentRelationships holds relationships to submissions, admissions, etc. -/
structure PaymentRelationships where
  PaymentSubmissions : Option Relationship
  PaymentAdmissions : Option Relationship
  PaymentReturns : Option Relationship
  PaymentRecalls : Option Relationship
  PaymentReversals : Option Relationship
deriving DecidableEq, Inhabited

/-- Payment represents a payment resource. -/
structure Payment extends Resource where
  Attributes : PaymentAttributes
  Relationships : Option PaymentRelationships
deriving DecidableEq, Inhabited

/-- PaymentSubmissionAttributes holds submission data. -/
structure PaymentSubmissionAttributes where
  Status : String
  SubmissionDate : String
  SchemeStatusCode : String
deriving DecidableEq, Inhabited

/-- PaymentSubmission represents a payment submission resource. -/
structure PaymentSubmission extends Resource where
  Attributes : PaymentSubmissionAttributes
deriving DecidableEq, Inhabited

/-- PaymentAdmissionAttributes holds admission data. -/
structure PaymentAdmissionAttributes where
  Status : String
  AdmissionDate : String
deriving DecidableEq, Inhabited

/-- PaymentAdmission represents a payment admission resource. -/
structure PaymentAdmission extends Resource where
  Attributes : PaymentAdmissionAttributes
deriving DecidableEq, Inhabited

/-- AdmissionTaskAttributes holds task data. -/
structure AdmissionTaskAttributes where
  Status : String
  Assignee : String
  Name : String
deriving DecidableEq, Inhabited

/-- AdmissionTask represents a task on an admission. -/
structure AdmissionTask extends Resource where
  Attributes : AdmissionTaskAttributes
deriving DecidableEq, Inhabited

/-- ReturnPaymentAttributes holds return data. -/
structure ReturnPaymentAttributes where
  Amount : String
  Currency : String
  ReturnCode : String
  ReturnReason : String
  SchemeStatus : String
deriving DecidableEq, Inhabited

/-- ReturnPayment represents a payment return resource. -/
structure ReturnPayment extends Resource where
  Attributes : ReturnPaymentAttributes
deriving DecidableEq, Inhabited

/-- ReturnSubmissionAttributes holds return submission data. -/
structure ReturnSubmissionAttributes where
  Status : String
  SubmissionDate : String
deriving DecidableEq, Inhabited

/-- ReturnSubmission represents a return submission resource. -/
structure ReturnSubmission extends Resource where
  Attributes : ReturnSubmissionAttributes
deriving DecidableEq, Inhabited

/-- RecallAttributes holds recall data. -/
structure RecallAttributes where
  Amount : String
  Currency : String
  RecallReason : String
  RecallType : String
  Status : String
deriving DecidableEq, Inhabited

/-- Recall represents a payment recall resource. -/
structure Recall extends Resource where
  Attributes : RecallAttributes
deriving DecidableEq, Inhabited

/-- RecallSubmissionAttributes holds recall submission data. -/
structure RecallSubmissionAttributes where
  Status : String
  SubmissionDate : String
deriving DecidableEq, Inhabited

/-- RecallSubmission represents a recall submission resource. -/
structure RecallSubmission extends Resource where
  Attributes : RecallSubmissionAttributes
deriving DecidableEq, Inhabited

/-- RecallDecisionAttributes holds recall decision data. -/
structure RecallDecisionAttributes where
  Answer : String
  Reason : String
  Status : String
deriving DecidableEq, Inhabited

/-- RecallDecision represents a recall decision resource. -/
structure RecallDecision extends Resource where
  Attributes : RecallDecisionAttributes
deriving DecidableEq, Inhabited

/-- RecallDecisionSubmissionAttributes holds recall decision submission data. -/
structure RecallDecisionSubmissionAttributes where
  Status : String
  SubmissionDate : String
deriving DecidableEq, Inhabited

/-- RecallDecisionSubmission represents a recall decision submission resource. -/
structure RecallDecisionSubmission extends Resource where
  Attributes : RecallDecisionSubmissionAttributes
deriving DecidableEq, Inhabited

/-- ReversalAttributes holds reversal data. -/
structure ReversalAttributes where
  Amount : String
  Currency : String
  ReversalReason : String
  Status : String
deriving DecidableEq, Inhabited

/-- Reversal represents a payment reversal resource. -/
structure Reversal extends Resource where
  Attributes : ReversalAttributes
deriving DecidableEq, Inhabited

/-- ReversalSubmissionAttributes holds reversal submission data. -/
structure ReversalSubmissionAttributes where
  Status : String
  SubmissionDate : String
deriving DecidableEq, Inhabited

/-- ReversalSubmission represents a reversal submission resource. -/
structure ReversalSubmission extends Resource where
  Attributes : ReversalSubmissionAttributes
deriving DecidableEq, Inhabited

/-- SubscriptionAttributes holds subscription data. -/
structure SubscriptionAttributes where
  CallbackURI : String
  EventType : String
  RecordType : String
  IsActive : Bool
  CallbackTransport : String
  UserID : String
deriving DecidableEq, Inhabited

/-- Subscription represents a webhook subscription resource. -/
structure Subscription extends Resource where
  Attributes : SubscriptionAttributes
deriving DecidableEq, Inhabited

/-- NotificationData holds the event details; the `Payload` field, which the
dispatcher never sets, is left out. -/
structure NotificationData where
  RecordType : String
  EventType : String
  ResourceID : String
deriving DecidableEq, Inhabited

/-- Notification is the payload sent to webhook subscribers. -/
structure Notification where
  ID : String
  OrganisationID : String
  Typ : String
  Version : Int
  CreatedOn : Time
  Data : NotificationData
deriving DecidableEq, Inhabited

/-! Resource types and event types of `models/status.go`. -/

def ResourceTypePayment : String := "payments"
def ResourceTypePaymentSubmission : String := "payment_submissions"
def ResourceTypePaymentAdmission : String := "payment_admissions"
def ResourceTypeReturnPayment : String := "return_payments"
def ResourceTypeReturnSubmission : String := "return_submissions"
def ResourceTypeRecall : String := "recalls"
def ResourceTypeRecallSubmission : String := "recall_submissions"
def ResourceTypeRecallDecision : String := "recall_decisions"
def ResourceTypeRecallDecisionSubmission : String := "recall_decision_submissions"
def ResourceTypeReversal : String := "reversals"
def ResourceTypeReversalSubmission : String := "reversal_submissions"
def ResourceTypeSubscription : String := "subscriptions"

/-- Event types for webhook notifications. -/
def EventCreated : String := "created"
def EventUpdated : String := "updated"

/-! ## The in-memory store (`internal/store/memory.go`) -/

/-- The two error values of the store: `ErrNotFound` is returned when a
resource is not found, `ErrConflict` when a resource already exists. -/
inductive Error where
  | ErrNotFound
  | ErrConflict
deriving DecidableEq, Repr

open Error

/-- MemoryStore is an in-memory implementation of Store. The lock `mu` has no
field: every method below is one atomic step. The comments give the layout of
the keys. -/
structure MemoryStore where
  payments : GoMap Payment
  /-- Keyed "paymentID:submissionID". -/
  paymentSubmissions : GoMap PaymentSubmission
  /-- Keyed "paymentID:admissionID". -/
  paymentAdmissions : GoMap PaymentAdmission
  /-- Keyed "paymentID:admissionID:taskID". -/
  admissionTasks : GoMap AdmissionTask
  /-- Keyed "paymentID:returnID". -/
  returns : GoMap ReturnPayment
  /-- Keyed "paymentID:returnID:submissionID". -/
  returnSubmissions : GoMap ReturnSubmission
  /-- Keyed "paymentID:recallID". -/
  recalls : GoMap Recall
  /-- Keyed "paymentID:recallID:submissionID". -/
  recallSubmissions : GoMap RecallSubmission
  /-- Keyed "paymentID:recallID:decisionID". -/
  recallDecisions : GoMap RecallDecision
  /-- Keyed "paymentID:recallID:decisionID:submissionID". -/
  recallDecisionSubmissions : GoMap RecallDecisionSubmission
  /-- Keyed "paymentID:reversalID". -/
  reversals : GoMap Reversal
  /-- Keyed "paymentID:reversalID:submissionID". -/
  reversalSubmissions : GoMap ReversalSubmission
  subscriptions : GoMap Subscription
deriving DecidableEq

/-- NewMemoryStore creates a new in-memory store. -/
def NewMemoryStore : MemoryStore :=
  { payments := GoMap.empty
    paymentSubmissions := GoMap.empty
    paymentAdmissions := GoMap.empty
    admissionTasks := GoMap.empty
    returns := GoMap.empty
    returnSubmissions := GoMap.empty
    recalls := GoMap.empty
    recallSubmissions := GoMap.empty
    recallDecisions := GoMap.empty
    recallDecisionSubmissions := GoMap.empty
    reversals := GoMap.empty
    reversalSubmissions := GoMap.empty
    subscriptions := GoMap.empty }

def key2 (a b : String) : String := a ++ ":" ++ b
def key3 (a b c : String) : String := a ++ ":" ++ b ++ ":" ++ c
def key4 (a b c d : String) : String := a ++ ":" ++ b ++ ":" ++ c ++ ":" ++ d

/-- The slice expression `k[:n]`, for `n` within the length of `k`. -/
def sliceTo (k : String) (n : Nat) : String := ⟨k.data.take n⟩

/-- The test `len(k) > len(prefix) && k[:len(prefix)] == prefix` of the List
methods; `&&` guards the slice, which is only taken when it is in range. -/
def keyUnder (k pfx : String) : Bool :=
  decide (k.length > pfx.length) && (sliceTo k pfx.length == pfx)

/-- The loop `for k, v := range m { if cond { out = append(out, v) } }` over a
slice `out` that starts empty. -/
def GoMap.collect {V : Type} (m : GoMap V) (cond : String → V → Bool) : List V :=
  m.entries.foldl (fun out e => if cond e.1 e.2 then out ++ [e.2] else out) []

namespace MemoryStore

/-! ### Payments -/

def CreatePayment (m : MemoryStore) (p : Payment) :
    Option Error × MemoryStore :=
  if m.payments.contains p.ID then (some ErrConflict, m)
  else (none, { m with payments := m.payments.set p.ID p })

def GetPayment (m : MemoryStore) (id : String) : Payment × Option Error :=
  match m.payments.get? id with
  | none => (default, some ErrNotFound)
  | some p => (p, none)

def ListPayments (m : MemoryStore) : List Payment :=
  m.payments.collect (fun _ _ => true)

def UpdatePayment (m : MemoryStore) (p : Payment) :
    Option Error × MemoryStore :=
  if !m.payments.contains p.ID then (some ErrNotFound, m)
  else (none, { m with payments := m.payments.set p.ID p })

/-! ### Payment Submissions -/

def CreatePaymentSubmission (m : MemoryStore) (paymentID : String) (s : PaymentSubmission) :
    Option Error × MemoryStore :=
  let k := key2 paymentID s.ID
  if m.paymentSubmissions.contains k then (some ErrConflict, m)
  else (none, { m with paymentSubmissions := m.paymentSubmissions.set k s })

def GetPaymentSubmission (m : MemoryStore) (paymentID submissionID : String) : PaymentSubmission × Option Error :=
  match m.paymentSubmissions.get? (key2 paymentID submissionID) with
  | none => (default, some ErrNotFound)
  | some s => (s, none)

def ListPaymentSubmissions (m : MemoryStore) (paymentID : String) : List PaymentSubmission :=
  let pfx := paymentID ++ ":"
  m.paymentSubmissions.collect (fun k _ => keyUnder k pfx)

def UpdatePaymentSubmission (m : MemoryStore) (paymentID : String) (s : PaymentSubmission) :
    Option Error × MemoryStore :=
  let k := key2 paymentID s.ID
  if !m.paymentSubmissions.contains k then (some ErrNotFound, m)
  else (none, { m with paymentSubmissions := m.paymentSubmissions.set k s })

/-! ### Payment Admissions -/

def CreatePaymentAdmission (m : MemoryStore) (paymentID : String) (a : PaymentAdmission) :
    Option Error × MemoryStore :=
  let k := key2 paymentID a.ID
  if m.paymentAdmissions.contains k then (some ErrConflict, m)
  else (none, { m with paymentAdmissions := m.paymentAdmissions.set k a })

def GetPaymentAdmission (m : MemoryStore) (paymentID admissionID : String) : PaymentAdmission × Option Error :=
  match m.paymentAdmissions.get? (key2 paymentID admissionID) with
  | none => (default, some ErrNotFound)
  | some a => (a, none)

def ListPaymentAdmissions (m : MemoryStore) (paymentID : String) : List PaymentAdmission :=
  let pfx := paymentID ++ ":"
  m.paymentAdmissions.collect (fun k _ => keyUnder k pfx)

def UpdatePaymentAdmission (m : MemoryStore) (paymentID : String) (a : PaymentAdmission) :
    Option Error × MemoryStore :=
  let k := key2 paymentID a.ID
  if !m.paymentAdmissions.contains k then (some ErrNotFound, m)
  else (none, { m with paymentAdmissions := m.paymentAdmissions.set k a })

/-! ### Admission Tasks -/

def CreateAdmissionTask (m : MemoryStore) (paymentID admissionID : String) (t : AdmissionTask) :
    Option Error × MemoryStore :=
  let k := key3 paymentID admissionID t.ID
  if m.admissionTasks.contains k then (some ErrConflict, m)
  else (none, { m with admissionTasks := m.admissionTasks.set k t })

def GetAdmissionTask (m : MemoryStore) (paymentID admissionID taskID : String) : AdmissionTask × Option Error :=
  match m.admissionTasks.get? (key3 paymentID admissionID taskID) with
  | none => (default, some ErrNotFound)
  | some t => (t, none)

def UpdateAdmissionTask (m : MemoryStore) (paymentID admissionID : String) (t : AdmissionTask) :
    Option Error × MemoryStore :=
  let k := key3 paymentID admissionID t.ID
  if !m.admissionTasks.contains k then (some ErrNotFound, m)
  else (none, { m with admissionTasks := m.admissionTasks.set k t })

/-! ### Returns -/

def CreateReturn (m : MemoryStore) (paymentID : String) (r : ReturnPayment) :
    Option Error × MemoryStore :=
  let k := key2 paymentID r.ID
  if m.returns.contains k then (some ErrConflict, m)
  else (none, { m with returns := m.returns.set k r })

def GetReturn (m : MemoryStore) (paymentID returnID : String) : ReturnPayment × Option Error :=
  match m.returns.get? (key2 paymentID returnID) with
  | none => (default, some ErrNotFound)
  | some r => (r, none)

def ListReturns (m : MemoryStore) (paymentID : String) : List ReturnPayment :=
  let pfx := paymentID ++ ":"
  m.returns.collect (fun k _ => keyUnder k pfx)

/-! ### Return Submissions -/

def CreateReturnSubmission (m : MemoryStore) (paymentID returnID : String) (s : ReturnSubmission) :
    Option Error × MemoryStore :=
  let k := key3 paymentID returnID s.ID
  if m.returnSubmissions.contains k then (some ErrConflict, m)
  else (none, { m with returnSubmissions := m.returnSubmissions.set k s })

def GetReturnSubmission (m : MemoryStore) (paymentID returnID submissionID : String) : ReturnSubmission × Option Error :=
  match m.returnSubmissions.get? (key3 paymentID returnID submissionID) with
  | none => (default, some ErrNotFound)
  | some s => (s, none)

def ListReturnSubmissions (m : MemoryStore) (paymentID returnID : String) : List ReturnSubmission :=
  let pfx := key2 paymentID returnID ++ ":"
  m.returnSubmissions.collect (fun k _ => keyUnder k pfx)

def UpdateReturnSubmission (m : MemoryStore) (paymentID returnID : String) (s : ReturnSubmission) :
    Option Error × MemoryStore :=
  let k := key3 paymentID returnID s.ID
  if !m.returnSubmissions.contains k then (some ErrNotFound, m)
  else (none, { m with returnSubmissions := m.returnSubmissions.set k s })

/-! ### Recalls -/

def CreateRecall (m : MemoryStore) (paymentID : String) (r : Recall) :
    Option Error × MemoryStore :=
  let k := key2 paymentID r.ID
  if m.recalls.contains k then (some ErrConflict, m)
  else (none, { m with recalls := m.recalls.set k r })

def GetRecall (m : MemoryStore) (paymentID recallID : String) : Recall × Option Error :=
  match m.recalls.get? (key2 paymentID recallID) with
  | none => (default, some ErrNotFound)
  | some r => (r, none)

def ListRecalls (m : MemoryStore) (paymentID : String) : List Recall :=
  let pfx := paymentID ++ ":"
  m.recalls.collect (fun k _ => keyUnder k pfx)

/-! ### Recall Submissions -/

def CreateRecallSubmission (m : MemoryStore) (paymentID recallID : String) (s : RecallSubmission) :
    Option Error × MemoryStore :=
  let k := key3 paymentID recallID s.ID
  if m.recallSubmissions.contains k then (some ErrConflict, m)
  else (none, { m with recallSubmissions := m.recallSubmissions.set k s })

def GetRecallSubmission (m : MemoryStore) (paymentID recallID submissionID : String) : RecallSubmission × Option Error :=
  match m.recallSubmissions.get? (key3 paymentID recallID submissionID) with
  | none => (default, some ErrNotFound)
  | some s => (s, none)

def ListRecallSubmissions (m : MemoryStore) (paymentID recallID : String) : List RecallSubmission :=
  let pfx := key2 paymentID recallID ++ ":"
  m.recallSubmissions.collect (fun k _ => keyUnder k pfx)

def UpdateRecallSubmission (m : MemoryStore) (paymentID recallID : String) (s : RecallSubmission) :
    Option Error × MemoryStore :=
  let k := key3 paymentID recallID s.ID
  if !m.recallSubmissions.contains k then (some ErrNotFound, m)
  else (none, { m with recallSubmissions := m.recallSubmissions.set k s })

/-! ### Recall Decisions -/

def CreateRecallDecision (m : MemoryStore) (paymentID recallID : String) (d : RecallDecision) :
    Option Error × MemoryStore :=
  let k := key3 paymentID recallID d.ID
  if m.recallDecisions.contains k then (some ErrConflict, m)
  else (none, { m with recallDecisions := m.recallDecisions.set k d })

def GetRecallDecision (m : MemoryStore) (paymentID recallID decisionID : String) : RecallDecision × Option Error :=
  match m.recallDecisions.get? (key3 paymentID recallID decisionID) with
  | none => (default, some ErrNotFound)
  | some d => (d, none)

def ListRecallDecisions (m : MemoryStore) (paymentID recallID : String) : List RecallDecision :=
  let pfx := key2 paymentID recallID ++ ":"
  m.recallDecisions.collect (fun k _ => keyUnder k pfx)

/-! ### Recall Decision Submissions -/

def CreateRecallDecisionSubmission (m : MemoryStore) (paymentID recallID decisionID : String) (s : RecallDecisionSubmission) :
    Option Error × MemoryStore :=
  let k := key4 paymentID recallID decisionID s.ID
  if m.recallDecisionSubmissions.contains k then (some ErrConflict, m)
  else (none, { m with recallDecisionSubmissions := m.recallDecisionSubmissions.set k s })

def GetRecallDecisionSubmission (m : MemoryStore) (paymentID recallID decisionID submissionID : String) : RecallDecisionSubmission × Option Error :=
  match m.recallDecisionSubmissions.get? (key4 paymentID recallID decisionID submissionID) with
  | none => (default, some ErrNotFound)
  | some s => (s, none)

def ListRecallDecisionSubmissions (m : MemoryStore) (paymentID recallID decisionID : String) : List RecallDecisionSubmission :=
  let pfx := key3 paymentID recallID decisionID ++ ":"
  m.recallDecisionSubmissions.collect (fun k _ => keyUnder k pfx)

def UpdateRecallDecisionSubmission (m : MemoryStore) (paymentID recallID decisionID : String) (s : RecallDecisionSubmission) :
    Option Error × MemoryStore :=
  let k := key4 paymentID recallID decisionID s.ID
  if !m.recallDecisionSubmissions.contains k then (some ErrNotFound, m)
  else (none, { m with recallDecisionSubmissions := m.recallDecisionSubmissions.set k s })

/-! ### Reversals -/

def CreateReversal (m : MemoryStore) (paymentID : String) (r : Reversal) :
    Option Error × MemoryStore :=
  let k := key2 paymentID r.ID
  if m.reversals.contains k then (some ErrConflict, m)
  else (none, { m with reversals := m.reversals.set k r })

def GetReversal (m : MemoryStore) (paymentID reversalID : String) : Reversal × Option Error :=
  match m.reversals.get? (key2 paymentID reversalID) with
  | none => (default, some ErrNotFound)
  | some r => (r, none)

def ListReversals (m : MemoryStore) (paymentID : String) : List Reversal :=
  let pfx := paymentID ++ ":"
  m.reversals.collect (fun k _ => keyUnder k pfx)

/-! ### Reversal Submissions -/

def CreateReversalSubmission (m : MemoryStore) (paymentID reversalID : String) (s : ReversalSubmission) :
    Option Error × MemoryStore :=
  let k := key3 paymentID reversalID s.ID
  if m.reversalSubmissions.contains k then (some ErrConflict, m)
  else (none, { m with reversalSubmissions := m.reversalSubmissions.set k s })

def GetReversalSubmission (m : MemoryStore) (paymentID reversalID submissionID : String) : ReversalSubmission × Option Error :=
  match m.reversalSubmissions.get? (key3 paymentID reversalID submissionID) with
  | none => (default, some ErrNotFound)
  | some s => (s, none)

def ListReversalSubmissions (m : MemoryStore) (paymentID reversalID : String) : List ReversalSubmission :=
  let pfx := key2 paymentID reversalID ++ ":"
  m.reversalSubmissions.collect (fun k _ => keyUnder k pfx)

def UpdateReversalSubmission (m : MemoryStore) (paymentID reversalID : String) (s : ReversalSubmission) :
    Option Error × MemoryStore :=
  let k := key3 paymentID reversalID s.ID
  if !m.reversalSubmissions.contains k then (some ErrNotFound, m)
  else (none, { m with reversalSubmissions := m.reversalSubmissions.set k s })

/-! ### Subscriptions -/

def CreateSubscription (m : MemoryStore) (s : Subscription) :
    Option Error × MemoryStore :=
  if m.subscriptions.contains s.ID then (some ErrConflict, m)
  else (none, { m with subscriptions := m.subscriptions.set s.ID s })

def GetSubscription (m : MemoryStore) (id : String) : Subscription × Option Error :=
  match m.subscriptions.get? id with
  | none => (default, some ErrNotFound)
  | some s => (s, none)

def ListSubscriptions (m : MemoryStore) : List Subscription :=
  m.subscriptions.collect (fun _ _ => true)

def UpdateSubscription (m : MemoryStore) (s : Subscription) :
    Option Error × MemoryStore :=
  if !m.subscriptions.contains s.ID then (some ErrNotFound, m)
  else (none, { m with subscriptions := m.subscriptions.set s.ID s })

def DeleteSubscription (m : MemoryStore) (id : String) : Option Error × MemoryStore :=
  if !m.subscriptions.contains id then (some ErrNotFound, m)
  else (none, { m with subscriptions := m.subscriptions.delete id })

def MatchSubscriptions (m : MemoryStore) (recordType eventType : String) : List Subscription :=
  m.subscriptions.collect (fun _ s =>
    s.Attributes.IsActive && s.Attributes.RecordType == recordType
      && s.Attributes.EventType == eventType)

end MemoryStore

/-! ## The store interface as data

The thirteen maps of the store and the calls of `store.Store`, as values, so
that a property of "every kind" or "every call" is one statement. Each
dispatch below calls the method of the same name. -/

/-- The maps of `MemoryStore`, by field name. -/
inductive Kind where
  | payments
  | paymentSubmissions
  | paymentAdmissions
  | admissionTasks
  | returns
  | returnSubmissions
  | recalls
  | recallSubmissions
  | recallDecisions
  | recallDecisionSubmissions
  | reversals
  | reversalSubmissions
  | subscriptions
deriving DecidableEq, Repr

/-- A stored record of any kind, tagged with the map that holds it. -/
inductive Value where
  | payments (v : Payment)
  | paymentSubmissions (v : PaymentSubmission)
  | paymentAdmissions (v : PaymentAdmission)
  | admissionTasks (v : AdmissionTask)
  | returns (v : ReturnPayment)
  | returnSubmissions (v : ReturnSubmission)
  | recalls (v : Recall)
  | recallSubmissions (v : RecallSubmission)
  | recallDecisions (v : RecallDecision)
  | recallDecisionSubmissions (v : RecallDecisionSubmission)
  | reversals (v : Reversal)
  | reversalSubmissions (v : ReversalSubmission)
  | subscriptions (v : Subscription)
deriving DecidableEq

/-- The map a value belongs to. -/
def Value.kind : Value → Kind
  | .payments _ => .payments
  | .paymentSubmissions _ => .paymentSubmissions
  | .paymentAdmissions _ => .paymentAdmissions
  | .admissionTasks _ => .admissionTasks
  | .returns _ => .returns
  | .returnSubmissions _ => .returnSubmissions
  | .recalls _ => .recalls
  | .recallSubmissions _ => .recallSubmissions
  | .recallDecisions _ => .recallDecisions
  | .recallDecisionSubmissions _ => .recallDecisionSubmissions
  | .reversals _ => .reversals
  | .reversalSubmissions _ => .reversalSubmissions
  | .subscriptions _ => .subscriptions

/-- What the map of a kind holds under a composite key. -/
def MemoryStore.lookup (m : MemoryStore) : Kind → String → Option Value
  | .payments, k => (m.payments.get? k).map Value.payments
  | .paymentSubmissions, k => (m.paymentSubmissions.get? k).map Value.paymentSubmissions
  | .paymentAdmissions, k => (m.paymentAdmissions.get? k).map Value.paymentAdmissions
  | .admissionTasks, k => (m.admissionTasks.get? k).map Value.admissionTasks
  | .returns, k => (m.returns.get? k).map Value.returns
  | .returnSubmissions, k => (m.returnSubmissions.get? k).map Value.returnSubmissions
  | .recalls, k => (m.recalls.get? k).map Value.recalls
  | .recallSubmissions, k => (m.recallSubmissions.get? k).map Value.recallSubmissions
  | .recallDecisions, k => (m.recallDecisions.get? k).map Value.recallDecisions
  | .recallDecisionSubmissions, k => (m.recallDecisionSubmissions.get? k).map Value.recallDecisionSubmissions
  | .reversals, k => (m.reversals.get? k).map Value.reversals
  | .reversalSubmissions, k => (m.reversalSubmissions.get? k).map Value.reversalSubmissions
  | .subscriptions, k => (m.subscriptions.get? k).map Value.subscriptions

/-- A call of one of the Create methods, with its arguments. -/
inductive CreateCall where
  | CreatePayment (p : Payment)
  | CreatePaymentSubmission (paymentID : String) (s : PaymentSubmission)
  | CreatePaymentAdmission (paymentID : String) (a : PaymentAdmission)
  | CreateAdmissionTask (paymentID admissionID : String) (t : AdmissionTask)
  | CreateReturn (paymentID : String) (r : ReturnPayment)
  | CreateReturnSubmission (paymentID returnID : String) (s : ReturnSubmission)
  | CreateRecall (paymentID : String) (r : Recall)
  | CreateRecallSubmission (paymentID recallID : String) (s : RecallSubmission)
  | CreateRecallDecision (paymentID recallID : String) (d : RecallDecision)
  | CreateRecallDecisionSubmission (paymentID recallID decisionID : String) (s : RecallDecisionSubmission)
  | CreateReversal (paymentID : String) (r : Reversal)
  | CreateReversalSubmission (paymentID reversalID : String) (s : ReversalSubmission)
  | CreateSubscription (s : Subscription)

/-- The map a Create call writes to. -/
def CreateCall.kind : CreateCall → Kind
  | .CreatePayment _ => .payments
  | .CreatePaymentSubmission _ _ => .paymentSubmissions
  | .CreatePaymentAdmission _ _ => .paymentAdmissions
  | .CreateAdmissionTask _ _ _ => .admissionTasks
  | .CreateReturn _ _ => .returns
  | .CreateReturnSubmission _ _ _ => .returnSubmissions
  | .CreateRecall _ _ => .recalls
  | .CreateRecallSubmission _ _ _ => .recallSubmissions
  | .CreateRecallDecision _ _ _ => .recallDecisions
  | .CreateRecallDecisionSubmission _ _ _ _ => .recallDecisionSubmissions
  | .CreateReversal _ _ => .reversals
  | .CreateReversalSubmission _ _ _ => .reversalSubmissions
  | .CreateSubscription _ => .subscriptions

/-- The composite key a Create call computes. -/
def CreateCall.key : CreateCall → String
  | .CreatePayment p => p.ID
  | .CreatePaymentSubmission paymentID s => key2 paymentID s.ID
  | .CreatePaymentAdmission paymentID a => key2 paymentID a.ID
  | .CreateAdmissionTask paymentID admissionID t => key3 paymentID admissionID t.ID
  | .CreateReturn paymentID r => key2 paymentID r.ID
  | .CreateReturnSubmission paymentID returnID s => key3 paymentID returnID s.ID
  | .CreateRecall paymentID r => key2 paymentID r.ID
  | .CreateRecallSubmission paymentID recallID s => key3 paymentID recallID s.ID
  | .CreateRecallDecision paymentID recallID d => key3 paymentID recallID d.ID
  | .CreateRecallDecisionSubmission paymentID recallID decisionID s => key4 paymentID recallID decisionID s.ID
  | .CreateReversal paymentID r => key2 paymentID r.ID
  | .CreateReversalSubmission paymentID reversalID s => key3 paymentID reversalID s.ID
  | .CreateSubscription s => s.ID

/-- The record a Create call passes. -/
def CreateCall.value : CreateCall → Value
  | .CreatePayment p => .payments p
  | .CreatePaymentSubmission _ s => .paymentSubmissions s
  | .CreatePaymentAdmission _ a => .paymentAdmissions a
  | .CreateAdmissionTask _ _ t => .admissionTasks t
  | .CreateReturn _ r => .returns r
  | .CreateReturnSubmission _ _ s => .returnSubmissions s
  | .CreateRecall _ r => .recalls r
  | .CreateRecallSubmission _ _ s => .recallSubmissions s
  | .CreateRecallDecision _ _ d => .recallDecisions d
  | .CreateRecallDecisionSubmission _ _ _ s => .recallDecisionSubmissions s
  | .CreateReversal _ r => .reversals r
  | .CreateReversalSubmission _ _ s => .reversalSubmissions s
  | .CreateSubscription s => .subscriptions s

/-- The Create methods, by call. -/
def MemoryStore.create (m : MemoryStore) : CreateCall → Option Error × MemoryStore
  | .CreatePayment p => m.CreatePayment p
  | .CreatePaymentSubmission paymentID s => m.CreatePaymentSubmission paymentID s
  | .CreatePaymentAdmission paymentID a => m.CreatePaymentAdmission paymentID a
  | .CreateAdmissionTask paymentID admissionID t => m.CreateAdmissionTask paymentID admissionID t
  | .CreateReturn paymentID r => m.CreateReturn paymentID r
  | .CreateReturnSubmission paymentID returnID s => m.CreateReturnSubmission paymentID returnID s
  | .CreateRecall paymentID r => m.CreateRecall paymentID r
  | .CreateRecallSubmission paymentID recallID s => m.CreateRecallSubmission paymentID recallID s
  | .CreateRecallDecision paymentID recallID d => m.CreateRecallDecision paymentID recallID d
  | .CreateRecallDecisionSubmission paymentID recallID decisionID s => m.CreateRecallDecisionSubmission paymentID recallID decisionID s
  | .CreateReversal paymentID r => m.CreateReversal paymentID r
  | .CreateReversalSubmission paymentID reversalID s => m.CreateReversalSubmission paymentID reversalID s
  | .CreateSubscription s => m.CreateSubscription s

/-- A call of one of the Get methods, with its arguments. -/
inductive GetCall where
  | GetPayment (id : String)
  | GetPaymentSubmission (paymentID submissionID : String)
  | GetPaymentAdmission (paymentID admissionID : String)
  | GetAdmissionTask (paymentID admissionID taskID : String)
  | GetReturn (paymentID returnID : String)
  | GetReturnSubmission (paymentID returnID submissionID : String)
  | GetRecall (paymentID recallID : String)
  | GetRecallSubmission (paymentID recallID submissionID : String)
  | GetRecallDecision (paymentID recallID decisionID : String)
  | GetRecallDecisionSubmission (paymentID recallID decisionID submissionID : String)
  | GetReversal (paymentID reversalID : String)
  | GetReversalSubmission (paymentID reversalID submissionID : String)
  | GetSubscription (id : String)

/-- The map a Get call reads. -/
def GetCall.kind : GetCall → Kind
  | .GetPayment _ => .payments
  | .GetPaymentSubmission _ _ => .paymentSubmissions
  | .GetPaymentAdmission _ _ => .paymentAdmissions
  | .GetAdmissionTask _ _ _ => .admissionTasks
  | .GetReturn _ _ => .returns
  | .GetReturnSubmission _ _ _ => .returnSubmissions
  | .GetRecall _ _ => .recalls
  | .GetRecallSubmission _ _ _ => .recallSubmissions
  | .GetRecallDecision _ _ _ => .recallDecisions
  | .GetRecallDecisionSubmission _ _ _ _ => .recallDecisionSubmissions
  | .GetReversal _ _ => .reversals
  | .GetReversalSubmission _ _ _ => .reversalSubmissions
  | .GetSubscription _ => .subscriptions

/-- The composite key a Get call computes. -/
def GetCall.key : GetCall → String
  | .GetPayment id => id
  | .GetPaymentSubmission paymentID submissionID => key2 paymentID submissionID
  | .GetPaymentAdmission paymentID admissionID => key2 paymentID admissionID
  | .GetAdmissionTask paymentID admissionID taskID => key3 paymentID admissionID taskID
  | .GetReturn paymentID returnID => key2 paymentID returnID
  | .GetReturnSubmission paymentID returnID submissionID => key3 paymentID returnID submissionID
  | .GetRecall paymentID recallID => key2 paymentID recallID
  | .GetRecallSubmission paymentID recallID submissionID => key3 paymentID recallID submissionID
  | .GetRecallDecision paymentID recallID decisionID => key3 paymentID recallID decisionID
  | .GetRecallDecisionSubmission paymentID recallID decisionID submissionID => key4 paymentID recallID decisionID submissionID
  | .GetReversal paymentID reversalID => key2 paymentID reversalID
  | .GetReversalSubmission paymentID reversalID submissionID => key3 paymentID reversalID submissionID
  | .GetSubscription id => id

/-- The Get methods, by call: the returned record and the returned error. -/
def MemoryStore.get (m : MemoryStore) : GetCall → Value × Option Error
  | .GetPayment id =>
    (.payments (m.GetPayment id).1, (m.GetPayment id).2)
  | .GetPaymentSubmission paymentID submissionID =>
    (.paymentSubmissions (m.GetPaymentSubmission paymentID submissionID).1, (m.GetPaymentSubmission paymentID submissionID).2)
  | .GetPaymentAdmission paymentID admissionID =>
    (.paymentAdmissions (m.GetPaymentAdmission paymentID admissionID).1, (m.GetPaymentAdmission paymentID admissionID).2)
  | .GetAdmissionTask paymentID admissionID taskID =>
    (.admissionTasks (m.GetAdmissionTask paymentID admissionID taskID).1, (m.GetAdmissionTask paymentID admissionID taskID).2)
  | .GetReturn paymentID returnID =>
    (.returns (m.GetReturn paymentID returnID).1, (m.GetReturn paymentID returnID).2)
  | .GetReturnSubmission paymentID returnID submissionID =>
    (.returnSubmissions (m.GetReturnSubmission paymentID returnID submissionID).1, (m.GetReturnSubmission paymentID returnID submissionID).2)
  | .GetRecall paymentID recallID =>
    (.recalls (m.GetRecall paymentID recallID).1, (m.GetRecall paymentID recallID).2)
  | .GetRecallSubmission paymentID recallID submissionID =>
    (.recallSubmissions (m.GetRecallSubmission paymentID recallID submissionID).1, (m.GetRecallSubmission paymentID recallID submissionID).2)
  | .GetRecallDecision paymentID recallID decisionID =>
    (.recallDecisions (m.GetRecallDecision paymentID recallID decisionID).1, (m.GetRecallDecision paymentID recallID decisionID).2)
  | .GetRecallDecisionSubmission paymentID recallID decisionID submissionID =>
    (.recallDecisionSubmissions (m.GetRecallDecisionSubmission paymentID recallID decisionID submissionID).1, (m.GetRecallDecisionSubmission paymentID recallID decisionID submissionID).2)
  | .GetReversal paymentID reversalID =>
    (.reversals (m.GetReversal paymentID reversalID).1, (m.GetReversal paymentID reversalID).2)
  | .GetReversalSubmission paymentID reversalID submissionID =>
    (.reversalSubmissions (m.GetReversalSubmission paymentID reversalID submissionID).1, (m.GetReversalSubmission paymentID reversalID submissionID).2)
  | .GetSubscription id =>
    (.subscriptions (m.GetSubscription id).1, (m.GetSubscription id).2)

/-- The Get call that addresses the record of a Create call: the same
ancestors, and the identifier of the record. -/
def CreateCall.getCall : CreateCall → GetCall
  | .CreatePayment p => .GetPayment p.ID
  | .CreatePaymentSubmission paymentID s => .GetPaymentSubmission paymentID s.ID
  | .CreatePaymentAdmission paymentID a => .GetPaymentAdmission paymentID a.ID
  | .CreateAdmissionTask paymentID admissionID t => .GetAdmissionTask paymentID admissionID t.ID
  | .CreateReturn paymentID r => .GetReturn paymentID r.ID
  | .CreateReturnSubmission paymentID returnID s => .GetReturnSubmission paymentID returnID s.ID
  | .CreateRecall paymentID r => .GetRecall paymentID r.ID
  | .CreateRecallSubmission paymentID recallID s => .GetRecallSubmission paymentID recallID s.ID
  | .CreateRecallDecision paymentID recallID d => .GetRecallDecision paymentID recallID d.ID
  | .CreateRecallDecisionSubmission paymentID recallID decisionID s => .GetRecallDecisionSubmission paymentID recallID decisionID s.ID
  | .CreateReversal paymentID r => .GetReversal paymentID r.ID
  | .CreateReversalSubmission paymentID reversalID s => .GetReversalSubmission paymentID reversalID s.ID
  | .CreateSubscription s => .GetSubscription s.ID

/-- A call of one of the Update methods, with its arguments. -/
inductive UpdateCall where
  | UpdatePayment (p : Payment)
  | UpdatePaymentSubmission (paymentID : String) (s : PaymentSubmission)
  | UpdatePaymentAdmission (paymentID : String) (a : PaymentAdmission)
  | UpdateAdmissionTask (paymentID admissionID : String) (t : AdmissionTask)
  | UpdateReturnSubmission (paymentID returnID : String) (s : ReturnSubmission)
  | UpdateRecallSubmission (paymentID recallID : String) (s : RecallSubmission)
  | UpdateRecallDecisionSubmission (paymentID recallID decisionID : String) (s : RecallDecisionSubmission)
  | UpdateReversalSubmission (paymentID reversalID : String) (s : ReversalSubmission)
  | UpdateSubscription (s : Subscription)

/-- The map an Update call writes to. -/
def UpdateCall.kind : UpdateCall → Kind
  | .UpdatePayment _ => .payments
  | .UpdatePaymentSubmission _ _ => .paymentSubmissions
  | .UpdatePaymentAdmission _ _ => .paymentAdmissions
  | .UpdateAdmissionTask _ _ _ => .admissionTasks
  | .UpdateReturnSubmission _ _ _ => .returnSubmissions
  | .UpdateRecallSubmission _ _ _ => .recallSubmissions
  | .UpdateRecallDecisionSubmission _ _ _ _ => .recallDecisionSubmissions
  | .UpdateReversalSubmission _ _ _ => .reversalSubmissions
  | .UpdateSubscription _ => .subscriptions

/-- The composite key an Update call computes. -/
def UpdateCall.key : UpdateCall → String
  | .UpdatePayment p => p.ID
  | .UpdatePaymentSubmission paymentID s => key2 paymentID s.ID
  | .UpdatePaymentAdmission paymentID a => key2 paymentID a.ID
  | .UpdateAdmissionTask paymentID admissionID t => key3 paymentID admissionID t.ID
  | .UpdateReturnSubmission paymentID returnID s => key3 paymentID returnID s.ID
  | .UpdateRecallSubmission paymentID recallID s => key3 paymentID recallID s.ID
  | .UpdateRecallDecisionSubmission paymentID recallID decisionID s => key4 paymentID recallID decisionID s.ID
  | .UpdateReversalSubmission paymentID reversalID s => key3 paymentID reversalID s.ID
  | .UpdateSubscription s => s.ID

/-- The record an Update call passes. -/
def UpdateCall.value : UpdateCall → Value
  | .UpdatePayment p => .payments p
  | .UpdatePaymentSubmission _ s => .paymentSubmissions s
  | .UpdatePaymentAdmission _ a => .paymentAdmissions a
  | .UpdateAdmissionTask _ _ t => .admissionTasks t
  | .UpdateReturnSubmission _ _ s => .returnSubmissions s
  | .UpdateRecallSubmission _ _ s => .recallSubmissions s
  | .UpdateRecallDecisionSubmission _ _ _ s => .recallDecisionSubmissions s
  | .UpdateReversalSubmission _ _ s => .reversalSubmissions s
  | .UpdateSubscription s => .subscriptions s

/-- The Update methods, by call. -/
def MemoryStore.update (m : MemoryStore) : UpdateCall → Option Error × MemoryStore
  | .UpdatePayment p => m.UpdatePayment p
  | .UpdatePaymentSubmission paymentID s => m.UpdatePaymentSubmission paymentID s
  | .UpdatePaymentAdmission paymentID a => m.UpdatePaymentAdmission paymentID a
  | .UpdateAdmissionTask paymentID admissionID t => m.UpdateAdmissionTask paymentID admissionID t
  | .UpdateReturnSubmission paymentID returnID s => m.UpdateReturnSubmission paymentID returnID s
  | .UpdateRecallSubmission paymentID recallID s => m.UpdateRecallSubmission paymentID recallID s
  | .UpdateRecallDecisionSubmission paymentID recallID decisionID s => m.UpdateRecallDecisionSubmission paymentID recallID decisionID s
  | .UpdateReversalSubmission paymentID reversalID s => m.UpdateReversalSubmission paymentID reversalID s
  | .UpdateSubscription s => m.UpdateSubscription s

/-- The Get call that addresses the record of an Update call. -/
def UpdateCall.getCall : UpdateCall → GetCall
  | .UpdatePayment p => .GetPayment p.ID
  | .UpdatePaymentSubmission paymentID s => .GetPaymentSubmission paymentID s.ID
  | .UpdatePaymentAdmission paymentID a => .GetPaymentAdmission paymentID a.ID
  | .UpdateAdmissionTask paymentID admissionID t => .GetAdmissionTask paymentID admissionID t.ID
  | .UpdateReturnSubmission paymentID returnID s => .GetReturnSubmission paymentID returnID s.ID
  | .UpdateRecallSubmission paymentID recallID s => .GetRecallSubmission paymentID recallID s.ID
  | .UpdateRecallDecisionSubmission paymentID recallID decisionID s => .GetRecallDecisionSubmission paymentID recallID decisionID s.ID
  | .UpdateReversalSubmission paymentID reversalID s => .GetReversalSubmission paymentID reversalID s.ID
  | .UpdateSubscription s => .GetSubscription s.ID

/-- A call of one of the List methods, with its arguments. -/
inductive ListCall where
  | ListPayments
  | ListPaymentSubmissions (paymentID : String)
  | ListPaymentAdmissions (paymentID : String)
  | ListReturns (paymentID : String)
  | ListReturnSubmissions (paymentID returnID : String)
  | ListRecalls (paymentID : String)
  | ListRecallSubmissions (paymentID recallID : String)
  | ListRecallDecisions (paymentID recallID : String)
  | ListRecallDecisionSubmissions (paymentID recallID decisionID : String)
  | ListReversals (paymentID : String)
  | ListReversalSubmissions (paymentID reversalID : String)
  | ListSubscriptions

/-- The map a List call reads. -/
def ListCall.kind : ListCall → Kind
  | .ListPayments => .payments
  | .ListPaymentSubmissions _ => .paymentSubmissions
  | .ListPaymentAdmissions _ => .paymentAdmissions
  | .ListReturns _ => .returns
  | .ListReturnSubmissions _ _ => .returnSubmissions
  | .ListRecalls _ => .recalls
  | .ListRecallSubmissions _ _ => .recallSubmissions
  | .ListRecallDecisions _ _ => .recallDecisions
  | .ListRecallDecisionSubmissions _ _ _ => .recallDecisionSubmissions
  | .ListReversals _ => .reversals
  | .ListReversalSubmissions _ _ => .reversalSubmissions
  | .ListSubscriptions => .subscriptions

/-- The List methods, by call. -/
def MemoryStore.list (m : MemoryStore) : ListCall → List Value
  | .ListPayments => (m.ListPayments).map Value.payments
  | .ListPaymentSubmissions paymentID => (m.ListPaymentSubmissions paymentID).map Value.paymentSubmissions
  | .ListPaymentAdmissions paymentID => (m.ListPaymentAdmissions paymentID).map Value.paymentAdmissions
  | .ListReturns paymentID => (m.ListReturns paymentID).map Value.returns
  | .ListReturnSubmissions paymentID returnID => (m.ListReturnSubmissions paymentID returnID).map Value.returnSubmissions
  | .ListRecalls paymentID => (m.ListRecalls paymentID).map Value.recalls
  | .ListRecallSubmissions paymentID recallID => (m.ListRecallSubmissions paymentID recallID).map Value.recallSubmissions
  | .ListRecallDecisions paymentID recallID => (m.ListRecallDecisions paymentID recallID).map Value.recallDecisions
  | .ListRecallDecisionSubmissions paymentID recallID decisionID => (m.ListRecallDecisionSubmissions paymentID recallID decisionID).map Value.recallDecisionSubmissions
  | .ListReversals paymentID => (m.ListReversals paymentID).map Value.reversals
  | .ListReversalSubmissions paymentID reversalID => (m.ListReversalSubmissions paymentID reversalID).map Value.reversalSubmissions
  | .ListSubscriptions => (m.ListSubscriptions).map Value.subscriptions

/-- The List call of the parent a Create call names; there is no List method
for admission tasks. -/
def CreateCall.listCall : CreateCall → Option ListCall
  | .CreatePayment _ => some (.ListPayments)
  | .CreatePaymentSubmission paymentID _ => some (.ListPaymentSubmissions paymentID)
  | .CreatePaymentAdmission paymentID _ => some (.ListPaymentAdmissions paymentID)
  | .CreateAdmissionTask _ _ _ => none
  | .CreateReturn paymentID _ => some (.ListReturns paymentID)
  | .CreateReturnSubmission paymentID returnID _ => some (.ListReturnSubmissions paymentID returnID)
  | .CreateRecall paymentID _ => some (.ListRecalls paymentID)
  | .CreateRecallSubmission paymentID recallID _ => some (.ListRecallSubmissions paymentID recallID)
  | .CreateRecallDecision paymentID recallID _ => some (.ListRecallDecisions paymentID recallID)
  | .CreateRecallDecisionSubmission paymentID recallID decisionID _ => some (.ListRecallDecisionSubmissions paymentID recallID decisionID)
  | .CreateReversal paymentID _ => some (.ListReversals paymentID)
  | .CreateReversalSubmission paymentID reversalID _ => some (.ListReversalSubmissions paymentID reversalID)
  | .CreateSubscription _ => some (.ListSubscriptions)

/-- The identifier of the record a Create call passes. -/
def CreateCall.id : CreateCall → String
  | .CreatePayment p => p.ID
  | .CreatePaymentSubmission _ s => s.ID
  | .CreatePaymentAdmission _ a => a.ID
  | .CreateAdmissionTask _ _ t => t.ID
  | .CreateReturn _ r => r.ID
  | .CreateReturnSubmission _ _ s => s.ID
  | .CreateRecall _ r => r.ID
  | .CreateRecallSubmission _ _ s => s.ID
  | .CreateRecallDecision _ _ d => d.ID
  | .CreateRecallDecisionSubmission _ _ _ s => s.ID
  | .CreateReversal _ r => r.ID
  | .CreateReversalSubmission _ _ s => s.ID
  | .CreateSubscription s => s.ID

/-- The ancestor identifiers a Create call names, outermost first. -/
def CreateCall.parents : CreateCall → List String
  | .CreatePayment _ => []
  | .CreatePaymentSubmission paymentID _ => [paymentID]
  | .CreatePaymentAdmission paymentID _ => [paymentID]
  | .CreateAdmissionTask paymentID admissionID _ => [paymentID, admissionID]
  | .CreateReturn paymentID _ => [paymentID]
  | .CreateReturnSubmission paymentID returnID _ => [paymentID, returnID]
  | .CreateRecall paymentID _ => [paymentID]
  | .CreateRecallSubmission paymentID recallID _ => [paymentID, recallID]
  | .CreateRecallDecision paymentID recallID _ => [paymentID, recallID]
  | .CreateRecallDecisionSubmission paymentID recallID decisionID _ => [paymentID, recallID, decisionID]
  | .CreateReversal paymentID _ => [paymentID]
  | .CreateReversalSubmission paymentID reversalID _ => [paymentID, reversalID]
  | .CreateSubscription _ => []

/-- The ancestor identifiers an Update call names, outermost first. -/
def UpdateCall.parents : UpdateCall → List String
  | .UpdatePayment _ => []
  | .UpdatePaymentSubmission paymentID _ => [paymentID]
  | .UpdatePaymentAdmission paymentID _ => [paymentID]
  | .UpdateAdmissionTask paymentID admissionID _ => [paymentID, admissionID]
  | .UpdateReturnSubmission paymentID returnID _ => [paymentID, returnID]
  | .UpdateRecallSubmission paymentID recallID _ => [paymentID, recallID]
  | .UpdateRecallDecisionSubmission paymentID recallID decisionID _ => [paymentID, recallID, decisionID]
  | .UpdateReversalSubmission paymentID reversalID _ => [paymentID, reversalID]
  | .UpdateSubscription _ => []

/-- The ancestor identifiers a List call names, outermost first. -/
def ListCall.parents : ListCall → List String
  | .ListPayments => []
  | .ListPaymentSubmissions paymentID => [paymentID]
  | .ListPaymentAdmissions paymentID => [paymentID]
  | .ListReturns paymentID => [paymentID]
  | .ListReturnSubmissions paymentID returnID => [paymentID, returnID]
  | .ListRecalls paymentID => [paymentID]
  | .ListRecallSubmissions paymentID recallID => [paymentID, recallID]
  | .ListRecallDecisions paymentID recallID => [paymentID, recallID]
  | .ListRecallDecisionSubmissions paymentID recallID decisionID => [paymentID, recallID, decisionID]
  | .ListReversals paymentID => [paymentID]
  | .ListReversalSubmissions paymentID reversalID => [paymentID, reversalID]
  | .ListSubscriptions => []

/-! ## Sample records and runs -/

/-- The payment of the store tests: `newPayment(id)`, built at instant `now`. -/
def newPayment (id : String) (now : Time) : Payment :=
  { Typ := ResourceTypePayment, ID := id, OrganisationID := "", Version := 0,
    CreatedOn := now, ModifiedOn := 0,
    Attributes :=
      { Amount := "100.00", Currency := "GBP", EndToEndReference := "", NumericReference := "",
        PaymentScheme := "", PaymentType := "", ProcessingDate := "", Reference := "",
        SchemePaymentSubType := "", SchemePaymentType := "", BeneficiaryParty := none,
        DebtorParty := none, ChargesInformation := none, Fx := none },
    Relationships := none }

/-- A payment submission with the given identifier and status, every other
field at its zero value, as the store tests build them. -/
def newSubmission (id status : String) : PaymentSubmission :=
  { Typ := ResourceTypePaymentSubmission, ID := id, OrganisationID := "", Version := 0,
    CreatedOn := 0, ModifiedOn := 0,
    Attributes := { Status := status, SubmissionDate := "", SchemeStatusCode := "" } }

/-- A recall decision submission with the given identifier and status. -/
def newDecisionSubmission (id status : String) : RecallDecisionSubmission :=
  { Typ := ResourceTypeRecallDecisionSubmission, ID := id, OrganisationID := "", Version := 0,
    CreatedOn := 0, ModifiedOn := 0,
    Attributes := { Status := status, SubmissionDate := "" } }

/-- A subscription with the given identifier, interest and activity flag. -/
def newSubscription (id uri eventType recordType : String) (active : Bool) : Subscription :=
  { Typ := ResourceTypeSubscription, ID := id, OrganisationID := "", Version := 0,
    CreatedOn := 0, ModifiedOn := 0,
    Attributes :=
      { CallbackURI := uri, EventType := eventType, RecordType := recordType,
        IsActive := active, CallbackTransport := "", UserID := "" } }

/-- The Create calls of a list, made one after the other: the errors they
return, in order, and the store after the last. -/
def runCreates (m : MemoryStore) : List CreateCall → List (Option Error) × MemoryStore
  | [] => ([], m)
  | c :: cs => ((m.create c).1 :: (runCreates (m.create c).2 cs).1,
      (runCreates (m.create c).2 cs).2)

/-- A call of the `Store` interface: one of the Create, Get, List and Update
methods, DeleteSubscription or MatchSubscriptions. -/
inductive StoreCall where
  | create (c : CreateCall)
  | get (g : GetCall)
  | list (l : ListCall)
  | update (u : UpdateCall)
  | DeleteSubscription (id : String)
  | MatchSubscriptions (recordType eventType : String)

/-- The store after a call. The Get and List methods and MatchSubscriptions take
the read lock and assign to no map: the store after them is the store before
them. -/
def MemoryStore.after (m : MemoryStore) : StoreCall → MemoryStore
  | .create c => (m.create c).2
  | .get _ => m
  | .list _ => m
  | .update u => (m.update u).2
  | .DeleteSubscription id => (m.DeleteSubscription id).2
  | .MatchSubscriptions _ _ => m

/-- The prefix a List call compares the keys with (`prefix` in the Go code);
ListPayments and ListSubscriptions compare nothing and return every record. -/
def ListCall.pfx : ListCall → Option String
  | .ListPayments => none
  | .ListPaymentSubmissions paymentID => some (paymentID ++ ":")
  | .ListPaymentAdmissions paymentID => some (paymentID ++ ":")
  | .ListReturns paymentID => some (paymentID ++ ":")
  | .ListReturnSubmissions paymentID returnID => some (key2 paymentID returnID ++ ":")
  | .ListRecalls paymentID => some (paymentID ++ ":")
  | .ListRecallSubmissions paymentID recallID => some (key2 paymentID recallID ++ ":")
  | .ListRecallDecisions paymentID recallID => some (key2 paymentID recallID ++ ":")
  | .ListRecallDecisionSubmissions paymentID recallID decisionID =>
    some (key3 paymentID recallID decisionID ++ ":")
  | .ListReversals paymentID => some (paymentID ++ ":")
  | .ListReversalSubmissions paymentID reversalID => some (key2 paymentID reversalID ++ ":")
  | .ListSubscriptions => none

/-- Whether a List call returns the record held under key `k`: always for the
two lists without a parent, and when `k` passes the test of the loop for the
others. -/
def ListCall.selects (l : ListCall) (k : String) : Bool :=
  match l.pfx with
  | none => true
  | some p => keyUnder k p

/-- The identifier of the record an Update call passes. -/
def UpdateCall.id : UpdateCall → String
  | .UpdatePayment p => p.ID
  | .UpdatePaymentSubmission _ s => s.ID
  | .UpdatePaymentAdmission _ a => a.ID
  | .UpdateAdmissionTask _ _ t => t.ID
  | .UpdateReturnSubmission _ _ s => s.ID
  | .UpdateRecallSubmission _ _ s => s.ID
  | .UpdateRecallDecisionSubmission _ _ _ s => s.ID
  | .UpdateReversalSubmission _ _ s => s.ID
  | .UpdateSubscription s => s.ID

/-- A call that writes a record: a Create or an Update. -/
inductive WriteCall where
  | create (c : CreateCall)
  | update (u : UpdateCall)

/-- The map a write call writes to. -/
def WriteCall.kind : WriteCall → Kind
  | .create c => c.kind
  | .update u => u.kind

/-- The composite key a write call computes. -/
def WriteCall.key : WriteCall → String
  | .create c => c.key
  | .update u => u.key

/-- The record a write call passes. -/
def WriteCall.value : WriteCall → Value
  | .create c => c.value
  | .update u => u.value

/-- The ancestor identifiers a write call names, outermost first. -/
def WriteCall.parents : WriteCall → List String
  | .create c => c.parents
  | .update u => u.parents

/-- The identifier of the record a write call passes. -/
def WriteCall.id : WriteCall → String
  | .create c => c.id
  | .update u => u.id

/-- The Create and Update methods, by call. -/
def MemoryStore.write (m : MemoryStore) : WriteCall → Option Error × MemoryStore
  | .create c => m.create c
  | .update u => m.update u

/-- The write calls of a list, made one after the other: the log of each call
with the error it returned, in order, and the store after the last. -/
def runWrites (m : MemoryStore) : List WriteCall → List (WriteCall × Option Error) × MemoryStore
  | [] => ([], m)
  | w :: ws => ((w, (m.write w).1) :: (runWrites (m.write w).2 ws).1,
      (runWrites (m.write w).2 ws).2)

/-- The characters of ancestor identifiers, each followed by the separator: what
the key functions put in front of the last identifier. -/
def joinParents : List String → List Char
  | [] => []
  | a :: as => a.data ++ ':' :: joinParents as

/-- The record held under `k` in the map of `kd` was passed by a call of the log
that returned nil, and `k` was created by a Create call of the log that
returned nil. -/
def Written (log : List (WriteCall × Option Error)) (kd : Kind) (k : String) (v : Value) :
    Prop :=
  (∃ w, (w, none) ∈ log ∧ w.kind = kd ∧ w.key = k ∧ w.value = v) ∧
  (∃ c, (WriteCall.create c, none) ∈ log ∧ c.kind = kd ∧ c.key = k)

/-! ## The transition driver (`internal/lifecycle`)

The goroutine of `StartTransition` runs over a state `W` that its closures read
and write; `time.Sleep` is a function on that state. The functions below are
the body of the goroutine run from its first statement to its return. -/

/-- StatusChain defines the sequence of statuses a resource transitions through. -/
abbrev StatusChain := List String

/-- PaymentSubmissionChain is the status lifecycle for payment submissions. -/
def PaymentSubmissionChain : StatusChain :=
  ["accepted", "validation_pending", "limit_check_pending", "limit_check_passed",
   "released_to_gateway", "queued_for_delivery", "submitted", "delivery_confirmed"]

/-- AdmissionChain is the status lifecycle for payment admissions. -/
def AdmissionChain : StatusChain := ["pending", "confirmed"]

/-- SimpleSubmissionChain is the status lifecycle for return/recall/reversal
submissions. -/
def SimpleSubmissionChain : StatusChain := ["accepted", "delivery_confirmed"]

/-- StatusUpdater is a closure that updates the status of a resource: the error
it returns and the state it leaves. -/
abbrev StatusUpdater (W : Type) := String → W → Option Error × W

/-- StatusChangeCallback is called after each status transition, with
`resourceType`, `resourceID` and `newStatus`. -/
abbrev StatusChangeCallback (W : Type) := String → String → String → W → W

/-- Engine manages async status transitions; `onChange` may be nil. -/
structure Engine (W : Type) where
  stepDelay : Int
  onChange : Option (StatusChangeCallback W)

/-- The value of an arithmetic result in `int64` (and so in `time.Duration`):
two's complement on 64 bits, it wraps around. -/
def wrapInt64 (x : Int) : Int :=
  (x + 9223372036854775808) % 18446744073709551616 - 9223372036854775808

/-- NewEngine creates a new lifecycle engine; the delay
`time.Duration(stepDelayMs) * time.Millisecond` is kept in nanoseconds and is
the product in `int64`, which wraps around for a delay beyond 9223372036854 ms. -/
def NewEngine {W : Type} (stepDelayMs : Int) (onChange : Option (StatusChangeCallback W)) :
    Engine W :=
  { stepDelay := wrapInt64 (stepDelayMs * 1000000), onChange := onChange }

/-- The loop `for i := 1; i < len(chain); i++` of the goroutine, on the statuses
`chain[i:]` that are left: sleep, call the updater, return when it fails,
otherwise call `onChange` when it is not nil and go on. -/
def Engine.steps {W : Type} (e : Engine W) (sleep : Int → W → W)
    (resourceType resourceID : String) (updater : StatusUpdater W) : List String → W → W
  | [], w => w
  | newStatus :: rest, w =>
    match updater newStatus (sleep e.stepDelay w) with
    | (some _, w2) => w2
    | (none, w2) =>
      match e.onChange with
      | some f => e.steps sleep resourceType resourceID updater rest
          (f resourceType resourceID newStatus w2)
      | none => e.steps sleep resourceType resourceID updater rest w2

/-- StartTransition begins an async status chain for a resource: the goroutine
skips the first status (already set at creation time) and steps through the
others. -/
def Engine.StartTransition {W : Type} (e : Engine W) (sleep : Int → W → W)
    (resourceType resourceID : String) (chain : StatusChain) (updater : StatusUpdater W) :
    W → W :=
  e.steps sleep resourceType resourceID updater (chain.drop 1)

/-! ## The webhook dispatcher (`internal/webhook/dispatcher.go`) -/

/-- The event a transition step hands to the dispatcher. -/
structure notification where
  resourceType : String
  resourceID : String
  eventType : String
deriving DecidableEq, Inhabited

/-- Dispatcher handles webhook notification delivery. Its channel `ch` is the
queue of buffered events, oldest first, with the capacity `bufferSize` it was
made with and the flag set by `close(d.ch)`. The store is the one of the state
the dispatcher runs in. -/
structure Dispatcher where
  ch : List notification
  bufferSize : Nat
  closed : Bool
deriving DecidableEq

/-- NewDispatcher creates a new webhook dispatcher, its channel empty. -/
def NewDispatcher (bufferSize : Nat) : Dispatcher :=
  { ch := [], bufferSize := bufferSize, closed := false }

/-- What became of a Notify call: the send of the `select` went through, the
`default` branch dropped the event, or the send hit a closed channel, which
panics. -/
inductive NotifyOutcome where
  | sent
  | dropped
  | panicked
deriving DecidableEq, Repr

/-- Notify enqueues a notification for delivery. This is the call at a moment
when no worker is parked in the receive of `for n := range d.ch`: the send of
the `select` goes through when the buffer has room, and the `default` branch
drops the event otherwise, which on an unbuffered channel (capacity 0) is
always. The call at a moment when a worker is parked in the receive, where the
send goes straight to that worker whatever the capacity, is `Pool.NotifyParked`,
since the workers belong to the pool. -/
def Dispatcher.Notify (d : Dispatcher) (resourceType resourceID eventType : String) :
    NotifyOutcome × Dispatcher :=
  if d.closed then (.panicked, d)
  else if d.ch.length < d.bufferSize then
    (.sent, { d with ch := d.ch ++ [{ resourceType := resourceType, resourceID := resourceID,
                                      eventType := eventType }] })
  else (.dropped, d)

/-- Close shuts down the dispatcher. -/
def Dispatcher.Close (d : Dispatcher) : Dispatcher := { d with closed := true }

/-- An outbound call `d.client.Do(req)`: a POST to `uri` with the given
Content-Type header and the payload that was marshalled into the body. -/
structure Post where
  uri : String
  contentType : String
  payload : Notification
deriving DecidableEq

/-- The loop of `deliver` over the matching subscriptions: a request that cannot
be built (`requestOK` is false for its address) is skipped, every other one is
sent, whatever the outcome of the ones before. -/
def deliverLoop (requestOK : String → Bool) (payload : Notification) :
    List Subscription → List Post
  | [] => []
  | sub :: subs =>
    if requestOK sub.Attributes.CallbackURI then
      { uri := sub.Attributes.CallbackURI, contentType := "application/json",
        payload := payload } :: deliverLoop requestOK payload subs
    else deliverLoop requestOK payload subs

/-- The outbound calls `deliver` makes for an event: `id` is the fresh UUID and
`now` the clock reading it draws, `requestOK` says for which addresses
`http.NewRequest` builds a request. The payload always marshals. -/
def deliver (m : MemoryStore) (requestOK : String → Bool) (id : String) (now : Time)
    (n : notification) : List Post :=
  let subs := m.MatchSubscriptions n.resourceType n.eventType
  if subs.length = 0 then []
  else
    deliverLoop requestOK
      { ID := id, OrganisationID := "", Typ := "notifications", Version := 0, CreatedOn := now,
        Data := { RecordType := n.resourceType, EventType := n.eventType,
                  ResourceID := n.resourceID } }
      subs

/-! ## The process (`cmd/server/main.go`) -/

/-- The state the goroutines of the server share: the store, the dispatcher, the
clock, the outbound calls made so far, and whether a goroutine has panicked. -/
structure World where
  store : MemoryStore
  dispatcher : Dispatcher
  clock : Time
  posts : List Post
  crashed : Bool

/-- The call `time.Sleep(d)`: the clock moves on by `d`; a negative or zero
duration makes the call return at once. -/
def World.sleep (d : Int) (w : World) : World := { w with clock := w.clock + max d 0 }

/-- The callback `main` gives to `NewEngine`:
`func(resourceType, resourceID, newStatus string) { dispatcher.Notify(resourceType, resourceID, newStatus) }`.
A send that panics is recovered nowhere and ends the process: the world is then
marked `crashed`, and what a function makes of a world so marked is no state of
the server. The runs of the server, `Sys.run`, stop at the mark. -/
def mainOnChange : StatusChangeCallback World := fun resourceType resourceID newStatus w =>
  match w.dispatcher.Notify resourceType resourceID newStatus with
  | (.panicked, d) => { w with dispatcher := d, crashed := true }
  | (_, d) => { w with dispatcher := d }

/-- The engine `main` builds. -/
def mainEngine (stepDelayMs : Int) : Engine World := NewEngine stepDelayMs (some mainOnChange)

/-- One turn of `for n := range d.ch { d.deliver(n) }` in a worker: the oldest
event leaves the queue and is delivered; with an empty queue nothing happens. -/
def World.workerStep (w : World) (requestOK : String → Bool) (id : String) : World :=
  match w.dispatcher.ch with
  | [] => w
  | n :: rest =>
    { w with dispatcher := { w.dispatcher with ch := rest },
             posts := w.posts ++ deliver w.store requestOK id w.clock n }

/-- The workers empty the queue, one event per turn; `fuel` bounds the number of
turns and the event handled with `n` turns left draws the UUID `uuid n`. -/
def World.drain (requestOK : String → Bool) (uuid : Nat → String) : Nat → World → World
  | 0, w => w
  | fuel + 1, w =>
    match w.dispatcher.ch with
    | [] => w
    | _ :: _ => World.drain requestOK uuid fuel (w.workerStep requestOK (uuid fuel))

/-- The updater closure of `PaymentSubmissionHandler.Create`: read the
submission, set its status and modification time, write it back. -/
def paymentSubmissionUpdater (paymentID submissionID : String) : StatusUpdater World :=
  fun newStatus w =>
    match w.store.GetPaymentSubmission paymentID submissionID with
    | (_, some err) => (some err, w)
    | (sub, none) =>
      let r := w.store.UpdatePaymentSubmission paymentID
        { sub with Attributes := { sub.Attributes with Status := newStatus },
                   ModifiedOn := w.clock }
      (r.1, { w with store := r.2 })

/-- A server state for the notification scenario: payment `p1`, its submission
`s1` at the first status of its chain, one active subscription for
("payment_submissions", "updated"), and an empty queue of capacity 1000. -/
def notifyScenario : World :=
  { store :=
      ((((NewMemoryStore.CreatePayment (newPayment "p1" 0)).2.CreatePaymentSubmission "p1"
          (newSubmission "s1" "accepted")).2).CreateSubscription
          (newSubscription "sub1" "http://example.com/hook" EventUpdated
            ResourceTypePaymentSubmission true)).2,
    dispatcher := NewDispatcher 1000,
    clock := 0,
    posts := [],
    crashed := false }

/-- The scenario after the transition of `s1` has run through its chain. -/
def notifyScenarioRun : World :=
  (mainEngine 500).StartTransition World.sleep ResourceTypePaymentSubmission "s1"
    PaymentSubmissionChain (paymentSubmissionUpdater "p1" "s1") notifyScenario

/-! ## The calls of a transition

The engine touches the state only through `time.Sleep`, the updater and
`onChange`. Each of the three is wrapped so that it also writes down the call
in a log kept beside the state; the log of a run is the sequence of calls the
goroutine made. -/

/-- A call made by the goroutine of a transition: `time.Sleep(d)`, the updater
with the error it returned, or `onChange`. -/
inductive Call where
  | sleep (d : Int)
  | updater (newStatus : String) (err : Option Error)
  | onChange (resourceType resourceID newStatus : String)
deriving DecidableEq

/-- A state with the log of the calls made so far. -/
abbrev Traced (S : Type) := S × List Call

/-- `time.Sleep`, logged. -/
def tracedSleep {S : Type} (sleep : Int → S → S) : Int → Traced S → Traced S :=
  fun d w => (sleep d w.1, w.2 ++ [Call.sleep d])

/-- An updater, logged with the error it returns. -/
def tracedUpdater {S : Type} (u : StatusUpdater S) : StatusUpdater (Traced S) :=
  fun newStatus w =>
    ((u newStatus w.1).1,
     ((u newStatus w.1).2, w.2 ++ [Call.updater newStatus (u newStatus w.1).1]))

/-- An `onChange` callback, logged. -/
def tracedOnChange {S : Type} (f : StatusChangeCallback S) : StatusChangeCallback (Traced S) :=
  fun resourceType resourceID newStatus w =>
    (f resourceType resourceID newStatus w.1,
     w.2 ++ [Call.onChange resourceType resourceID newStatus])

/-- An engine whose callback is logged. -/
def Engine.traced {S : Type} (e : Engine S) : Engine (Traced S) :=
  { stepDelay := e.stepDelay, onChange := e.onChange.map tracedOnChange }

/-- The calls the goroutine of `StartTransition` makes, in order, when it starts
in state `w`. -/
def transitionTrace {S : Type} (e : Engine S) (sleep : Int → S → S)
    (resourceType resourceID : String) (chain : StatusChain) (updater : StatusUpdater S)
    (w : S) : List Call :=
  (e.traced.StartTransition (tracedSleep sleep) resourceType resourceID chain
    (tracedUpdater updater) (w, [])).2

/-- The calls of successful steps through the statuses of a list: for each
status a sleep of `d`, the updater returning nil, and `onChange` when the
engine has a callback. -/
def successCalls (d : Int) (hasCallback : Bool) (resourceType resourceID : String) :
    List String → List Call
  | [] => []
  | s :: rest =>
    Call.sleep d :: Call.updater s none ::
      ((if hasCallback then [Call.onChange resourceType resourceID s] else []) ++
        successCalls d hasCallback resourceType resourceID rest)

/-! ## The dispatcher and its workers as a step system

`NewDispatcher` starts `workers` goroutines that loop over the channel. The
pool below is the dispatcher with those workers; an interleaving of producers
and workers is a list of actions, each atomic. -/

/-- The dispatcher with its worker pool: `workers` goroutines, `busy` of them
inside `deliver`, and the events that a worker has taken from the channel (whose
delivery has begun), in the order they were taken. -/
structure Pool where
  d : Dispatcher
  workers : Nat
  busy : Nat
  attempted : List notification
deriving DecidableEq

/-- The pool right after `NewDispatcher(s, bufferSize, workers)`. -/
def NewPool (bufferSize workers : Nat) : Pool :=
  { d := NewDispatcher bufferSize, workers := workers, busy := 0, attempted := [] }

/-- A step of the pool: a producer calls Notify, an idle worker receives the
oldest queued event and begins to deliver it, a busy worker comes back from
`deliver`, or Close is called. -/
inductive PoolAction where
  | notify (n : notification)
  | receive
  | finish
  | close
deriving DecidableEq

/-- One step of the pool. A receive needs an idle worker and a queued event, a
finish needs a busy worker; otherwise nothing happens. -/
def Pool.step (p : Pool) : PoolAction → Pool
  | .notify n => { p with d := (p.d.Notify n.resourceType n.resourceID n.eventType).2 }
  | .receive =>
    if p.busy < p.workers then
      match p.d.ch with
      | [] => p
      | n :: rest =>
        { p with d := { p.d with ch := rest }, busy := p.busy + 1,
                 attempted := p.attempted ++ [n] }
    else p
  | .finish => if 0 < p.busy then { p with busy := p.busy - 1 } else p
  | .close => { p with d := p.d.Close }

/-- The pool after the actions of a list, in order. -/
def Pool.run (p : Pool) (as : List PoolAction) : Pool := as.foldl Pool.step p

/-- Notify at a moment when an idle worker is parked in the receive of
`for n := range d.ch`. A worker is parked there only while the channel is open
and holds no event. The send case of the `select` is then ready whatever the
capacity of the channel: the event goes straight to that worker, which begins to
deliver it, and the buffer is not used. When no worker can be parked (all are
busy, or the channel holds an event, or it is closed) the call is Notify as
above. -/
def Pool.NotifyParked (p : Pool) (n : notification) : NotifyOutcome × Pool :=
  if p.d.closed = false ∧ p.busy < p.workers ∧ p.d.ch = [] then
    (.sent, { p with busy := p.busy + 1, attempted := p.attempted ++ [n] })
  else
    ((p.d.Notify n.resourceType n.resourceID n.eventType).1,
     { p with d := (p.d.Notify n.resourceType n.resourceID n.eventType).2 })

/-- A step of the pool in which a Notify call may find a worker parked in the
receive: a step as above (whose Notify finds none), or a Notify that finds
one. -/
inductive PoolMove where
  | act (a : PoolAction)
  | notifyParked (n : notification)
deriving DecidableEq

/-- One such step of the pool. -/
def Pool.move (p : Pool) : PoolMove → Pool
  | .act a => p.step a
  | .notifyParked n => (p.NotifyParked n).2

/-- The pool after the steps of a list, in order. -/
def Pool.moves (p : Pool) (ms : List PoolMove) : Pool := ms.foldl Pool.move p

/-! ## The attempts of `deliver`, with their outcomes -/

/-- What `d.client.Do(req)` returns: an error (the network failed or the call
timed out), or a response with its HTTP status. -/
inductive Reply where
  | netError
  | response (status : Nat)
deriving DecidableEq

/-- How the iteration of the loop of `deliver` for one subscription ends:
`http.NewRequest` fails, `client.Do` returns an error, or it returns a
response. -/
inductive Outcome where
  | buildError
  | transportError
  | response (status : Nat)
deriving DecidableEq

/-- A line `deliver` writes to the log inside its loop. -/
inductive LogLine where
  | requestBuildError (uri : String)
  | deliveryError (uri : String)
deriving DecidableEq

/-- One iteration of the loop of `deliver`: the address and payload of the
request it tries to send, how it ends, and the line it logs, if any. -/
structure Attempt where
  uri : String
  payload : Notification
  outcome : Outcome
  logged : Option LogLine
deriving DecidableEq

/-- The loop `for _, sub := range subs` of `deliver`, iteration by iteration:
`requestOK` says for which addresses `http.NewRequest` builds a request and
`reply i` is what `client.Do` returns in iteration `i`. A build error and a
call error are logged and the loop continues; a response has its body closed
and nothing else is done with it. -/
def attemptLoop (requestOK : String → Bool) (reply : Nat → Reply) (payload : Notification) :
    Nat → List Subscription → List Attempt
  | _, [] => []
  | i, sub :: subs =>
    if !requestOK sub.Attributes.CallbackURI then
      { uri := sub.Attributes.CallbackURI, payload := payload, outcome := .buildError,
        logged := some (.requestBuildError sub.Attributes.CallbackURI) }
        :: attemptLoop requestOK reply payload (i + 1) subs
    else
      match reply i with
      | .netError =>
        { uri := sub.Attributes.CallbackURI, payload := payload, outcome := .transportError,
          logged := some (.deliveryError sub.Attributes.CallbackURI) }
          :: attemptLoop requestOK reply payload (i + 1) subs
      | .response status =>
        { uri := sub.Attributes.CallbackURI, payload := payload,
          outcome := .response status, logged := none }
          :: attemptLoop requestOK reply payload (i + 1) subs

/-- The payload `deliver` builds for an event, with the UUID and the clock
reading it draws. -/
def deliverPayload (id : String) (now : Time) (n : notification) : Notification :=
  { ID := id, OrganisationID := "", Typ := "notifications", Version := 0, CreatedOn := now,
    Data := { RecordType := n.resourceType, EventType := n.eventType,
              ResourceID := n.resourceID } }

/-- The iterations `deliver` goes through for an event. -/
def deliverAttempts (m : MemoryStore) (requestOK : String → Bool) (reply : Nat → Reply)
    (id : String) (now : Time) (n : notification) : List Attempt :=
  let subs := m.MatchSubscriptions n.resourceType n.eventType
  if subs.length = 0 then []
  else attemptLoop requestOK reply (deliverPayload id now n) 0 subs

/-- The outbound call of an attempt whose request was built. -/
def Attempt.post (a : Attempt) : Option Post :=
  match a.outcome with
  | .buildError => none
  | _ => some { uri := a.uri, contentType := "application/json", payload := a.payload }

/-! ## The handlers of the kinds with a status chain (`internal/handlers`)

A handler reads the path values and the decoded body of the request, and the
store, the clock and the engine of the server. `uuid` is the identifier
`uuid.New()` returns when it is called, `formatDate` is
`Time.Format(time.DateOnly)`, and the body is the result of decoding the JSON
envelope: the record, or the message of the decoding error. A handler returns
the response it writes, the state it leaves, and the transition it has
started, if any: `StartTransition` only starts a goroutine, which runs
afterwards. -/

/-- The response of a handler: 201 Created with the record, or one of the error
documents of `jsonapi.WriteError` with its HTTP status, title and detail. -/
inductive Response (T : Type) where
  | Created (data : T)
  | Error (status : Nat) (title detail : String)

/-- The HTTP status of a response. -/
def Response.status {T : Type} : Response T → Nat
  | .Created _ => 201
  | .Error status _ _ => status

namespace jsonapi

def NotFound {T : Type} (resourceType id : String) : Response T :=
  .Error 404 "Not Found" (resourceType ++ " " ++ id ++ " not found")

def BadRequest {T : Type} (detail : String) : Response T :=
  .Error 400 "Bad Request" detail

def Conflict {T : Type} (detail : String) : Response T :=
  .Error 409 "Conflict" detail

def InternalError {T : Type} : Response T :=
  .Error 500 "Internal Server Error" ""

end jsonapi

/-- The arguments of a call of `StartTransition`: the goroutine that the call
starts. -/
structure Transition where
  resourceType : String
  resourceID : String
  chain : StatusChain
  updater : StatusUpdater World

/-- The goroutine of a started transition, run by the engine of the server from
its first statement to its return. -/
def Transition.run (t : Transition) (e : Engine World) : World → World :=
  e.StartTransition World.sleep t.resourceType t.resourceID t.chain t.updater

/-- What a Create handler has done when it returns. -/
structure Handled (T : Type) where
  response : Response T
  world : World
  started : Option Transition

/-- The updater closure of `PaymentAdmissionHandler.Create`. -/
def paymentAdmissionUpdater (paymentID admissionID : String) : StatusUpdater World :=
  fun newStatus w =>
    match w.store.GetPaymentAdmission paymentID admissionID with
    | (_, some err) => (some err, w)
    | (adm, none) =>
      let r := w.store.UpdatePaymentAdmission paymentID
        { adm with Attributes := { adm.Attributes with Status := newStatus },
                   ModifiedOn := w.clock }
      (r.1, { w with store := r.2 })

/-- The updater closure of `ReturnSubmissionHandler.Create`. -/
def returnSubmissionUpdater (paymentID returnID submissionID : String) : StatusUpdater World :=
  fun newStatus w =>
    match w.store.GetReturnSubmission paymentID returnID submissionID with
    | (_, some err) => (some err, w)
    | (sub, none) =>
      let r := w.store.UpdateReturnSubmission paymentID returnID
        { sub with Attributes := { sub.Attributes with Status := newStatus },
                   ModifiedOn := w.clock }
      (r.1, { w with store := r.2 })

/-- The updater closure of `RecallSubmissionHandler.Create`. -/
def recallSubmissionUpdater (paymentID recallID submissionID : String) : StatusUpdater World :=
  fun newStatus w =>
    match w.store.GetRecallSubmission paymentID recallID submissionID with
    | (_, some err) => (some err, w)
    | (sub, none) =>
      let r := w.store.UpdateRecallSubmission paymentID recallID
        { sub with Attributes := { sub.Attributes with Status := newStatus },
                   ModifiedOn := w.clock }
      (r.1, { w with store := r.2 })

/-- The updater closure of `RecallDecisionSubmissionHandler.Create`. -/
def recallDecisionSubmissionUpdater (paymentID recallID decisionID submissionID : String) : StatusUpdater World :=
  fun newStatus w =>
    match w.store.GetRecallDecisionSubmission paymentID recallID decisionID submissionID with
    | (_, some err) => (some err, w)
    | (sub, none) =>
      let r := w.store.UpdateRecallDecisionSubmission paymentID recallID decisionID
        { sub with Attributes := { sub.Attributes with Status := newStatus },
                   ModifiedOn := w.clock }
      (r.1, { w with store := r.2 })

/-- The updater closure of `ReversalSubmissionHandler.Create`. -/
def reversalSubmissionUpdater (paymentID reversalID submissionID : String) : StatusUpdater World :=
  fun newStatus w =>
    match w.store.GetReversalSubmission paymentID reversalID submissionID with
    | (_, some err) => (some err, w)
    | (sub, none) =>
      let r := w.store.UpdateReversalSubmission paymentID reversalID
        { sub with Attributes := { sub.Attributes with Status := newStatus },
                   ModifiedOn := w.clock }
      (r.1, { w with store := r.2 })

/-- `PaymentSubmissionHandler.Create`. -/
def PaymentSubmissionHandler.Create (uuid : String) (formatDate : Time → String)
    (paymentID : String) (body : Except String PaymentSubmission) (w : World) :
    Handled PaymentSubmission :=
  match (w.store.GetPayment paymentID).2 with
  | some .ErrNotFound => ⟨jsonapi.NotFound "payment" paymentID, w, none⟩
  | some _ => ⟨jsonapi.InternalError, w, none⟩
  | none =>
    match body with
    | .error msg => ⟨jsonapi.BadRequest ("invalid JSON: " ++ msg), w, none⟩
    | .ok data =>
      let s := if data.ID = "" then { data with ID := uuid } else data
      let now := w.clock
      let s : PaymentSubmission :=
        { s with
          Typ := ResourceTypePaymentSubmission, CreatedOn := now, ModifiedOn := now,
          Attributes :=
            { s.Attributes with
              Status := PaymentSubmissionChain.get ⟨0, by decide⟩, SubmissionDate := formatDate now } }
      match w.store.CreatePaymentSubmission paymentID s with
      | (some .ErrConflict, _) => ⟨jsonapi.Conflict "submission already exists", w, none⟩
      | (some _, _) => ⟨jsonapi.InternalError, w, none⟩
      | (none, store2) =>
        ⟨.Created s, { w with store := store2 },
         some { resourceType := ResourceTypePaymentSubmission, resourceID := s.ID, chain := PaymentSubmissionChain,
                updater := paymentSubmissionUpdater paymentID s.ID }⟩

/-- `PaymentAdmissionHandler.Create`. -/
def PaymentAdmissionHandler.Create (uuid : String) (formatDate : Time → String)
    (paymentID : String) (body : Except String PaymentAdmission) (w : World) :
    Handled PaymentAdmission :=
  match (w.store.GetPayment paymentID).2 with
  | some .ErrNotFound => ⟨jsonapi.NotFound "payment" paymentID, w, none⟩
  | some _ => ⟨jsonapi.InternalError, w, none⟩
  | none =>
    match body with
    | .error msg => ⟨jsonapi.BadRequest ("invalid JSON: " ++ msg), w, none⟩
    | .ok data =>
      let a := if data.ID = "" then { data with ID := uuid } else data
      let now := w.clock
      let a : PaymentAdmission :=
        { a with
          Typ := ResourceTypePaymentAdmission, CreatedOn := now, ModifiedOn := now,
          Attributes :=
            { a.Attributes with
              Status := AdmissionChain.get ⟨0, by decide⟩, AdmissionDate := formatDate now } }
      match w.store.CreatePaymentAdmission paymentID a with
      | (some .ErrConflict, _) => ⟨jsonapi.Conflict "admission already exists", w, none⟩
      | (some _, _) => ⟨jsonapi.InternalError, w, none⟩
      | (none, store2) =>
        ⟨.Created a, { w with store := store2 },
         some { resourceType := ResourceTypePaymentAdmission, resourceID := a.ID, chain := AdmissionChain,
                updater := paymentAdmissionUpdater paymentID a.ID }⟩

/-- `ReturnSubmissionHandler.Create`. -/
def ReturnSubmissionHandler.Create (uuid : String) (formatDate : Time → String)
    (paymentID returnID : String) (body : Except String ReturnSubmission) (w : World) :
    Handled ReturnSubmission :=
  match (w.store.GetReturn paymentID returnID).2 with
  | some .ErrNotFound => ⟨jsonapi.NotFound "return_payment" returnID, w, none⟩
  | some _ => ⟨jsonapi.InternalError, w, none⟩
  | none =>
    match body with
    | .error msg => ⟨jsonapi.BadRequest ("invalid JSON: " ++ msg), w, none⟩
    | .ok data =>
      let s := if data.ID = "" then { data with ID := uuid } else data
      let now := w.clock
      let s : ReturnSubmission :=
        { s with
          Typ := ResourceTypeReturnSubmission, CreatedOn := now, ModifiedOn := now,
          Attributes :=
            { s.Attributes with
              Status := SimpleSubmissionChain.get ⟨0, by decide⟩, SubmissionDate := formatDate now } }
      match w.store.CreateReturnSubmission paymentID returnID s with
      | (some .ErrConflict, _) => ⟨jsonapi.Conflict "return submission already exists", w, none⟩
      | (some _, _) => ⟨jsonapi.InternalError, w, none⟩
      | (none, store2) =>
        ⟨.Created s, { w with store := store2 },
         some { resourceType := ResourceTypeReturnSubmission, resourceID := s.ID, chain := SimpleSubmissionChain,
                updater := returnSubmissionUpdater paymentID returnID s.ID }⟩

/-- `RecallSubmissionHandler.Create`. -/
def RecallSubmissionHandler.Create (uuid : String) (formatDate : Time → String)
    (paymentID recallID : String) (body : Except String RecallSubmission) (w : World) :
    Handled RecallSubmission :=
  match (w.store.GetRecall paymentID recallID).2 with
  | some .ErrNotFound => ⟨jsonapi.NotFound "recall" recallID, w, none⟩
  | some _ => ⟨jsonapi.InternalError, w, none⟩
  | none =>
    match body with
    | .error msg => ⟨jsonapi.BadRequest ("invalid JSON: " ++ msg), w, none⟩
    | .ok data =>
      let s := if data.ID = "" then { data with ID := uuid } else data
      let now := w.clock
      let s : RecallSubmission :=
        { s with
          Typ := ResourceTypeRecallSubmission, CreatedOn := now, ModifiedOn := now,
          Attributes :=
            { s.Attributes with
              Status := SimpleSubmissionChain.get ⟨0, by decide⟩, SubmissionDate := formatDate now } }
      match w.store.CreateRecallSubmission paymentID recallID s with
      | (some .ErrConflict, _) => ⟨jsonapi.Conflict "recall submission already exists", w, none⟩
      | (some _, _) => ⟨jsonapi.InternalError, w, none⟩
      | (none, store2) =>
        ⟨.Created s, { w with store := store2 },
         some { resourceType := ResourceTypeRecallSubmission, resourceID := s.ID, chain := SimpleSubmissionChain,
                updater := recallSubmissionUpdater paymentID recallID s.ID }⟩

/-- `RecallDecisionSubmissionHandler.Create`. -/
def RecallDecisionSubmissionHandler.Create (uuid : String) (formatDate : Time → String)
    (paymentID recallID decisionID : String) (body : Except String RecallDecisionSubmission) (w : World) :
    Handled RecallDecisionSubmission :=
  match (w.store.GetRecallDecision paymentID recallID decisionID).2 with
  | some .ErrNotFound => ⟨jsonapi.NotFound "recall_decision" decisionID, w, none⟩
  | some _ => ⟨jsonapi.InternalError, w, none⟩
  | none =>
    match body with
    | .error msg => ⟨jsonapi.BadRequest ("invalid JSON: " ++ msg), w, none⟩
    | .ok data =>
      let s := if data.ID = "" then { data with ID := uuid } else data
      let now := w.clock
      let s : RecallDecisionSubmission :=
        { s with
          Typ := ResourceTypeRecallDecisionSubmission, CreatedOn := now, ModifiedOn := now,
          Attributes :=
            { s.Attributes with
              Status := SimpleSubmissionChain.get ⟨0, by decide⟩, SubmissionDate := formatDate now } }
      match w.store.CreateRecallDecisionSubmission paymentID recallID decisionID s with
      | (some .ErrConflict, _) => ⟨jsonapi.Conflict "recall decision submission already exists", w, none⟩
      | (some _, _) => ⟨jsonapi.InternalError, w, none⟩
      | (none, store2) =>
        ⟨.Created s, { w with store := store2 },
         some { resourceType := ResourceTypeRecallDecisionSubmission, resourceID := s.ID, chain := SimpleSubmissionChain,
                updater := recallDecisionSubmissionUpdater paymentID recallID decisionID s.ID }⟩

/-- `ReversalSubmissionHandler.Create`. -/
def ReversalSubmissionHandler.Create (uuid : String) (formatDate : Time → String)
    (paymentID reversalID : String) (body : Except String ReversalSubmission) (w : World) :
    Handled ReversalSubmission :=
  match (w.store.GetReversal paymentID reversalID).2 with
  | some .ErrNotFound => ⟨jsonapi.NotFound "reversal" reversalID, w, none⟩
  | some _ => ⟨jsonapi.InternalError, w, none⟩
  | none =>
    match body with
    | .error msg => ⟨jsonapi.BadRequest ("invalid JSON: " ++ msg), w, none⟩
    | .ok data =>
      let s := if data.ID = "" then { data with ID := uuid } else data
      let now := w.clock
      let s : ReversalSubmission :=
        { s with
          Typ := ResourceTypeReversalSubmission, CreatedOn := now, ModifiedOn := now,
          Attributes :=
            { s.Attributes with
              Status := SimpleSubmissionChain.get ⟨0, by decide⟩, SubmissionDate := formatDate now } }
      match w.store.CreateReversalSubmission paymentID reversalID s with
      | (some .ErrConflict, _) => ⟨jsonapi.Conflict "reversal submission already exists", w, none⟩
      | (some _, _) => ⟨jsonapi.InternalError, w, none⟩
      | (none, store2) =>
        ⟨.Created s, { w with store := store2 },
         some { resourceType := ResourceTypeReversalSubmission, resourceID := s.ID, chain := SimpleSubmissionChain,
                updater := reversalSubmissionUpdater paymentID reversalID s.ID }⟩

/-! ### The chained kinds as data -/

/-- A record of one of the six kinds with a status chain, by the identifiers of
its path. -/
inductive ChainedRef where
  | paymentSubmission (paymentID s : String)
  | paymentAdmission (paymentID a : String)
  | returnSubmission (paymentID returnID s : String)
  | recallSubmission (paymentID recallID s : String)
  | recallDecisionSubmission (paymentID recallID decisionID s : String)
  | reversalSubmission (paymentID reversalID s : String)
deriving DecidableEq

/-- The Get call that reads the record. -/
def ChainedRef.getCall : ChainedRef → GetCall
  | .paymentSubmission paymentID s => .GetPaymentSubmission paymentID s
  | .paymentAdmission paymentID a => .GetPaymentAdmission paymentID a
  | .returnSubmission paymentID returnID s => .GetReturnSubmission paymentID returnID s
  | .recallSubmission paymentID recallID s => .GetRecallSubmission paymentID recallID s
  | .recallDecisionSubmission paymentID recallID decisionID s => .GetRecallDecisionSubmission paymentID recallID decisionID s
  | .reversalSubmission paymentID reversalID s => .GetReversalSubmission paymentID reversalID s

/-- The updater closure the handler of the kind passes to `StartTransition`. -/
def ChainedRef.updater : ChainedRef → StatusUpdater World
  | .paymentSubmission paymentID s => paymentSubmissionUpdater paymentID s
  | .paymentAdmission paymentID a => paymentAdmissionUpdater paymentID a
  | .returnSubmission paymentID returnID s => returnSubmissionUpdater paymentID returnID s
  | .recallSubmission paymentID recallID s => recallSubmissionUpdater paymentID recallID s
  | .recallDecisionSubmission paymentID recallID decisionID s => recallDecisionSubmissionUpdater paymentID recallID decisionID s
  | .reversalSubmission paymentID reversalID s => reversalSubmissionUpdater paymentID reversalID s

/-- The status chain of the kind. -/
def ChainedRef.chain : ChainedRef → StatusChain
  | .paymentSubmission _ _ => PaymentSubmissionChain
  | .paymentAdmission _ _ => AdmissionChain
  | .returnSubmission _ _ _ => SimpleSubmissionChain
  | .recallSubmission _ _ _ => SimpleSubmissionChain
  | .recallDecisionSubmission _ _ _ _ => SimpleSubmissionChain
  | .reversalSubmission _ _ _ => SimpleSubmissionChain

/-- The resource type of the kind. -/
def ChainedRef.resourceType : ChainedRef → String
  | .paymentSubmission _ _ => ResourceTypePaymentSubmission
  | .paymentAdmission _ _ => ResourceTypePaymentAdmission
  | .returnSubmission _ _ _ => ResourceTypeReturnSubmission
  | .recallSubmission _ _ _ => ResourceTypeRecallSubmission
  | .recallDecisionSubmission _ _ _ _ => ResourceTypeRecallDecisionSubmission
  | .reversalSubmission _ _ _ => ResourceTypeReversalSubmission

/-- The identifier of the record. -/
def ChainedRef.id : ChainedRef → String
  | .paymentSubmission _ s => s
  | .paymentAdmission _ a => a
  | .returnSubmission _ _ s => s
  | .recallSubmission _ _ s => s
  | .recallDecisionSubmission _ _ _ s => s
  | .reversalSubmission _ _ s => s

/-- A create request on a kind with a status chain: the path values and the
decoded body. -/
inductive ChainedCreate where
  | paymentSubmission (paymentID : String) (body : Except String PaymentSubmission)
  | paymentAdmission (paymentID : String) (body : Except String PaymentAdmission)
  | returnSubmission (paymentID returnID : String) (body : Except String ReturnSubmission)
  | recallSubmission (paymentID recallID : String) (body : Except String RecallSubmission)
  | recallDecisionSubmission (paymentID recallID decisionID : String) (body : Except String RecallDecisionSubmission)
  | reversalSubmission (paymentID reversalID : String) (body : Except String ReversalSubmission)

/-- What a Create handler has done, for any kind: the HTTP status, the record of
a 201 response, the state left, and the transition started. -/
structure HandledAny where
  status : Nat
  created : Option Value
  world : World
  started : Option Transition

/-- A typed result as a result for any kind. -/
def Handled.any {T : Type} (h : Handled T) (tag : T → Value) : HandledAny :=
  { status := h.response.status,
    created := match h.response with
      | .Created data => some (tag data)
      | .Error _ _ _ => none,
    world := h.world,
    started := h.started }

/-- The Create handlers of the chained kinds, by request. -/
def handleCreate (uuid : String) (formatDate : Time → String) :
    ChainedCreate → World → HandledAny
  | .paymentSubmission paymentID body, w =>
    (PaymentSubmissionHandler.Create uuid formatDate paymentID body w).any Value.paymentSubmissions
  | .paymentAdmission paymentID body, w =>
    (PaymentAdmissionHandler.Create uuid formatDate paymentID body w).any Value.paymentAdmissions
  | .returnSubmission paymentID returnID body, w =>
    (ReturnSubmissionHandler.Create uuid formatDate paymentID returnID body w).any Value.returnSubmissions
  | .recallSubmission paymentID recallID body, w =>
    (RecallSubmissionHandler.Create uuid formatDate paymentID recallID body w).any Value.recallSubmissions
  | .recallDecisionSubmission paymentID recallID decisionID body, w =>
    (RecallDecisionSubmissionHandler.Create uuid formatDate paymentID recallID decisionID body w).any Value.recallDecisionSubmissions
  | .reversalSubmission paymentID reversalID body, w =>
    (ReversalSubmissionHandler.Create uuid formatDate paymentID reversalID body w).any Value.reversalSubmissions

/-- The record a create request addresses, once its identifier is known. -/
def ChainedCreate.ref : ChainedCreate → String → ChainedRef
  | .paymentSubmission paymentID _, id => .paymentSubmission paymentID id
  | .paymentAdmission paymentID _, id => .paymentAdmission paymentID id
  | .returnSubmission paymentID returnID _, id => .returnSubmission paymentID returnID id
  | .recallSubmission paymentID recallID _, id => .recallSubmission paymentID recallID id
  | .recallDecisionSubmission paymentID recallID decisionID _, id => .recallDecisionSubmission paymentID recallID decisionID id
  | .reversalSubmission paymentID reversalID _, id => .reversalSubmission paymentID reversalID id

/-- The status chain of the kind of a create request. -/
def ChainedCreate.chain : ChainedCreate → StatusChain
  | .paymentSubmission _ _ => PaymentSubmissionChain
  | .paymentAdmission _ _ => AdmissionChain
  | .returnSubmission _ _ _ => SimpleSubmissionChain
  | .recallSubmission _ _ _ => SimpleSubmissionChain
  | .recallDecisionSubmission _ _ _ _ => SimpleSubmissionChain
  | .reversalSubmission _ _ _ => SimpleSubmissionChain

/-- The identifier of a stored record. -/
def Value.id : Value → String
  | .payments v => v.ID
  | .paymentSubmissions v => v.ID
  | .paymentAdmissions v => v.ID
  | .admissionTasks v => v.ID
  | .returns v => v.ID
  | .returnSubmissions v => v.ID
  | .recalls v => v.ID
  | .recallSubmissions v => v.ID
  | .recallDecisions v => v.ID
  | .recallDecisionSubmissions v => v.ID
  | .reversals v => v.ID
  | .reversalSubmissions v => v.ID
  | .subscriptions v => v.ID

/-- The status of a stored record of a kind with a status chain. -/
def Value.status : Value → Option String
  | .paymentSubmissions v => some v.Attributes.Status
  | .paymentAdmissions v => some v.Attributes.Status
  | .returnSubmissions v => some v.Attributes.Status
  | .recallSubmissions v => some v.Attributes.Status
  | .recallDecisionSubmissions v => some v.Attributes.Status
  | .reversalSubmissions v => some v.Attributes.Status
  | _ => none

/-- A record of a kind with a status chain with its status and modification
time replaced, every other field as it is; records of the other kinds are left
as they are. -/
def Value.withStatus (status : String) (modifiedOn : Time) : Value → Value
  | .paymentSubmissions v =>
    .paymentSubmissions
      { v with Attributes := { v.Attributes with Status := status },
               ModifiedOn := modifiedOn }
  | .paymentAdmissions v =>
    .paymentAdmissions
      { v with Attributes := { v.Attributes with Status := status },
               ModifiedOn := modifiedOn }
  | .returnSubmissions v =>
    .returnSubmissions
      { v with Attributes := { v.Attributes with Status := status },
               ModifiedOn := modifiedOn }
  | .recallSubmissions v =>
    .recallSubmissions
      { v with Attributes := { v.Attributes with Status := status },
               ModifiedOn := modifiedOn }
  | .recallDecisionSubmissions v =>
    .recallDecisionSubmissions
      { v with Attributes := { v.Attributes with Status := status },
               ModifiedOn := modifiedOn }
  | .reversalSubmissions v =>
    .reversalSubmissions
      { v with Attributes := { v.Attributes with Status := status },
               ModifiedOn := modifiedOn }
  | v => v

/-! ### The record a Create handler builds -/

/-- The record `PaymentSubmissionHandler.Create` builds from the decoded body before it
calls the store: a fresh identifier when the body has none, the resource type,
both timestamps, the first status of the chain and the date. -/
def PaymentSubmissionHandler.record (uuid : String) (formatDate : Time → String) (now : Time)
    (data : PaymentSubmission) : PaymentSubmission :=
  { (if data.ID = "" then { data with ID := uuid } else data) with
    Typ := ResourceTypePaymentSubmission, CreatedOn := now, ModifiedOn := now,
    Attributes :=
      { (if data.ID = "" then { data with ID := uuid } else data).Attributes with
        Status := PaymentSubmissionChain.get ⟨0, by decide⟩, SubmissionDate := formatDate now } }

/-- The record `PaymentAdmissionHandler.Create` builds from the decoded body before it
calls the store: a fresh identifier when the body has none, the resource type,
both timestamps, the first status of the chain and the date. -/
def PaymentAdmissionHandler.record (uuid : String) (formatDate : Time → String) (now : Time)
    (data : PaymentAdmission) : PaymentAdmission :=
  { (if data.ID = "" then { data with ID := uuid } else data) with
    Typ := ResourceTypePaymentAdmission, CreatedOn := now, ModifiedOn := now,
    Attributes :=
      { (if data.ID = "" then { data with ID := uuid } else data).Attributes with
        Status := AdmissionChain.get ⟨0, by decide⟩, AdmissionDate := formatDate now } }

/-- The record `ReturnSubmissionHandler.Create` builds from the decoded body before it
calls the store: a fresh identifier when the body has none, the resource type,
both timestamps, the first status of the chain and the date. -/
def ReturnSubmissionHandler.record (uuid : String) (formatDate : Time → String) (now : Time)
    (data : ReturnSubmission) : ReturnSubmission :=
  { (if data.ID = "" then { data with ID := uuid } else data) with
    Typ := ResourceTypeReturnSubmission, CreatedOn := now, ModifiedOn := now,
    Attributes :=
      { (if data.ID = "" then { data with ID := uuid } else data).Attributes with
        Status := SimpleSubmissionChain.get ⟨0, by decide⟩, SubmissionDate := formatDate now } }

/-- The record `RecallSubmissionHandler.Create` builds from the decoded body before it
calls the store: a fresh identifier when the body has none, the resource type,
both timestamps, the first status of the chain and the date. -/
def RecallSubmissionHandler.record (uuid : String) (formatDate : Time → String) (now : Time)
    (data : RecallSubmission) : RecallSubmission :=
  { (if data.ID = "" then { data with ID := uuid } else data) with
    Typ := ResourceTypeRecallSubmission, CreatedOn := now, ModifiedOn := now,
    Attributes :=
      { (if data.ID = "" then { data with ID := uuid } else data).Attributes with
        Status := SimpleSubmissionChain.get ⟨0, by decide⟩, SubmissionDate := formatDate now } }

/-- The record `RecallDecisionSubmissionHandler.Create` builds from the decoded body before it
calls the store: a fresh identifier when the body has none, the resource type,
both timestamps, the first status of the chain and the date. -/
def RecallDecisionSubmissionHandler.record (uuid : String) (formatDate : Time → String) (now : Time)
    (data : RecallDecisionSubmission) : RecallDecisionSubmission :=
  { (if data.ID = "" then { data with ID := uuid } else data) with
    Typ := ResourceTypeRecallDecisionSubmission, CreatedOn := now, ModifiedOn := now,
    Attributes :=
      { (if data.ID = "" then { data with ID := uuid } else data).Attributes with
        Status := SimpleSubmissionChain.get ⟨0, by decide⟩, SubmissionDate := formatDate now } }

/-- The record `ReversalSubmissionHandler.Create` builds from the decoded body before it
calls the store: a fresh identifier when the body has none, the resource type,
both timestamps, the first status of the chain and the date. -/
def ReversalSubmissionHandler.record (uuid : String) (formatDate : Time → String) (now : Time)
    (data : ReversalSubmission) : ReversalSubmission :=
  { (if data.ID = "" then { data with ID := uuid } else data) with
    Typ := ResourceTypeReversalSubmission, CreatedOn := now, ModifiedOn := now,
    Attributes :=
      { (if data.ID = "" then { data with ID := uuid } else data).Attributes with
        Status := SimpleSubmissionChain.get ⟨0, by decide⟩, SubmissionDate := formatDate now } }

/-! ### An updater made to fail -/

/-- An updater made to fail on its `i`-th call, with the count of the calls made
so far kept beside the state: call number `i` returns `err` and writes
nothing, every other call is the call of `u`. -/
def failingAt (i : Nat) (err : Error) (u : StatusUpdater World) : StatusUpdater (World × Nat) :=
  fun newStatus w =>
    if w.2 + 1 = i then (some err, (w.1, w.2 + 1))
    else ((u newStatus w.1).1, ((u newStatus w.1).2, w.2 + 1))

/-- An engine of the server, run beside the call count. -/
def Engine.counted (e : Engine World) : Engine (World × Nat) :=
  { stepDelay := e.stepDelay,
    onChange := e.onChange.map (fun f resourceType resourceID newStatus w =>
      (f resourceType resourceID newStatus w.1, w.2)) }

/-- `time.Sleep` beside the call count. -/
def countedSleep : Int → World × Nat → World × Nat := fun d w => (World.sleep d w.1, w.2)

/-- A server state for the lifecycle test: payment `p1` in the store, nothing
else. -/
def lifecycleScenario : World :=
  { store := (NewMemoryStore.CreatePayment (newPayment "p1" 0)).2,
    dispatcher := NewDispatcher 1000,
    clock := 0,
    posts := [],
    crashed := false }

/-! ## Frames of the store calls -/

/-- The map a store call reads or writes. -/
def StoreCall.kind : StoreCall → Kind
  | .create c => c.kind
  | .get g => g.kind
  | .list l => l.kind
  | .update u => u.kind
  | .DeleteSubscription _ => .subscriptions
  | .MatchSubscriptions _ _ => .subscriptions

/-- The store after the calls of a list, made one after the other. -/
def MemoryStore.run (m : MemoryStore) (calls : List StoreCall) : MemoryStore :=
  calls.foldl MemoryStore.after m

/-- The contents of the map of a kind: its entries, in iteration order. -/
def MemoryStore.content (m : MemoryStore) : Kind → List (String × Value)
  | .payments => m.payments.entries.map (fun e => (e.1, Value.payments e.2))
  | .paymentSubmissions =>
    m.paymentSubmissions.entries.map (fun e => (e.1, Value.paymentSubmissions e.2))
  | .paymentAdmissions =>
    m.paymentAdmissions.entries.map (fun e => (e.1, Value.paymentAdmissions e.2))
  | .admissionTasks => m.admissionTasks.entries.map (fun e => (e.1, Value.admissionTasks e.2))
  | .returns => m.returns.entries.map (fun e => (e.1, Value.returns e.2))
  | .returnSubmissions =>
    m.returnSubmissions.entries.map (fun e => (e.1, Value.returnSubmissions e.2))
  | .recalls => m.recalls.entries.map (fun e => (e.1, Value.recalls e.2))
  | .recallSubmissions =>
    m.recallSubmissions.entries.map (fun e => (e.1, Value.recallSubmissions e.2))
  | .recallDecisions => m.recallDecisions.entries.map (fun e => (e.1, Value.recallDecisions e.2))
  | .recallDecisionSubmissions =>
    m.recallDecisionSubmissions.entries.map
      (fun e => (e.1, Value.recallDecisionSubmissions e.2))
  | .reversals => m.reversals.entries.map (fun e => (e.1, Value.reversals e.2))
  | .reversalSubmissions =>
    m.reversalSubmissions.entries.map (fun e => (e.1, Value.reversalSubmissions e.2))
  | .subscriptions => m.subscriptions.entries.map (fun e => (e.1, Value.subscriptions e.2))

/-- Every subscription of the store is held under its own identifier. -/
def OwnIds (m : MemoryStore) : Prop :=
  ∀ k s, m.subscriptions.get? k = some s → s.ID = k

/-! ## The content-type middleware (`internal/jsonapi/content_type.go`) -/

namespace jsonapi

/-- The JSON:API media type. -/
def ContentType : String := "application/vnd.api+json"

end jsonapi

/-- `strings.HasPrefix(s, prefix)`. -/
def strings.HasPrefix (s pfx : String) : Bool := pfx.data.isPrefixOf s.data

/-- What the middleware reads of a request: the method and the value of
`r.Header.Get("Content-Type")`, which is "" when the header is absent; `rest`
stands for everything else of the request. -/
structure Request where
  Method : String
  ContentType : String
  rest : String
deriving DecidableEq

/-- What a middleware has done with a request: the error document it has
written itself, if any, and the requests it has passed to `next.ServeHTTP`, in
order. -/
structure Served where
  written : Option (Nat × String × String)
  passed : List Request
deriving DecidableEq

/-- EnforceContentType is middleware that validates Content-Type on requests
with bodies. -/
def jsonapi.EnforceContentType (r : Request) : Served :=
  if r.Method = "POST" ∨ r.Method = "PATCH" ∨ r.Method = "PUT" then
    let ct := r.ContentType
    if ct ≠ "" ∧ !strings.HasPrefix ct jsonapi.ContentType
        ∧ !strings.HasPrefix ct "application/json" then
      { written := some (415, "Unsupported Media Type",
          "Content-Type must be application/vnd.api+json"),
        passed := [] }
    else { written := none, passed := [r] }
  else { written := none, passed := [r] }

/-! ## Payments and their relationships (`internal/handlers/payments.go`) -/

/-- The response of a handler that answers 200 OK with a record, or one of the
error documents of `jsonapi.WriteError`. -/
inductive ReadResponse (T : Type) where
  | OK (data : T)
  | Error (status : Nat) (title detail : String)

/-- The HTTP status of a response. -/
def ReadResponse.status {T : Type} : ReadResponse T → Nat
  | .OK _ => 200
  | .Error status _ _ => status

/-- The loop
`data := make([]RelationshipData, len(xs)); for i, x := range xs { data[i] = RelationshipData{Type: t, ID: x.ID} }`
over the identifiers of the listed records. -/
def fillData (resourceType : String) (ids : List String) : List RelationshipData :=
  ids.enum.foldl (fun data e => data.set e.1 { Typ := resourceType, ID := e.2 })
    (List.replicate ids.length default)

/-- One `if xs := h.store.ListX(paymentID); len(xs) > 0 { ... }` block of
`buildRelationships`: the relationship to set, if any. -/
def relationshipOf (resourceType : String) (ids : List String) : Option Relationship :=
  if ids.length > 0 then some { Data := fillData resourceType ids } else none

/-- `PaymentHandler.buildRelationships`: nil when no block has set `hasAny`. -/
def PaymentHandler.buildRelationships (m : MemoryStore) (paymentID : String) :
    Option PaymentRelationships :=
  let subs := relationshipOf ResourceTypePaymentSubmission
    ((m.ListPaymentSubmissions paymentID).map (fun s => s.ID))
  let adms := relationshipOf ResourceTypePaymentAdmission
    ((m.ListPaymentAdmissions paymentID).map (fun a => a.ID))
  let rets := relationshipOf ResourceTypeReturnPayment
    ((m.ListReturns paymentID).map (fun rt => rt.ID))
  let recs := relationshipOf ResourceTypeRecall
    ((m.ListRecalls paymentID).map (fun rc => rc.ID))
  let revs := relationshipOf ResourceTypeReversal
    ((m.ListReversals paymentID).map (fun rv => rv.ID))
  let hasAny := subs.isSome || adms.isSome || rets.isSome || recs.isSome || revs.isSome
  if !hasAny then none
  else some { PaymentSubmissions := subs, PaymentAdmissions := adms, PaymentReturns := rets,
              PaymentRecalls := recs, PaymentReversals := revs }

/-- `PaymentHandler.Get`. -/
def PaymentHandler.Get (m : MemoryStore) (id : String) : ReadResponse Payment :=
  match m.GetPayment id with
  | (_, some .ErrNotFound) => .Error 404 "Not Found" ("payment" ++ " " ++ id ++ " not found")
  | (_, some _) => .Error 500 "Internal Server Error" ""
  | (p, none) => .OK { p with Relationships := PaymentHandler.buildRelationships m id }

/-! ## Subscriptions (`internal/handlers/subscriptions.go`) and admission tasks -/

/-- The value of `x++` on a Go `int` (64 bits, two's complement): the sum wraps
around at the largest value. -/
def intInc (x : Int) : Int := (x + 1 + 2 ^ 63) % 2 ^ 64 - 2 ^ 63

/-- The members of the `attributes` object of a request body on a subscription
that the handlers read, each present or absent in the JSON text. -/
structure SubscriptionAttributesJSON where
  callback_uri : Option String
  event_type : Option String
  record_type : Option String
  is_active : Option Bool
deriving DecidableEq

/-- Decoding (`json.NewDecoder(r.Body).Decode(&req)`) into a zero
`models.Subscription`: a member that is absent leaves the zero value of its
field, "" for a string and false for a bool. -/
def SubscriptionAttributesJSON.decode (j : SubscriptionAttributesJSON) : Subscription :=
  { (default : Subscription) with
    Attributes :=
      { CallbackURI := j.callback_uri.getD "", EventType := j.event_type.getD "",
        RecordType := j.record_type.getD "", IsActive := j.is_active.getD false,
        CallbackTransport := "", UserID := "" } }

/-- `SubscriptionHandler.Create`. -/
def SubscriptionHandler.Create (uuid : String) (body : Except String Subscription) (w : World) :
    Handled Subscription :=
  match body with
  | .error msg => ⟨jsonapi.BadRequest ("invalid JSON: " ++ msg), w, none⟩
  | .ok data =>
    let s := if data.ID = "" then { data with ID := uuid } else data
    let now := w.clock
    let s : Subscription :=
      { s with Typ := ResourceTypeSubscription, CreatedOn := now, ModifiedOn := now }
    let s : Subscription :=
      if !s.Attributes.IsActive then { s with Attributes := { s.Attributes with IsActive := true } }
      else s
    match w.store.CreateSubscription s with
    | (some .ErrConflict, _) => ⟨jsonapi.Conflict "subscription already exists", w, none⟩
    | (some _, _) => ⟨jsonapi.InternalError, w, none⟩
    | (none, store2) => ⟨.Created s, { w with store := store2 }, none⟩

/-- The assignments of `SubscriptionHandler.Patch` to `existing`, from the
decoded `patch`, between the decoding and the call of UpdateSubscription. -/
def SubscriptionHandler.patched (existing patch : Subscription) (now : Time) : Subscription :=
  let existing : Subscription :=
    if patch.Attributes.CallbackURI ≠ "" then
      { existing with
        Attributes := { existing.Attributes with CallbackURI := patch.Attributes.CallbackURI } }
    else existing
  let existing : Subscription :=
    if patch.Attributes.EventType ≠ "" then
      { existing with
        Attributes := { existing.Attributes with EventType := patch.Attributes.EventType } }
    else existing
  let existing : Subscription :=
    if patch.Attributes.RecordType ≠ "" then
      { existing with
        Attributes := { existing.Attributes with RecordType := patch.Attributes.RecordType } }
    else existing
  -- Allow setting is_active to false explicitly via the raw JSON
  { existing with
    Attributes := { existing.Attributes with IsActive := patch.Attributes.IsActive },
    ModifiedOn := now,
    Version := intInc existing.Version }

/-- `SubscriptionHandler.Patch`: the response and the world when it returns. -/
def SubscriptionHandler.Patch (id : String) (body : Except String Subscription) (w : World) :
    ReadResponse Subscription × World :=
  match w.store.GetSubscription id with
  | (_, some .ErrNotFound) =>
    (.Error 404 "Not Found" ("subscription" ++ " " ++ id ++ " not found"), w)
  | (_, some _) => (.Error 500 "Internal Server Error" "", w)
  | (existing, none) =>
    match body with
    | .error msg => (.Error 400 "Bad Request" ("invalid JSON: " ++ msg), w)
    | .ok patch =>
      let existing := SubscriptionHandler.patched existing patch w.clock
      match w.store.UpdateSubscription existing with
      | (some _, _) => (.Error 500 "Internal Server Error" "", w)
      | (none, store2) => (.OK existing, { w with store := store2 })

/-- The first part of `PaymentAdmissionHandler.PatchTask`, "Get existing task or
create if first access": the task and the store after it, or the error
response. -/
def PaymentAdmissionHandler.fetchTask (paymentID admissionID taskID : String) (w : World) :
    Except (ReadResponse AdmissionTask) (AdmissionTask × MemoryStore) :=
  match w.store.GetAdmissionTask paymentID admissionID taskID with
  | (t, none) => .ok (t, w.store)
  | (_, some .ErrNotFound) =>
    let t : AdmissionTask :=
      { (default : AdmissionTask) with
        Typ := "admission_tasks", ID := taskID, CreatedOn := w.clock, ModifiedOn := w.clock }
    match w.store.CreateAdmissionTask paymentID admissionID t with
    | (none, store2) => .ok (t, store2)
    | (some .ErrConflict, store2) =>
      match store2.GetAdmissionTask paymentID admissionID taskID with
      | (t2, none) => .ok (t2, store2)
      | (_, some _) => .error (.Error 500 "Internal Server Error" "")
    | (some _, _) => .error (.Error 500 "Internal Server Error" "")
  | (_, some _) => .error (.Error 500 "Internal Server Error" "")

/-- The assignments of `PatchTask` to `t`, from the decoded `patch`, between
the decoding and the call of UpdateAdmissionTask. -/
def PaymentAdmissionHandler.patchedTask (t patch : AdmissionTask) (now : Time) : AdmissionTask :=
  let t : AdmissionTask :=
    if patch.Attributes.Status ≠ "" then
      { t with Attributes := { t.Attributes with Status := patch.Attributes.Status } }
    else t
  let t : AdmissionTask :=
    if patch.Attributes.Assignee ≠ "" then
      { t with Attributes := { t.Attributes with Assignee := patch.Attributes.Assignee } }
    else t
  let t : AdmissionTask :=
    if patch.Attributes.Name ≠ "" then
      { t with Attributes := { t.Attributes with Name := patch.Attributes.Name } }
    else t
  { t with ModifiedOn := now }

/-- `PaymentAdmissionHandler.PatchTask`: the response and the world when it
returns. -/
def PaymentAdmissionHandler.PatchTask (paymentID admissionID taskID : String)
    (body : Except String AdmissionTask) (w : World) : ReadResponse AdmissionTask × World :=
  match PaymentAdmissionHandler.fetchTask paymentID admissionID taskID w with
  | .error resp => (resp, w)
  | .ok (t, store1) =>
    match body with
    | .error msg => (.Error 400 "Bad Request" ("invalid JSON: " ++ msg), { w with store := store1 })
    | .ok patch =>
      let t := PaymentAdmissionHandler.patchedTask t patch w.clock
      match store1.UpdateAdmissionTask paymentID admissionID t with
      | (some _, _) => (.Error 500 "Internal Server Error" "", { w with store := store1 })
      | (none, store3) => (.OK t, { w with store := store3 })

/-- The version of a stored record. -/
def Value.version : Value → Int
  | .payments v => v.Version
  | .paymentSubmissions v => v.Version
  | .paymentAdmissions v => v.Version
  | .admissionTasks v => v.Version
  | .returns v => v.Version
  | .returnSubmissions v => v.Version
  | .recalls v => v.Version
  | .recallSubmissions v => v.Version
  | .recallDecisions v => v.Version
  | .recallDecisionSubmissions v => v.Version
  | .reversals v => v.Version
  | .reversalSubmissions v => v.Version
  | .subscriptions v => v.Version

/-- The world of `TestSubscriptionCRUD` after its POST: an empty store in which
the handler has created subscription `sub1`. -/
def subscriptionScenario : World :=
  (SubscriptionHandler.Create "generated"
    (.ok { (default : Subscription) with
            ID := "sub1",
            Attributes :=
              { CallbackURI := "http://example.com/webhook", EventType := "updated",
                RecordType := "payment_submissions", IsActive := false,
                CallbackTransport := "", UserID := "" } })
    { store := NewMemoryStore, dispatcher := NewDispatcher 1000, clock := 0, posts := [],
      crashed := false }).world

/-- An empty store in which the handler has created subscription `sub1` from a
body with `"version": 9223372036854775807`, the largest `int`. -/
def maxVersionScenario : World :=
  (SubscriptionHandler.Create "generated"
    (.ok { (default : Subscription) with
            ID := "sub1", Version := 9223372036854775807,
            Attributes :=
              { CallbackURI := "http://example.com/webhook", EventType := "updated",
                RecordType := "payment_submissions", IsActive := true,
                CallbackTransport := "", UserID := "" } })
    { store := NewMemoryStore, dispatcher := NewDispatcher 1000, clock := 0, posts := [],
      crashed := false }).world

/-- A store that holds payment `p1` at version 5. -/
def versionFiveStore : MemoryStore :=
  (NewMemoryStore.CreatePayment { newPayment "p1" 0 with Version := 5 }).2

/-! ## The Create handlers of the kinds without a status chain

`payment_returns.go`, `payment_recalls.go`, `payment_reversals.go` and
`recall_decisions.go`: the handlers check the parent, decode, complete the
record and create it; they start no transition. -/

/-- `PaymentReturnHandler.Create`. -/
def PaymentReturnHandler.Create (uuid : String) (paymentID : String) (body : Except String ReturnPayment)
    (w : World) : Handled ReturnPayment :=
  match (w.store.GetPayment paymentID).2 with
  | some .ErrNotFound => ⟨jsonapi.NotFound "payment" paymentID, w, none⟩
  | some _ => ⟨jsonapi.InternalError, w, none⟩
  | none =>
    match body with
    | .error msg => ⟨jsonapi.BadRequest ("invalid JSON: " ++ msg), w, none⟩
    | .ok data =>
      let ret := if data.ID = "" then { data with ID := uuid } else data
      let now := w.clock
      let ret : ReturnPayment := { ret with Typ := ResourceTypeReturnPayment, CreatedOn := now, ModifiedOn := now }
      match w.store.CreateReturn paymentID ret with
      | (some .ErrConflict, _) => ⟨jsonapi.Conflict "return already exists", w, none⟩
      | (some _, _) => ⟨jsonapi.InternalError, w, none⟩
      | (none, store2) => ⟨.Created ret, { w with store := store2 }, none⟩

/-- `PaymentRecallHandler.Create`. -/
def PaymentRecallHandler.Create (uuid : String) (paymentID : String) (body : Except String Recall)
    (w : World) : Handled Recall :=
  match (w.store.GetPayment paymentID).2 with
  | some .ErrNotFound => ⟨jsonapi.NotFound "payment" paymentID, w, none⟩
  | some _ => ⟨jsonapi.InternalError, w, none⟩
  | none =>
    match body with
    | .error msg => ⟨jsonapi.BadRequest ("invalid JSON: " ++ msg), w, none⟩
    | .ok data =>
      let rc := if data.ID = "" then { data with ID := uuid } else data
      let now := w.clock
      let rc : Recall := { rc with Typ := ResourceTypeRecall, CreatedOn := now, ModifiedOn := now }
      match w.store.CreateRecall paymentID rc with
      | (some .ErrConflict, _) => ⟨jsonapi.Conflict "recall already exists", w, none⟩
      | (some _, _) => ⟨jsonapi.InternalError, w, none⟩
      | (none, store2) => ⟨.Created rc, { w with store := store2 }, none⟩

/-- `PaymentReversalHandler.Create`. -/
def PaymentReversalHandler.Create (uuid : String) (paymentID : String) (body : Except String Reversal)
    (w : World) : Handled Reversal :=
  match (w.store.GetPayment paymentID).2 with
  | some .ErrNotFound => ⟨jsonapi.NotFound "payment" paymentID, w, none⟩
  | some _ => ⟨jsonapi.InternalError, w, none⟩
  | none =>
    match body with
    | .error msg => ⟨jsonapi.BadRequest ("invalid JSON: " ++ msg), w, none⟩
    | .ok data =>
      let rev := if data.ID = "" then { data with ID := uuid } else data
      let now := w.clock
      let rev : Reversal := { rev with Typ := ResourceTypeReversal, CreatedOn := now, ModifiedOn := now }
      match w.store.CreateReversal paymentID rev with
      | (some .ErrConflict, _) => ⟨jsonapi.Conflict "reversal already exists", w, none⟩
      | (some _, _) => ⟨jsonapi.InternalError, w, none⟩
      | (none, store2) => ⟨.Created rev, { w with store := store2 }, none⟩

/-- `RecallDecisionHandler.Create`. -/
def RecallDecisionHandler.Create (uuid : String) (paymentID recallID : String)
    (body : Except String RecallDecision) (w : World) : Handled RecallDecision :=
  match (w.store.GetRecall paymentID recallID).2 with
  | some .ErrNotFound => ⟨jsonapi.NotFound "recall" recallID, w, none⟩
  | some _ => ⟨jsonapi.InternalError, w, none⟩
  | none =>
    match body with
    | .error msg => ⟨jsonapi.BadRequest ("invalid JSON: " ++ msg), w, none⟩
    | .ok data =>
      let d := if data.ID = "" then { data with ID := uuid } else data
      let now := w.clock
      let d : RecallDecision :=
        { d with Typ := ResourceTypeRecallDecision, CreatedOn := now, ModifiedOn := now }
      match w.store.CreateRecallDecision paymentID recallID d with
      | (some .ErrConflict, _) => ⟨jsonapi.Conflict "recall decision already exists", w, none⟩
      | (some _, _) => ⟨jsonapi.InternalError, w, none⟩
      | (none, store2) => ⟨.Created d, { w with store := store2 }, none⟩

/-- A create request on a child resource: one of the six kinds with a status
chain, or a return, a recall, a reversal or a recall decision; the path values
and the decoded body. -/
inductive ChildCreate where
  | chained (r : ChainedCreate)
  | paymentReturn (paymentID : String) (body : Except String ReturnPayment)
  | paymentRecall (paymentID : String) (body : Except String Recall)
  | paymentReversal (paymentID : String) (body : Except String Reversal)
  | recallDecision (paymentID recallID : String) (body : Except String RecallDecision)

/-- The Get call on the parent with which the handler of a chained kind begins. -/
def ChainedCreate.parent : ChainedCreate → GetCall
  | .paymentSubmission paymentID _ => .GetPayment paymentID
  | .paymentAdmission paymentID _ => .GetPayment paymentID
  | .returnSubmission paymentID returnID _ => .GetReturn paymentID returnID
  | .recallSubmission paymentID recallID _ => .GetRecall paymentID recallID
  | .recallDecisionSubmission paymentID recallID decisionID _ =>
    .GetRecallDecision paymentID recallID decisionID
  | .reversalSubmission paymentID reversalID _ => .GetReversal paymentID reversalID

/-- The Get call on the parent with which the handler begins. -/
def ChildCreate.parent : ChildCreate → GetCall
  | .chained r => r.parent
  | .paymentReturn paymentID _ => .GetPayment paymentID
  | .paymentRecall paymentID _ => .GetPayment paymentID
  | .paymentReversal paymentID _ => .GetPayment paymentID
  | .recallDecision paymentID recallID _ => .GetRecall paymentID recallID

/-- The Create handlers of the child resources, by request. -/
def handleChildCreate (uuid : String) (formatDate : Time → String) :
    ChildCreate → World → HandledAny
  | .chained r, w => handleCreate uuid formatDate r w
  | .paymentReturn paymentID body, w =>
    (PaymentReturnHandler.Create uuid paymentID body w).any Value.returns
  | .paymentRecall paymentID body, w =>
    (PaymentRecallHandler.Create uuid paymentID body w).any Value.recalls
  | .paymentReversal paymentID body, w =>
    (PaymentReversalHandler.Create uuid paymentID body w).any Value.reversals
  | .recallDecision paymentID recallID body, w =>
    (RecallDecisionHandler.Create uuid paymentID recallID body w).any Value.recallDecisions

/-- A world with an empty store, as after `main` has built the server. -/
def emptyWorld : World :=
  { store := NewMemoryStore, dispatcher := NewDispatcher 1000, clock := 0, posts := [],
    crashed := false }

/-! ## The server as a system: requests, store calls and running transitions

The handlers and the goroutines of the transitions share the store and reach it
only through its methods, each of which holds the mutex from its first to its
last statement. A run of the server is therefore a sequence of atomic actions:
a create request on a chained kind served by its handler, a store call made by
anything else, time passing, and a step of the goroutine of a started
transition, which is the next store call of its updater. -/

/-- The Create call the handler of a chained kind makes on the store, for a
request whose body decodes; none for a body that does not decode. -/
def ChainedCreate.createCall (uuid : String) (formatDate : Time → String) (now : Time) :
    ChainedCreate → Option CreateCall
  | .paymentSubmission paymentID (.ok data) =>
    some (.CreatePaymentSubmission paymentID
      (PaymentSubmissionHandler.record uuid formatDate now data))
  | .paymentAdmission paymentID (.ok data) =>
    some (.CreatePaymentAdmission paymentID
      (PaymentAdmissionHandler.record uuid formatDate now data))
  | .returnSubmission paymentID returnID (.ok data) =>
    some (.CreateReturnSubmission paymentID returnID
      (ReturnSubmissionHandler.record uuid formatDate now data))
  | .recallSubmission paymentID recallID (.ok data) =>
    some (.CreateRecallSubmission paymentID recallID
      (RecallSubmissionHandler.record uuid formatDate now data))
  | .recallDecisionSubmission paymentID recallID decisionID (.ok data) =>
    some (.CreateRecallDecisionSubmission paymentID recallID decisionID
      (RecallDecisionSubmissionHandler.record uuid formatDate now data))
  | .reversalSubmission paymentID reversalID (.ok data) =>
    some (.CreateReversalSubmission paymentID reversalID
      (ReversalSubmissionHandler.record uuid formatDate now data))
  | .paymentSubmission _ (.error _) => none
  | .paymentAdmission _ (.error _) => none
  | .returnSubmission _ _ (.error _) => none
  | .recallSubmission _ _ (.error _) => none
  | .recallDecisionSubmission _ _ _ (.error _) => none
  | .reversalSubmission _ _ (.error _) => none

/-- The Update call with which the updater closure of a record writes back the
record it has read and changed. The closure of a kind reads with the Get method
of the kind, so the record it holds is of the kind; for a record of another
kind there is no call. -/
def ChainedRef.updateCall : ChainedRef → Value → Option UpdateCall
  | .paymentSubmission paymentID _, .paymentSubmissions sub =>
    some (.UpdatePaymentSubmission paymentID sub)
  | .paymentAdmission paymentID _, .paymentAdmissions adm =>
    some (.UpdatePaymentAdmission paymentID adm)
  | .returnSubmission paymentID returnID _, .returnSubmissions sub =>
    some (.UpdateReturnSubmission paymentID returnID sub)
  | .recallSubmission paymentID recallID _, .recallSubmissions sub =>
    some (.UpdateRecallSubmission paymentID recallID sub)
  | .recallDecisionSubmission paymentID recallID decisionID _, .recallDecisionSubmissions sub =>
    some (.UpdateRecallDecisionSubmission paymentID recallID decisionID sub)
  | .reversalSubmission paymentID reversalID _, .reversalSubmissions sub =>
    some (.UpdateReversalSubmission paymentID reversalID sub)
  | _, _ => none

/-- The map and the composite key under which the record is stored. -/
def ChainedRef.slot (ref : ChainedRef) : Kind × String :=
  (ref.getCall.kind, ref.getCall.key)

/-- The goroutine of a started transition, between two of its store calls: the
record it steps, the statuses of the chain it has still to apply, the record its
updater has read with Get and not yet written back, the statuses it has applied,
and the error with which its updater has returned, after which the goroutine has
logged the failure and returned. -/
structure Thread where
  ref : ChainedRef
  pending : List String
  held : Option Value
  applied : List String
  abandoned : Option Error

/-- The next store call of the goroutine, with what follows it up to the next
store call. With no record held, the updater calls Get: on an error the updater
returns it and the goroutine returns; otherwise the updater holds the record.
With a record held, the updater sets the status and the modification time and
calls Update: on an error the goroutine returns; otherwise the goroutine calls
`onChange` when it is not nil and goes on with the next status. A goroutine that
has returned, or has applied the whole chain, does nothing. -/
def Thread.step (e : Engine World) (t : Thread) (w : World) : Thread × World :=
  if t.abandoned.isSome then (t, w)
  else
    match t.pending with
    | [] => (t, w)
    | newStatus :: rest =>
      match t.held with
      | none =>
        match w.store.get t.ref.getCall with
        | (_, some err) => ({ t with abandoned := some err }, w)
        | (v, none) => ({ t with held := some v }, w)
      | some v =>
        match t.ref.updateCall (v.withStatus newStatus w.clock) with
        | none => ({ t with held := none, abandoned := some ErrNotFound }, w)
        | some u =>
          match w.store.update u with
          | (some err, _) => ({ t with held := none, abandoned := some err }, w)
          | (none, store2) =>
            let w2 : World := { w with store := store2 }
            let w3 : World :=
              match e.onChange with
              | some f => f t.ref.resourceType t.ref.id newStatus w2
              | none => w2
            ({ t with pending := rest, held := none, applied := t.applied ++ [newStatus] }, w3)

/-- A create request on a chained kind that has been served: the world it was
served in, the identifier `uuid.New()` had ready for it, the request, and what
the handler did. -/
structure ServedCreate where
  before : World
  uuid : String
  request : ChainedCreate
  result : HandledAny

/-- The map and the composite key of the record for which a served request has
started a transition. -/
def ServedCreate.startedSlot (x : ServedCreate) : Option (Kind × String) :=
  match x.result.started, x.result.created with
  | some _, some v => some (x.request.ref v.id).slot
  | _, _ => none

/-- The goroutine a served request has started, before its first step. -/
def ServedCreate.spawned (x : ServedCreate) : List Thread :=
  match x.result.started, x.result.created with
  | some tr, some v =>
    [{ ref := x.request.ref v.id, pending := tr.chain.drop 1, held := none, applied := [],
       abandoned := none }]
  | _, _ => []

/-- The state of the server: the world, the create requests on chained kinds
served so far, latest first, and the goroutines of the transitions started so
far, in the order they were started. -/
structure Sys where
  world : World
  served : List ServedCreate
  threads : List Thread

/-- The server before its first request, in a given world. -/
def Sys.init (w : World) : Sys := { world := w, served := [], threads := [] }

/-- An atomic action of the server. -/
inductive SysAction where
  | request (uuid : String) (r : ChainedCreate)
  | call (c : StoreCall)
  | sleep (d : Int)
  | step (i : Nat)

/-- What an action does to the server while the process runs. -/
def Sys.act (e : Engine World) (formatDate : Time → String) (s : Sys) : SysAction → Sys
  | .request uuid r =>
    let x : ServedCreate :=
      { before := s.world, uuid := uuid, request := r,
        result := handleCreate uuid formatDate r s.world }
    { world := x.result.world, served := x :: s.served, threads := s.threads ++ x.spawned }
  | .call c => { s with world := { s.world with store := s.world.store.after c } }
  | .sleep d => { s with world := s.world.sleep d }
  | .step i =>
    match s.threads.get? i with
    | none => s
    | some t =>
      { s with world := (t.step e s.world).2, threads := s.threads.set i (t.step e s.world).1 }

/-- The server after an action. A panic that nothing recovers ends the process:
once a goroutine has panicked no handler, store call or goroutine runs any
more, and the state stays as the panic left it. -/
def Sys.step (e : Engine World) (formatDate : Time → String) (s : Sys) (a : SysAction) : Sys :=
  if s.world.crashed then s else Sys.act e formatDate s a

/-- The server after a sequence of actions. -/
def Sys.run (e : Engine World) (formatDate : Time → String) (s : Sys) (acts : List SysAction) :
    Sys :=
  acts.foldl (Sys.step e formatDate) s

/-- The store calls made outside the updater closures. The Update methods of
the six kinds with a status chain are called by the updater closures only
(`internal/handlers/*_submissions.go`, `payment_admissions.go`); everything else
of the Store interface is called by handlers. -/
def StoreCall.external : StoreCall → Bool
  | .update (.UpdatePaymentSubmission _ _) => false
  | .update (.UpdatePaymentAdmission _ _) => false
  | .update (.UpdateReturnSubmission _ _ _) => false
  | .update (.UpdateRecallSubmission _ _ _) => false
  | .update (.UpdateRecallDecisionSubmission _ _ _ _) => false
  | .update (.UpdateReversalSubmission _ _ _) => false
  | _ => true

/-- An action whose store call, if it is one made directly, is made outside the
updater closures. -/
def SysAction.external : SysAction → Bool
  | .call c => c.external
  | _ => true

/-- A run of the server from `lifecycleScenario`: a submission `s1` is created
under payment `p1`, its goroutine reads it, a second request for `s1` comes in,
a subscription is created, and the goroutine goes on. -/
def sysScenario : List SysAction :=
  [.request "u1" (.paymentSubmission "p1" (.ok (newSubmission "s1" ""))),
   .step 0,
   .request "u2" (.paymentSubmission "p1" (.ok (newSubmission "s1" ""))),
   .call (.create (.CreateSubscription
     (newSubscription "sub1" "http://example.com/hook" EventUpdated
       ResourceTypePaymentSubmission true))),
   .sleep 10,
   .step 0,
   .step 0,
   .request "u3" (.paymentSubmission "nope" (.ok (newSubmission "s2" ""))),
   .step 0]

/-- The map and composite key of every record for which a transition has been
started, latest first. -/
def Sys.slots (s : Sys) : List (Kind × String) :=
  s.served.filterMap ServedCreate.startedSlot

/-- A goroutine that is sound with respect to a store: it has not been
abandoned, the store holds its record under the identifier of the record, the
record its updater holds, if any, is of the kind and has that identifier, and
the statuses it has applied and has still to apply are those of its chain after
the first, in order. -/
def Thread.Sound (m : MemoryStore) (t : Thread) : Prop :=
  t.abandoned = none ∧
  (∃ v, m.lookup t.ref.slot.1 t.ref.slot.2 = some v ∧ v.id = t.ref.id) ∧
  (∀ v, t.held = some v → v.id = t.ref.id ∧ v.kind = t.ref.slot.1) ∧
  t.applied ++ t.pending = t.ref.chain.drop 1

/-- The number of store calls a goroutine has still to make to apply the whole
of its chain: a Get and an Update for each status, less the Get already made. -/
def Thread.left (t : Thread) : Nat :=
  2 * t.pending.length - (if t.held.isSome then 1 else 0)

/-- A run of the server from `lifecycleScenario` with an Update call from
outside the updater closures: a submission with the identifier `b:c` is created
under payment `p1`, then `UpdatePaymentSubmission` is called with the payment
identifier `p1:b` and a submission with the identifier `c`, which is the same
composite key, and then the goroutine of the transition makes its Get and its
Update. -/
def foreignUpdateScenario : List SysAction :=
  [.request "u1" (.paymentSubmission "p1" (.ok (newSubmission "b:c" ""))),
   .call (.update (.UpdatePaymentSubmission "p1:b" (newSubmission "c" "accepted"))),
   .step 0,
   .step 0]

/-! # Properties

## Go maps -/

namespace GoMap

variable {V : Type}

theorem keys_setEntries (es : List (String × V)) (k : String) (v : V) :
    (setEntries es k v).map Prod.fst =
      if k ∈ es.map Prod.fst then es.map Prod.fst else es.map Prod.fst ++ [k] := by
  induction es with
  | nil => simp [setEntries]
  | cons e es ih =>
    by_cases h : e.1 = k
    · simp [setEntries, h]
    · have h2 : ¬ k = e.1 := fun h3 => h h3.symm
      simp only [setEntries, h, if_false, List.map_cons, ih, List.mem_cons, h2, false_or]
      split <;> simp

theorem ext_entries {a b : GoMap V} (h : a.entries = b.entries) : a = b := by
  cases a; cases b; cases h; rfl

@[simp] theorem get?_empty (k : String) : (empty : GoMap V).get? k = none := rfl

theorem lookup_setEntries_self (es : List (String × V)) (k : String) (v : V) :
    (setEntries es k v).lookup k = some v := by
  induction es with
  | nil => simp [setEntries, List.lookup]
  | cons e es ih =>
    obtain ⟨k1, v1⟩ := e
    by_cases h : k1 = k
    · simp [setEntries, h, List.lookup]
    · have h2 : (k == k1) = false := by simpa using fun h3 => h h3.symm
      simp [setEntries, h, List.lookup, h2, ih]

theorem lookup_setEntries_other (es : List (String × V)) (k k2 : String) (v : V)
    (hne : k2 ≠ k) : (setEntries es k v).lookup k2 = es.lookup k2 := by
  induction es with
  | nil =>
    have h2 : (k2 == k) = false := by simpa using hne
    simp [setEntries, List.lookup, h2]
  | cons e es ih =>
    obtain ⟨k1, v1⟩ := e
    by_cases h : k1 = k
    · subst h
      have h2 : (k2 == k1) = false := by simpa using hne
      simp [setEntries, List.lookup, h2]
    · by_cases h3 : k2 = k1
      · subst h3
        simp [setEntries, h, List.lookup]
      · have h4 : (k2 == k1) = false := by simpa using h3
        simp [setEntries, h, List.lookup, h4, ih]

@[simp] theorem get?_set_self (m : GoMap V) (k : String) (v : V) :
    (m.set k v).get? k = some v :=
  lookup_setEntries_self m.entries k v

theorem get?_set_other (m : GoMap V) (k k2 : String) (v : V) (hne : k2 ≠ k) :
    (m.set k v).get? k2 = m.get? k2 :=
  lookup_setEntries_other m.entries k k2 v hne

theorem get?_set (m : GoMap V) (k k2 : String) (v : V) :
    (m.set k v).get? k2 = if k2 = k then some v else m.get? k2 := by
  by_cases h : k2 = k
  · subst h; simp
  · simp [h, get?_set_other m k k2 v h]

theorem lookup_eq_none_of_not_mem (es : List (String × V)) (k : String)
    (h : k ∉ es.map Prod.fst) : es.lookup k = none := by
  induction es with
  | nil => rfl
  | cons e es ih =>
    obtain ⟨k1, v1⟩ := e
    simp only [List.map_cons, List.mem_cons, not_or] at h
    have h2 : (k == k1) = false := by simpa using h.1
    simp [List.lookup, h2, ih h.2]

theorem lookup_eq_some_iff (es : List (String × V)) (hnd : (es.map Prod.fst).Nodup)
    (k : String) (v : V) : es.lookup k = some v ↔ (k, v) ∈ es := by
  induction es with
  | nil => simp [List.lookup]
  | cons e es ih =>
    obtain ⟨k1, v1⟩ := e
    simp only [List.map_cons, List.nodup_cons] at hnd
    by_cases h : k = k1
    · subst h
      have hno : ∀ w, (k, w) ∉ es := fun w hw => hnd.1 (List.mem_map_of_mem Prod.fst hw)
      simp [List.lookup, hno]
      exact eq_comm
    · have h2 : (k == k1) = false := by simpa using h
      simp [List.lookup, h2, ih hnd.2, h]

/-- A map holds `v` under `k` exactly when `(k, v)` is one of its entries. -/
theorem get?_eq_some_iff (m : GoMap V) (k : String) (v : V) :
    m.get? k = some v ↔ (k, v) ∈ m.entries :=
  lookup_eq_some_iff m.entries m.nodup k v

theorem setEntries_of_absent (es : List (String × V)) (k : String) (v : V)
    (h : es.lookup k = none) : setEntries es k v = es ++ [(k, v)] := by
  induction es with
  | nil => rfl
  | cons e es ih =>
    obtain ⟨k1, v1⟩ := e
    by_cases h1 : k1 = k
    · subst h1; simp [List.lookup] at h
    · have h2 : (k == k1) = false := by simpa using fun h3 => h1 h3.symm
      simp only [List.lookup, h2] at h
      simp [setEntries, h1, ih h]

/-- Writing a new key adds one entry at the end of the iteration order. -/
theorem entries_set_of_absent (m : GoMap V) (k : String) (v : V) (h : m.get? k = none) :
    (m.set k v).entries = m.entries ++ [(k, v)] :=
  setEntries_of_absent m.entries k v h

theorem get?_delete (m : GoMap V) (k k2 : String) :
    (m.delete k).get? k2 = if k2 = k then none else m.get? k2 := by
  unfold delete get?
  simp only
  generalize m.entries = es
  induction es with
  | nil => simp [List.lookup]
  | cons e es ih =>
    obtain ⟨k1, v1⟩ := e
    by_cases h1 : k1 = k
    · subst h1
      simp only [ne_eq, not_true_eq_false, decide_False, Bool.false_eq_true, not_false_eq_true,
        List.filter_cons_of_neg, ih]
      by_cases h2 : k2 = k1
      · simp [h2]
      · have h4 : (k2 == k1) = false := by simpa using h2
        simp [h2, List.lookup, h4]
    · have hf : List.filter (fun e : String × V => decide (e.1 ≠ k)) ((k1, v1) :: es)
          = (k1, v1) :: List.filter (fun e : String × V => decide (e.1 ≠ k)) es :=
        List.filter_cons_of_pos (by simpa using h1)
      rw [hf]
      by_cases h2 : k2 = k1
      · subst h2
        simp [List.lookup, h1]
      · have h4 : (k2 == k1) = false := by simpa using h2
        simp only [List.lookup, h4, ih]

end GoMap

/-! ## What the write calls do to the maps -/

open Error

theorem create_err (m : MemoryStore) (c : CreateCall) :
    (m.create c).1 = if (m.lookup c.kind c.key).isSome then some ErrConflict else none := by
  cases c <;>
    simp only [MemoryStore.create, MemoryStore.CreatePayment, MemoryStore.CreatePaymentSubmission,
      MemoryStore.CreatePaymentAdmission, MemoryStore.CreateAdmissionTask,
      MemoryStore.CreateReturn, MemoryStore.CreateReturnSubmission, MemoryStore.CreateRecall,
      MemoryStore.CreateRecallSubmission, MemoryStore.CreateRecallDecision,
      MemoryStore.CreateRecallDecisionSubmission, MemoryStore.CreateReversal,
      MemoryStore.CreateReversalSubmission, MemoryStore.CreateSubscription,
      MemoryStore.lookup, CreateCall.kind, CreateCall.key, GoMap.contains] <;>
    split <;> simp_all

theorem create_store_of_present (m : MemoryStore) (c : CreateCall)
    (h : (m.lookup c.kind c.key).isSome = true) : (m.create c).2 = m := by
  cases c <;>
    simp [MemoryStore.lookup, CreateCall.kind, CreateCall.key] at h <;>
    simp [MemoryStore.create, MemoryStore.CreatePayment, MemoryStore.CreatePaymentSubmission,
      MemoryStore.CreatePaymentAdmission, MemoryStore.CreateAdmissionTask,
      MemoryStore.CreateReturn, MemoryStore.CreateReturnSubmission, MemoryStore.CreateRecall,
      MemoryStore.CreateRecallSubmission, MemoryStore.CreateRecallDecision,
      MemoryStore.CreateRecallDecisionSubmission, MemoryStore.CreateReversal,
      MemoryStore.CreateReversalSubmission, MemoryStore.CreateSubscription,
      GoMap.contains, h]

theorem lookup_create_of_absent (m : MemoryStore) (c : CreateCall)
    (h : m.lookup c.kind c.key = none) (kd : Kind) (k : String) :
    (m.create c).2.lookup kd k =
      if kd = c.kind ∧ k = c.key then some c.value else m.lookup kd k := by
  cases c <;>
    simp only [MemoryStore.lookup, CreateCall.kind, CreateCall.key, Option.map_eq_none'] at h <;>
    cases kd <;>
    simp [MemoryStore.create, MemoryStore.CreatePayment, MemoryStore.CreatePaymentSubmission,
      MemoryStore.CreatePaymentAdmission, MemoryStore.CreateAdmissionTask,
      MemoryStore.CreateReturn, MemoryStore.CreateReturnSubmission, MemoryStore.CreateRecall,
      MemoryStore.CreateRecallSubmission, MemoryStore.CreateRecallDecision,
      MemoryStore.CreateRecallDecisionSubmission, MemoryStore.CreateReversal,
      MemoryStore.CreateReversalSubmission, MemoryStore.CreateSubscription,
      MemoryStore.lookup, CreateCall.kind, CreateCall.key, CreateCall.value,
      GoMap.contains, h, GoMap.get?_set] <;>
    split <;> simp_all

theorem update_err (m : MemoryStore) (u : UpdateCall) :
    (m.update u).1 = if (m.lookup u.kind u.key).isSome then none else some ErrNotFound := by
  cases u <;>
    simp only [MemoryStore.update, MemoryStore.UpdatePayment, MemoryStore.UpdatePaymentSubmission,
      MemoryStore.UpdatePaymentAdmission, MemoryStore.UpdateAdmissionTask,
      MemoryStore.UpdateReturnSubmission, MemoryStore.UpdateRecallSubmission,
      MemoryStore.UpdateRecallDecisionSubmission, MemoryStore.UpdateReversalSubmission,
      MemoryStore.UpdateSubscription,
      MemoryStore.lookup, UpdateCall.kind, UpdateCall.key, GoMap.contains] <;>
    split <;> simp_all [Option.ne_none_iff_isSome]

theorem update_store_of_absent (m : MemoryStore) (u : UpdateCall)
    (h : m.lookup u.kind u.key = none) : (m.update u).2 = m := by
  cases u <;>
    simp [MemoryStore.lookup, UpdateCall.kind, UpdateCall.key] at h <;>
    simp [MemoryStore.update, MemoryStore.UpdatePayment, MemoryStore.UpdatePaymentSubmission,
      MemoryStore.UpdatePaymentAdmission, MemoryStore.UpdateAdmissionTask,
      MemoryStore.UpdateReturnSubmission, MemoryStore.UpdateRecallSubmission,
      MemoryStore.UpdateRecallDecisionSubmission, MemoryStore.UpdateReversalSubmission,
      MemoryStore.UpdateSubscription, GoMap.contains, h]

theorem lookup_update_of_present (m : MemoryStore) (u : UpdateCall)
    (h : (m.lookup u.kind u.key).isSome = true) (kd : Kind) (k : String) :
    (m.update u).2.lookup kd k =
      if kd = u.kind ∧ k = u.key then some u.value else m.lookup kd k := by
  cases u <;>
    simp [MemoryStore.lookup, UpdateCall.kind, UpdateCall.key] at h <;>
    cases kd <;>
    simp [MemoryStore.update, MemoryStore.UpdatePayment, MemoryStore.UpdatePaymentSubmission,
      MemoryStore.UpdatePaymentAdmission, MemoryStore.UpdateAdmissionTask,
      MemoryStore.UpdateReturnSubmission, MemoryStore.UpdateRecallSubmission,
      MemoryStore.UpdateRecallDecisionSubmission, MemoryStore.UpdateReversalSubmission,
      MemoryStore.UpdateSubscription,
      MemoryStore.lookup, UpdateCall.kind, UpdateCall.key, UpdateCall.value,
      GoMap.contains, h, GoMap.get?_set] <;>
    split <;> simp_all

theorem get_of_some (m : MemoryStore) (g : GetCall) (v : Value)
    (h : m.lookup g.kind g.key = some v) : m.get g = (v, none) := by
  cases g <;>
    simp only [MemoryStore.lookup, GetCall.kind, GetCall.key, Option.map_eq_some'] at h <;>
    obtain ⟨w, hw, rfl⟩ := h <;>
    simp [MemoryStore.get, MemoryStore.GetPayment, MemoryStore.GetPaymentSubmission,
      MemoryStore.GetPaymentAdmission, MemoryStore.GetAdmissionTask, MemoryStore.GetReturn,
      MemoryStore.GetReturnSubmission, MemoryStore.GetRecall, MemoryStore.GetRecallSubmission,
      MemoryStore.GetRecallDecision, MemoryStore.GetRecallDecisionSubmission,
      MemoryStore.GetReversal, MemoryStore.GetReversalSubmission, MemoryStore.GetSubscription, hw]

theorem get_err (m : MemoryStore) (g : GetCall) :
    (m.get g).2 = if (m.lookup g.kind g.key).isSome then none else some ErrNotFound := by
  cases g <;>
    simp only [MemoryStore.get, MemoryStore.GetPayment, MemoryStore.GetPaymentSubmission,
      MemoryStore.GetPaymentAdmission, MemoryStore.GetAdmissionTask, MemoryStore.GetReturn,
      MemoryStore.GetReturnSubmission, MemoryStore.GetRecall, MemoryStore.GetRecallSubmission,
      MemoryStore.GetRecallDecision, MemoryStore.GetRecallDecisionSubmission,
      MemoryStore.GetReversal, MemoryStore.GetReversalSubmission, MemoryStore.GetSubscription,
      MemoryStore.lookup, GetCall.kind, GetCall.key] <;>
    split <;> simp_all

theorem getCall_kind (c : CreateCall) : c.getCall.kind = c.kind := by
  cases c <;> rfl

theorem getCall_key (c : CreateCall) : c.getCall.key = c.key := by
  cases c <;> rfl

theorem updateGetCall_kind (u : UpdateCall) : u.getCall.kind = u.kind := by
  cases u <;> rfl

theorem updateGetCall_key (u : UpdateCall) : u.getCall.key = u.key := by
  cases u <;> rfl

/-! ## Create, get and update -/

/-- C1. Create-then-get round trip: in every store and for every Create call of
any kind whose composite key is not yet present, the call returns nil, and the
Get call on the same identifier tuple in the store after it returns the created
record with a nil error. -/
theorem create_then_get (m : MemoryStore) (c : CreateCall)
    (h : m.lookup c.kind c.key = none) :
    (m.create c).1 = none ∧ (m.create c).2.get c.getCall = (c.value, none) := by
  refine ⟨by simp [create_err, h], ?_⟩
  apply get_of_some
  rw [getCall_kind, getCall_key, lookup_create_of_absent m c h]
  simp

/-- The create-then-get round trip on the four-level key of
`TestNestedResourceKeys`. -/
theorem create_then_get_witness :
    NewMemoryStore.lookup Kind.recallDecisionSubmissions (key4 "p1" "rec1" "d1" "ds1") = none ∧
    (NewMemoryStore.create
        (.CreateRecallDecisionSubmission "p1" "rec1" "d1"
          (newDecisionSubmission "ds1" "accepted"))).1 = none ∧
    (NewMemoryStore.create
        (.CreateRecallDecisionSubmission "p1" "rec1" "d1"
          (newDecisionSubmission "ds1" "accepted"))).2.get
        (.GetRecallDecisionSubmission "p1" "rec1" "d1" "ds1")
      = (.recallDecisionSubmissions (newDecisionSubmission "ds1" "accepted"), none) :=
  ⟨by decide,
   create_then_get NewMemoryStore
     (.CreateRecallDecisionSubmission "p1" "rec1" "d1" (newDecisionSubmission "ds1" "accepted"))
     (by decide)⟩

/-- C2. In every store and for every Create call of any kind: the call returns
ErrConflict exactly when the map of its kind already holds its composite key,
and then the store after the call is the store before it; otherwise the call
returns nil, the map holds the passed record under that key, and what every
map holds under every other key is as before. -/
theorem create_conflict_iff_present (m : MemoryStore) (c : CreateCall) :
    ((m.create c).1 = some ErrConflict ↔ (m.lookup c.kind c.key).isSome = true) ∧
    ((m.lookup c.kind c.key).isSome = true → (m.create c).2 = m) ∧
    (m.lookup c.kind c.key = none →
      (m.create c).1 = none ∧
      (m.create c).2.lookup c.kind c.key = some c.value ∧
      ∀ kd k, ¬ (kd = c.kind ∧ k = c.key) → (m.create c).2.lookup kd k = m.lookup kd k) := by
  refine ⟨?_, create_store_of_present m c, fun h => ⟨by simp [create_err, h], ?_, ?_⟩⟩
  · rw [create_err]; split <;> simp_all
  · rw [lookup_create_of_absent m c h]; simp
  · intro kd k hne
    rw [lookup_create_of_absent m c h, if_neg hne]

theorem runCreates_of_present (cs : List CreateCall) (m : MemoryStore) (kd : Kind) (k : String)
    (hall : ∀ c ∈ cs, c.kind = kd ∧ c.key = k) (h : (m.lookup kd k).isSome = true) :
    (runCreates m cs).1 = List.replicate cs.length (some ErrConflict) ∧
      (runCreates m cs).2 = m := by
  induction cs with
  | nil => exact ⟨rfl, rfl⟩
  | cons c cs ih =>
    have hc := hall c (List.mem_cons_self _ _)
    have hp : (m.lookup c.kind c.key).isSome = true := by rw [hc.1, hc.2]; exact h
    have hs : (m.create c).2 = m := create_store_of_present m c hp
    have he : (m.create c).1 = some ErrConflict := by rw [create_err, if_pos hp]
    have ih2 := ih (fun c2 h2 => hall c2 (List.mem_cons_of_mem _ h2))
    simp only [runCreates, hs, he, ih2.1, ih2.2, List.length_cons, List.replicate_succ, and_self]

/-- C3. For a store that does not hold key `k` of kind `kd` and `n >= 1` Create
calls that all compute that key, made in any serial order (the list is the
order in which the lock admits them): the first call admitted returns nil,
each of the other `n - 1` returns ErrConflict, so exactly one call succeeds,
and the record held under `k` afterwards is the one the successful call
passed. -/
theorem same_key_creates_one_winner (m : MemoryStore) (kd : Kind) (k : String)
    (c : CreateCall) (cs : List CreateCall)
    (hall : ∀ c2 ∈ c :: cs, c2.kind = kd ∧ c2.key = k)
    (habsent : m.lookup kd k = none) :
    (runCreates m (c :: cs)).1 = none :: List.replicate cs.length (some ErrConflict) ∧
    (runCreates m (c :: cs)).1.count none = 1 ∧
    (runCreates m (c :: cs)).2.lookup kd k = some c.value := by
  have hc := hall c (List.mem_cons_self _ _)
  have ha : m.lookup c.kind c.key = none := by rw [hc.1, hc.2]; exact habsent
  have he : (m.create c).1 = none := by simp [create_err, ha]
  have hl : (m.create c).2.lookup kd k = some c.value := by
    rw [lookup_create_of_absent m c ha, if_pos ⟨hc.1.symm, hc.2.symm⟩]
  have hrest := runCreates_of_present cs (m.create c).2 kd k
    (fun c2 h2 => hall c2 (List.mem_cons_of_mem _ h2)) (by rw [hl]; rfl)
  have hlist : (runCreates m (c :: cs)).1
      = none :: List.replicate cs.length (some ErrConflict) := by
    simp only [runCreates, he, hrest.1]
  refine ⟨hlist, ?_, ?_⟩
  · rw [hlist, List.count_cons_self, List.count_replicate]
    simp
  · simp only [runCreates, hrest.2, hl]

/-- Three clients create payment `p1` with different amounts: the first one
admitted wins. -/
theorem same_key_creates_one_winner_witness :
    (runCreates NewMemoryStore
      [.CreatePayment (newPayment "p1" 1), .CreatePayment (newPayment "p1" 2),
       .CreatePayment (newPayment "p1" 3)]).1 = [none, some ErrConflict, some ErrConflict] ∧
    (runCreates NewMemoryStore
      [.CreatePayment (newPayment "p1" 1), .CreatePayment (newPayment "p1" 2),
       .CreatePayment (newPayment "p1" 3)]).1.count none = 1 ∧
    (runCreates NewMemoryStore
      [.CreatePayment (newPayment "p1" 1), .CreatePayment (newPayment "p1" 2),
       .CreatePayment (newPayment "p1" 3)]).2.lookup .payments "p1"
      = some (.payments (newPayment "p1" 1)) :=
  same_key_creates_one_winner NewMemoryStore .payments "p1"
    (.CreatePayment (newPayment "p1" 1))
    [.CreatePayment (newPayment "p1" 2), .CreatePayment (newPayment "p1" 3)]
    (by decide) (by decide)

/-- C7. In every store and for every Update call of any kind: when the map of
its kind does not hold its composite key, the call returns ErrNotFound and the
store after it is the store before it, so the key is still absent; when the
map holds the key, the call returns nil, the Get call on the same identifier
tuple then returns exactly the passed record, and what every map of every kind
holds under every other key is as before. -/
theorem update_not_found_or_replace (m : MemoryStore) (u : UpdateCall) :
    (m.lookup u.kind u.key = none →
      (m.update u).1 = some ErrNotFound ∧ (m.update u).2 = m ∧
      (m.update u).2.lookup u.kind u.key = none) ∧
    ((m.lookup u.kind u.key).isSome = true →
      (m.update u).1 = none ∧
      (m.update u).2.get u.getCall = (u.value, none) ∧
      ∀ kd k, ¬ (kd = u.kind ∧ k = u.key) → (m.update u).2.lookup kd k = m.lookup kd k) := by
  constructor
  · intro h
    have hs := update_store_of_absent m u h
    exact ⟨by simp [update_err, h], hs, by rw [hs]; exact h⟩
  · intro h
    refine ⟨by simp [update_err, h], ?_, ?_⟩
    · apply get_of_some
      rw [updateGetCall_kind, updateGetCall_key, lookup_update_of_present m u h]
      simp
    · intro kd k hne
      rw [lookup_update_of_present m u h, if_neg hne]

/-- C8. In every store and for every Get call of any kind: the call returns
ErrNotFound exactly when the map of its kind holds nothing under its composite
key; when a record is held there, the call returns that record with a nil
error; the error is never anything but nil or ErrNotFound; and the store after
the call is the store before it. -/
theorem get_not_found_iff_absent (m : MemoryStore) (g : GetCall) :
    ((m.get g).2 = some ErrNotFound ↔ m.lookup g.kind g.key = none) ∧
    (∀ v, m.lookup g.kind g.key = some v → m.get g = (v, none)) ∧
    ((m.get g).2 = none ∨ (m.get g).2 = some ErrNotFound) ∧
    m.after (.get g) = m := by
  refine ⟨?_, fun v h => get_of_some m g v h, ?_, rfl⟩
  · rw [get_err]
    cases h : m.lookup g.kind g.key <;> simp
  · rw [get_err]
    split
    · exact Or.inl rfl
    · exact Or.inr rfl

/-! ## Composite keys -/

theorem split_at_first_colon (a a2 b b2 : List Char) (ha : ':' ∉ a) (ha2 : ':' ∉ a2)
    (h : a ++ ':' :: b = a2 ++ ':' :: b2) : a = a2 ∧ b = b2 := by
  induction a generalizing a2 with
  | nil =>
    cases a2 with
    | nil => simpa using h
    | cons x xs =>
      simp only [List.nil_append, List.cons_append, List.cons.injEq] at h
      exact absurd (h.1 ▸ List.mem_cons_self x xs) ha2
  | cons y ys ih =>
    cases a2 with
    | nil =>
      simp only [List.nil_append, List.cons_append, List.cons.injEq] at h
      exact absurd (h.1 ▸ List.mem_cons_self y ys) ha
    | cons x xs =>
      simp only [List.cons_append, List.cons.injEq] at h
      have hr := ih xs (fun hm => ha (List.mem_cons_of_mem _ hm))
        (fun hm => ha2 (List.mem_cons_of_mem _ hm)) h.2
      exact ⟨by rw [h.1, hr.1], hr.2⟩

theorem key2_data (a b : String) : (key2 a b).data = a.data ++ ':' :: b.data := by
  simp [key2, String.data_append]

theorem key3_data (a b c : String) :
    (key3 a b c).data = a.data ++ ':' :: (b.data ++ ':' :: c.data) := by
  simp [key3, String.data_append]

theorem key4_data (a b c d : String) :
    (key4 a b c d).data = a.data ++ ':' :: (b.data ++ ':' :: (c.data ++ ':' :: d.data)) := by
  simp [key4, String.data_append]

/-- The counterexample to C4: the tuples ("a:b", "c") and ("a", "b:c") differ and
have the same composite key, so `key2` is not injective on all strings. -/
theorem key2_not_injective :
    ¬ (∀ a b a2 b2 : String, key2 a b = key2 a2 b2 → a = a2 ∧ b = b2) := by
  intro h
  have h2 := h "a:b" "c" "a" "b:c" (by decide)
  exact absurd h2.1 (by decide)

/-- C4, amended. The composite key is injective on the identifier tuples whose
ancestor identifiers contain no ':' (the last identifier may be any string):
equal `key2`, `key3` or `key4` keys then come from equal tuples. -/
theorem key_injective_without_separator :
    (∀ a b a2 b2 : String, ':' ∉ a.data → ':' ∉ a2.data →
      key2 a b = key2 a2 b2 → a = a2 ∧ b = b2) ∧
    (∀ a b c a2 b2 c2 : String, ':' ∉ a.data → ':' ∉ b.data → ':' ∉ a2.data → ':' ∉ b2.data →
      key3 a b c = key3 a2 b2 c2 → a = a2 ∧ b = b2 ∧ c = c2) ∧
    (∀ a b c d a2 b2 c2 d2 : String, ':' ∉ a.data → ':' ∉ b.data → ':' ∉ c.data →
      ':' ∉ a2.data → ':' ∉ b2.data → ':' ∉ c2.data →
      key4 a b c d = key4 a2 b2 c2 d2 → a = a2 ∧ b = b2 ∧ c = c2 ∧ d = d2) := by
  refine ⟨?_, ?_, ?_⟩
  · intro a b a2 b2 ha ha2 h
    have hd := congrArg String.data h
    rw [key2_data, key2_data] at hd
    have h1 := split_at_first_colon _ _ _ _ ha ha2 hd
    exact ⟨String.ext h1.1, String.ext h1.2⟩
  · intro a b c a2 b2 c2 ha hb ha2 hb2 h
    have hd := congrArg String.data h
    rw [key3_data, key3_data] at hd
    have h1 := split_at_first_colon _ _ _ _ ha ha2 hd
    have h2 := split_at_first_colon _ _ _ _ hb hb2 h1.2
    exact ⟨String.ext h1.1, String.ext h2.1, String.ext h2.2⟩
  · intro a b c d a2 b2 c2 d2 ha hb hc ha2 hb2 hc2 h
    have hd := congrArg String.data h
    rw [key4_data, key4_data] at hd
    have h1 := split_at_first_colon _ _ _ _ ha ha2 hd
    have h2 := split_at_first_colon _ _ _ _ hb hb2 h1.2
    have h3 := split_at_first_colon _ _ _ _ hc hc2 h2.2
    exact ⟨String.ext h1.1, String.ext h2.1, String.ext h3.1, String.ext h3.2⟩

/-- The amended C4 at the keys of `TestNestedResourceKeys`: a key equal to that of
("p1", "rec1", "d1", "ds1") comes from that tuple. -/
theorem key_injective_without_separator_witness :
    key4 "p1" "rec1" "d1" "ds1" = "p1:rec1:d1:ds1" ∧
    ("p1" = "p1" ∧ "rec1" = "rec1" ∧ "d1" = "d1" ∧ "ds1" = "ds1") :=
  ⟨by decide,
   key_injective_without_separator.2.2 "p1" "rec1" "d1" "ds1" "p1" "rec1" "d1" "ds1"
     (by decide) (by decide) (by decide) (by decide) (by decide) (by decide) rfl⟩

/-! ## Subscriptions -/

theorem foldl_collect {V : Type} (cond : String → V → Bool) (es : List (String × V))
    (acc : List V) :
    es.foldl (fun out e => if cond e.1 e.2 then out ++ [e.2] else out) acc
      = acc ++ (es.filter (fun e => cond e.1 e.2)).map Prod.snd := by
  induction es generalizing acc with
  | nil => simp
  | cons e es ih =>
    simp only [List.foldl_cons, ih]
    by_cases h : cond e.1 e.2 = true
    · simp [h, List.filter_cons]
    · simp [h, List.filter_cons]

/-- The collecting loop returns, in iteration order, the values of the entries
that pass the test. -/
theorem collect_eq_filter {V : Type} (m : GoMap V) (cond : String → V → Bool) :
    m.collect cond = (m.entries.filter (fun e => cond e.1 e.2)).map Prod.snd := by
  simp [GoMap.collect, foldl_collect]

theorem mem_collect_iff {V : Type} (m : GoMap V) (cond : String → V → Bool) (v : V) :
    v ∈ m.collect cond ↔ ∃ k, m.get? k = some v ∧ cond k v = true := by
  rw [collect_eq_filter]
  simp only [List.mem_map, List.mem_filter, GoMap.get?_eq_some_iff]
  constructor
  · rintro ⟨⟨k, w⟩, ⟨hm, hc⟩, rfl⟩
    exact ⟨k, hm, hc⟩
  · rintro ⟨k, hm, hc⟩
    exact ⟨(k, v), ⟨hm, hc⟩, rfl⟩

/-- C9. In every store and for all strings recordType and eventType:
a subscription is returned by MatchSubscriptions exactly when it is stored (under
some key) and is active with RecordType = recordType and EventType = eventType;
the returned list is the list of stored subscriptions, one per key in iteration
order, with those that fail the test removed, so each one that matches is
returned once per key that holds it; and no inactive subscription is returned. -/
theorem matchSubscriptions_exact (m : MemoryStore) (recordType eventType : String) :
    (∀ s, s ∈ m.MatchSubscriptions recordType eventType ↔
      (∃ k, m.subscriptions.get? k = some s) ∧ s.Attributes.IsActive = true ∧
        s.Attributes.RecordType = recordType ∧ s.Attributes.EventType = eventType) ∧
    m.MatchSubscriptions recordType eventType =
      m.subscriptions.values.filter (fun s =>
        s.Attributes.IsActive && s.Attributes.RecordType == recordType
          && s.Attributes.EventType == eventType) ∧
    (∀ s ∈ m.MatchSubscriptions recordType eventType, s.Attributes.IsActive ≠ false) := by
  have hmem : ∀ s, s ∈ m.MatchSubscriptions recordType eventType ↔
      (∃ k, m.subscriptions.get? k = some s) ∧ s.Attributes.IsActive = true ∧
        s.Attributes.RecordType = recordType ∧ s.Attributes.EventType = eventType := by
    intro s
    unfold MemoryStore.MatchSubscriptions
    rw [mem_collect_iff]
    simp only [Bool.and_eq_true, beq_iff_eq]
    constructor
    · rintro ⟨k, hk, ⟨ha, hr⟩, he⟩
      exact ⟨⟨k, hk⟩, ha, hr, he⟩
    · rintro ⟨⟨k, hk⟩, ha, hr, he⟩
      exact ⟨k, hk, ⟨ha, hr⟩, he⟩
  refine ⟨hmem, ?_, ?_⟩
  · unfold MemoryStore.MatchSubscriptions
    rw [collect_eq_filter, GoMap.values, List.filter_map]
    rfl
  · intro s hs
    rw [((hmem s).1 hs).2.1]
    decide

/-! ## Lists -/

/-- A List call returns exactly the records its map holds under the keys it
selects. -/
theorem mem_list_iff (m : MemoryStore) (l : ListCall) (v : Value) :
    v ∈ m.list l ↔ ∃ k, m.lookup l.kind k = some v ∧ l.selects k = true := by
  cases l <;>
    simp only [MemoryStore.list, MemoryStore.ListPayments, MemoryStore.ListPaymentSubmissions,
      MemoryStore.ListPaymentAdmissions, MemoryStore.ListReturns,
      MemoryStore.ListReturnSubmissions, MemoryStore.ListRecalls,
      MemoryStore.ListRecallSubmissions, MemoryStore.ListRecallDecisions,
      MemoryStore.ListRecallDecisionSubmissions, MemoryStore.ListReversals,
      MemoryStore.ListReversalSubmissions, MemoryStore.ListSubscriptions,
      MemoryStore.lookup, ListCall.kind, ListCall.selects, ListCall.pfx,
      List.mem_map, mem_collect_iff, Option.map_eq_some'] <;>
    constructor <;>
    first
      | (rintro ⟨w, ⟨k, hk, hc⟩, rfl⟩; exact ⟨k, ⟨w, hk, rfl⟩, hc⟩)
      | (rintro ⟨k, ⟨w, hk, rfl⟩, hc⟩; exact ⟨w, ⟨k, hk, hc⟩, rfl⟩)

/-- The test of the List loops: the key starts with the prefix and is longer. -/
theorem keyUnder_iff (k p : String) :
    keyUnder k p = true ↔ p.data <+: k.data ∧ p.length < k.length := by
  unfold keyUnder sliceTo
  simp only [Bool.and_eq_true, decide_eq_true_eq, beq_iff_eq, gt_iff_lt]
  constructor
  · rintro ⟨hlen, htake⟩
    refine ⟨?_, hlen⟩
    have hd : k.data.take p.length = p.data := congrArg String.data htake
    rw [← hd]
    exact List.take_prefix _ _
  · rintro ⟨⟨t, ht⟩, hlen⟩
    refine ⟨hlen, ?_⟩
    apply String.ext
    show k.data.take p.length = p.data
    rw [← ht]
    exact List.take_left' rfl

theorem keyUnder_append (p i : String) (hi : i ≠ "") : keyUnder (p ++ i) p = true := by
  rw [keyUnder_iff]
  refine ⟨⟨i.data, by simp [String.data_append]⟩, ?_⟩
  have hpos : 0 < i.length := by
    cases hd : i.data with
    | nil => exact absurd (String.ext hd) hi
    | cons x xs => simp [String.length, hd]
  simp only [String.length_append]
  omega

theorem keyUnder_self (p : String) : keyUnder p p = false := by
  simp [keyUnder]

/-- The key of a Create call is the prefix of its parent's List call followed by
the identifier of the record. -/
theorem create_key_eq (c : CreateCall) (l : ListCall) (p : String)
    (hl : c.listCall = some l) (hp : l.pfx = some p) : c.key = p ++ c.id := by
  cases c <;> simp only [CreateCall.listCall, Option.some.injEq, reduceCtorEq] at hl <;>
    subst hl <;>
    simp only [ListCall.pfx, Option.some.injEq, reduceCtorEq] at hp <;>
    subst hp <;>
    apply String.ext <;>
    simp [CreateCall.key, CreateCall.id, key2, key3, key4, String.data_append]

theorem listCall_kind (c : CreateCall) (l : ListCall) (hl : c.listCall = some l) :
    l.kind = c.kind := by
  cases c <;> simp only [CreateCall.listCall, Option.some.injEq, reduceCtorEq] at hl <;>
    subst hl <;> rfl

/-- The counterexample to C5: on the empty store CreatePaymentSubmission("p1", s)
with `s.ID = ""` returns nil and GetPaymentSubmission("p1", "") returns `s`, yet
ListPaymentSubmissions("p1") is empty: the key "p1:" starts with the prefix
"p1:" and is not longer than it. -/
theorem list_misses_empty_id :
    (NewMemoryStore.create (.CreatePaymentSubmission "p1" (newSubmission "" "accepted"))).1
      = none ∧
    ((NewMemoryStore.create
        (.CreatePaymentSubmission "p1" (newSubmission "" "accepted"))).2.get
        (.GetPaymentSubmission "p1" "")).2 = none ∧
    (NewMemoryStore.create
        (.CreatePaymentSubmission "p1" (newSubmission "" "accepted"))).2.list
        (.ListPaymentSubmissions "p1") = [] := by
  decide

/-- C5, amended. List completeness for records with a non-empty identifier: in
every store, a record stored under a key that starts with the prefix of a List
call and is longer than it is returned by that call (every stored record, for
ListPayments and ListSubscriptions); in particular, after a Create call that
passes a record with a non-empty identifier succeeds, the List call of its
parent returns that record; and ListPayments has one entry per stored key. -/
theorem list_complete_nonempty_id (m : MemoryStore) :
    (∀ (l : ListCall) (k : String) (v : Value), m.lookup l.kind k = some v →
      (∀ p, l.pfx = some p → p.data <+: k.data ∧ p.length < k.length) → v ∈ m.list l) ∧
    (∀ (c : CreateCall) (l : ListCall), c.listCall = some l → m.lookup c.kind c.key = none →
      (c.parents = [] ∨ c.id ≠ "") →
      (m.create c).1 = none ∧ c.value ∈ (m.create c).2.list l) ∧
    m.ListPayments.length = m.payments.entries.length := by
  refine ⟨?_, ?_, ?_⟩
  · intro l k v hk hp
    rw [mem_list_iff]
    refine ⟨k, hk, ?_⟩
    unfold ListCall.selects
    cases hq : l.pfx with
    | none => rfl
    | some p => exact (keyUnder_iff k p).2 (hp p hq)
  · intro c l hl habsent hid
    refine ⟨by simp [create_err, habsent], ?_⟩
    rw [mem_list_iff]
    refine ⟨c.key, ?_, ?_⟩
    · rw [listCall_kind c l hl, lookup_create_of_absent m c habsent]
      simp
    · unfold ListCall.selects
      cases hq : l.pfx with
      | none => rfl
      | some p =>
        have hne : c.id ≠ "" := by
          rcases hid with h0 | h1
          · exfalso
            cases c <;> simp only [CreateCall.listCall, Option.some.injEq, reduceCtorEq] at hl <;>
              subst hl <;> simp [ListCall.pfx] at hq <;> simp [CreateCall.parents] at h0
          · exact h1
        show keyUnder c.key p = true
        rw [create_key_eq c l p hl hq]
        exact keyUnder_append p c.id hne
  · simp [MemoryStore.ListPayments, collect_eq_filter]

/-- The amended C5 on the step of `TestPaymentSubmissionCRUD`: after
CreatePaymentSubmission("p1", s1) on the empty store, ListPaymentSubmissions("p1")
contains `s1`. -/
theorem list_complete_nonempty_id_witness :
    (NewMemoryStore.create (.CreatePaymentSubmission "p1" (newSubmission "s1" "accepted"))).1
      = none ∧
    Value.paymentSubmissions (newSubmission "s1" "accepted") ∈
      (NewMemoryStore.create
        (.CreatePaymentSubmission "p1" (newSubmission "s1" "accepted"))).2.list
        (.ListPaymentSubmissions "p1") :=
  (list_complete_nonempty_id NewMemoryStore).2.1
    (.CreatePaymentSubmission "p1" (newSubmission "s1" "accepted"))
    (.ListPaymentSubmissions "p1") rfl (by decide) (Or.inr (by decide))

theorem written_mono {log log2 : List (WriteCall × Option Error)} {kd : Kind} {k : String}
    {v : Value} (hsub : ∀ x ∈ log, x ∈ log2) (h : Written log kd k v) : Written log2 kd k v := by
  obtain ⟨⟨w, hw, h1⟩, ⟨c, hc, h2⟩⟩ := h
  exact ⟨⟨w, hsub _ hw, h1⟩, ⟨c, hsub _ hc, h2⟩⟩

/-- One write call keeps the provenance of every stored record. -/
theorem written_step (m : MemoryStore) (w : WriteCall) (pre : List (WriteCall × Option Error))
    (hinv : ∀ kd k v, m.lookup kd k = some v → Written pre kd k v) :
    ∀ kd k v, (m.write w).2.lookup kd k = some v →
      Written (pre ++ [(w, (m.write w).1)]) kd k v := by
  intro kd k v hv
  have hsub : ∀ x ∈ pre, x ∈ pre ++ [(w, (m.write w).1)] :=
    fun x hx => List.mem_append_left _ hx
  have hlast : (w, (m.write w).1) ∈ pre ++ [(w, (m.write w).1)] :=
    List.mem_append_right _ (List.mem_singleton_self _)
  cases w with
  | create c =>
    simp only [MemoryStore.write] at hv hlast ⊢
    cases hpres : m.lookup c.kind c.key with
    | some v0 =>
      have hs : (m.create c).2 = m := create_store_of_present m c (by rw [hpres]; rfl)
      rw [hs] at hv
      exact written_mono hsub (hinv kd k v hv)
    | none =>
      rw [lookup_create_of_absent m c hpres] at hv
      have he : (m.create c).1 = none := by simp [create_err, hpres]
      rw [he] at hlast
      by_cases hk : kd = c.kind ∧ k = c.key
      · rw [if_pos hk] at hv
        have hval : c.value = v := Option.some.inj hv
        rw [he]
        exact ⟨⟨.create c, hlast, hk.1.symm, hk.2.symm, hval⟩,
          ⟨c, hlast, hk.1.symm, hk.2.symm⟩⟩
      · rw [if_neg hk] at hv
        exact written_mono hsub (hinv kd k v hv)
  | update u =>
    simp only [MemoryStore.write] at hv hlast ⊢
    cases hpres : m.lookup u.kind u.key with
    | none =>
      have hs : (m.update u).2 = m := update_store_of_absent m u hpres
      rw [hs] at hv
      exact written_mono hsub (hinv kd k v hv)
    | some v0 =>
      have hp : (m.lookup u.kind u.key).isSome = true := by rw [hpres]; rfl
      rw [lookup_update_of_present m u hp] at hv
      have he : (m.update u).1 = none := by simp [update_err, hp]
      rw [he] at hlast
      by_cases hk : kd = u.kind ∧ k = u.key
      · rw [if_pos hk] at hv
        have hval : u.value = v := Option.some.inj hv
        have hold : Written (pre ++ [(WriteCall.update u, none)]) u.kind u.key v0 :=
          written_mono (fun x hx => List.mem_append_left _ hx) (hinv u.kind u.key v0 hpres)
        rw [he]
        refine ⟨⟨.update u, hlast, hk.1.symm, hk.2.symm, hval⟩, ?_⟩
        obtain ⟨c, hc, hc1, hc2⟩ := hold.2
        exact ⟨c, hc, by rw [hc1, hk.1], by rw [hc2, hk.2]⟩
      · rw [if_neg hk] at hv
        exact written_mono hsub (hinv kd k v hv)

/-- Every record a run of write calls leaves in the store was passed by a
successful call of the run, under a key that a successful Create of the run
created. -/
theorem written_run (ws : List WriteCall) (m : MemoryStore)
    (pre : List (WriteCall × Option Error))
    (hinv : ∀ kd k v, m.lookup kd k = some v → Written pre kd k v) :
    ∀ kd k v, (runWrites m ws).2.lookup kd k = some v →
      Written (pre ++ (runWrites m ws).1) kd k v := by
  induction ws generalizing m pre with
  | nil =>
    intro kd k v hv
    simpa [runWrites] using hinv kd k v hv
  | cons w ws ih =>
    intro kd k v hv
    have h := ih (m.write w).2 (pre ++ [(w, (m.write w).1)]) (written_step m w pre hinv) kd k v hv
    simpa [runWrites, List.append_assoc] using h

theorem lookup_new (kd : Kind) (k : String) : NewMemoryStore.lookup kd k = none := by
  cases kd <;> rfl

theorem joinParents_colon (ps qs : List String) (x y : List Char)
    (hps : ∀ a ∈ ps, ':' ∉ a.data) (hqs : ∀ a ∈ qs, ':' ∉ a.data)
    (hlen : ps.length = qs.length)
    (h : joinParents ps ++ x = joinParents qs ++ y) : ps = qs := by
  induction ps generalizing qs with
  | nil =>
    cases qs with
    | nil => rfl
    | cons b bs => simp at hlen
  | cons a as ih =>
    cases qs with
    | nil => simp at hlen
    | cons b bs =>
      simp only [joinParents, List.append_assoc, List.cons_append] at h
      have h1 := split_at_first_colon _ _ _ _ (hps a (List.mem_cons_self _ _))
        (hqs b (List.mem_cons_self _ _)) h
      have h2 := ih bs (fun c hc => hps c (List.mem_cons_of_mem _ hc))
        (fun c hc => hqs c (List.mem_cons_of_mem _ hc))
        (by simpa using hlen) h1.2
      rw [String.ext h1.1, h2]

theorem write_key_data (w : WriteCall) : w.key.data = joinParents w.parents ++ w.id.data := by
  cases w with
  | create c =>
    cases c <;>
      simp [WriteCall.key, WriteCall.parents, WriteCall.id, CreateCall.key, CreateCall.parents,
        CreateCall.id, joinParents, key2, key3, key4, String.data_append]
  | update u =>
    cases u <;>
      simp [WriteCall.key, WriteCall.parents, WriteCall.id, UpdateCall.key, UpdateCall.parents,
        UpdateCall.id, joinParents, key2, key3, key4, String.data_append]

theorem list_pfx_data (l : ListCall) (p : String) (hp : l.pfx = some p) :
    p.data = joinParents l.parents := by
  cases l <;> simp only [ListCall.pfx, Option.some.injEq, reduceCtorEq] at hp <;> subst hp <;>
    simp [ListCall.parents, joinParents, key2, key3, String.data_append]

theorem list_parents_of_no_pfx (l : ListCall) (hp : l.pfx = none) : l.parents = [] := by
  cases l <;> simp only [ListCall.pfx, reduceCtorEq] at hp <;> rfl

theorem parents_length_of_kind (w : WriteCall) (l : ListCall) (hk : w.kind = l.kind) :
    w.parents.length = l.parents.length := by
  cases w with
  | create c =>
    cases c <;> cases l <;>
      simp only [WriteCall.kind, CreateCall.kind, ListCall.kind, reduceCtorEq] at hk <;> rfl
  | update u =>
    cases u <;> cases l <;>
      simp only [WriteCall.kind, UpdateCall.kind, ListCall.kind, reduceCtorEq] at hk <;> rfl

/-- With ancestor identifiers free of ':', a List call selects the key of a write
call of its kind only when the two name the same ancestors. -/
theorem parents_eq_of_selects (w : WriteCall) (l : ListCall) (hk : w.kind = l.kind)
    (hw : ∀ a ∈ w.parents, ':' ∉ a.data) (hl : ∀ a ∈ l.parents, ':' ∉ a.data)
    (hsel : l.selects w.key = true) : w.parents = l.parents := by
  have hlen := parents_length_of_kind w l hk
  cases hp : l.pfx with
  | none =>
    have h0 := list_parents_of_no_pfx l hp
    rw [h0] at hlen ⊢
    exact List.length_eq_zero.mp hlen
  | some p =>
    simp only [ListCall.selects, hp] at hsel
    obtain ⟨⟨t, ht⟩, _⟩ := (keyUnder_iff _ _).1 hsel
    rw [list_pfx_data l p hp, write_key_data w] at ht
    exact (joinParents_colon l.parents w.parents t w.id.data hl hw hlen.symm ht).symm

/-- The counterexample to C6: the only call made is CreatePaymentSubmission under
payment "a:b" (it returns nil), and ListPaymentSubmissions("a") returns the
record it created, although "a" is a different parent. -/
theorem list_returns_record_of_other_parent :
    (runWrites NewMemoryStore
      [.create (.CreatePaymentSubmission "a:b" (newSubmission "c" "accepted"))]).1.map Prod.snd
      = [none] ∧
    (runWrites NewMemoryStore
      [.create (.CreatePaymentSubmission "a:b" (newSubmission "c" "accepted"))]).2.list
      (.ListPaymentSubmissions "a") = [.paymentSubmissions (newSubmission "c" "accepted")] ∧
    "a" ≠ "a:b" := by
  decide

/-- C6, amended. List soundness with respect to the parent, for ancestor
identifiers without ':': in the store reached from the empty store by any
sequence of Create and Update calls whose ancestor identifiers contain no ':',
every record returned by a List call whose ancestor identifiers contain no ':'
was passed by a call of the sequence that returned nil, of the kind of the list
and under exactly the ancestors the List call names, and the key that holds it
was created by a Create call of the sequence that returned nil under exactly
those ancestors. -/
theorem list_sound_without_separator (ws : List WriteCall) (l : ListCall) (v : Value)
    (hws : ∀ w ∈ ws, ∀ a ∈ w.parents, ':' ∉ a.data)
    (hl : ∀ a ∈ l.parents, ':' ∉ a.data)
    (hv : v ∈ (runWrites NewMemoryStore ws).2.list l) :
    (∃ w, (w, none) ∈ (runWrites NewMemoryStore ws).1 ∧ w.kind = l.kind ∧
      w.parents = l.parents ∧ w.value = v) ∧
    (∃ c, (WriteCall.create c, none) ∈ (runWrites NewMemoryStore ws).1 ∧ c.kind = l.kind ∧
      c.parents = l.parents ∧ (runWrites NewMemoryStore ws).2.lookup c.kind c.key = some v) := by
  obtain ⟨k, hk, hsel⟩ := (mem_list_iff _ l v).1 hv
  have hlog : ∀ (ws2 : List WriteCall) (m : MemoryStore) (x : WriteCall × Option Error),
      x ∈ (runWrites m ws2).1 → x.1 ∈ ws2 := by
    intro ws2
    induction ws2 with
    | nil => intro m x hx; simp [runWrites] at hx
    | cons w ws3 ih =>
      intro m x hx
      simp only [runWrites, List.mem_cons] at hx
      rcases hx with rfl | hx
      · exact List.mem_cons_self _ _
      · exact List.mem_cons_of_mem _ (ih _ x hx)
  have hwr := written_run ws NewMemoryStore []
    (fun kd k v h => by rw [lookup_new] at h; cases h) l.kind k v hk
  simp only [List.nil_append] at hwr
  obtain ⟨⟨w, hwin, hwk, hwkey, hwv⟩, ⟨c, hcin, hck, hckey⟩⟩ := hwr
  refine ⟨⟨w, hwin, hwk, ?_, hwv⟩, ⟨c, hcin, hck, ?_, ?_⟩⟩
  · exact parents_eq_of_selects w l hwk (hws w (hlog ws _ _ hwin)) hl (by rw [hwkey]; exact hsel)
  · exact parents_eq_of_selects (.create c) l hck (hws _ (hlog ws _ _ hcin)) hl
      (by show l.selects c.key = true; rw [hckey]; exact hsel)
  · rw [hck, hckey]; exact hk

/-- The amended C6 on `TestNestedResourceKeys`: after CreateReturnSubmission
("p1", "r1", rs1) the one element of ListReturnSubmissions("p1", "r1") was
created under ("p1", "r1"). -/
theorem list_sound_without_separator_witness :
    (∃ w, (w, none) ∈ (runWrites NewMemoryStore
        [.create (.CreateReturnSubmission "p1" "r1"
          { (default : ReturnSubmission) with ID := "rs1" })]).1 ∧
      w.kind = (ListCall.ListReturnSubmissions "p1" "r1").kind ∧
      w.parents = (ListCall.ListReturnSubmissions "p1" "r1").parents ∧
      w.value = .returnSubmissions { (default : ReturnSubmission) with ID := "rs1" }) ∧
    (∃ c, (WriteCall.create c, none) ∈ (runWrites NewMemoryStore
        [.create (.CreateReturnSubmission "p1" "r1"
          { (default : ReturnSubmission) with ID := "rs1" })]).1 ∧
      c.kind = (ListCall.ListReturnSubmissions "p1" "r1").kind ∧
      c.parents = (ListCall.ListReturnSubmissions "p1" "r1").parents ∧
      (runWrites NewMemoryStore
        [.create (.CreateReturnSubmission "p1" "r1"
          { (default : ReturnSubmission) with ID := "rs1" })]).2.lookup c.kind c.key
        = some (.returnSubmissions { (default : ReturnSubmission) with ID := "rs1" })) :=
  list_sound_without_separator
    [.create (.CreateReturnSubmission "p1" "r1" { (default : ReturnSubmission) with ID := "rs1" })]
    (.ListReturnSubmissions "p1" "r1")
    (.returnSubmissions { (default : ReturnSubmission) with ID := "rs1" })
    (by decide) (by decide) (by decide)

/-! ## Notification wiring -/

/-- C10, the code at the failing input. With the wiring of `main`, an active
subscription for ("payment_submissions", "updated") and the chain of submission
`s1` run to completion: the submission reaches "delivery_confirmed" and seven
events are queued, but the event type of each is the new status, not "updated";
the workers then make no outbound call at all (the claim says seven), although a
("payment_submissions", "s1", "updated") event would be posted to the callback
address. -/
theorem wiring_forwards_status_as_event_type :
    (notifyScenarioRun.store.GetPaymentSubmission "p1" "s1").1.Attributes.Status
      = "delivery_confirmed" ∧
    notifyScenarioRun.dispatcher.ch.map (fun n => (n.resourceType, n.resourceID, n.eventType))
      = [("payment_submissions", "s1", "validation_pending"),
         ("payment_submissions", "s1", "limit_check_pending"),
         ("payment_submissions", "s1", "limit_check_passed"),
         ("payment_submissions", "s1", "released_to_gateway"),
         ("payment_submissions", "s1", "queued_for_delivery"),
         ("payment_submissions", "s1", "submitted"),
         ("payment_submissions", "s1", "delivery_confirmed")] ∧
    (World.drain (fun _ => true) (fun _ => "id") 7 notifyScenarioRun).dispatcher.ch = [] ∧
    (World.drain (fun _ => true) (fun _ => "id") 7 notifyScenarioRun).posts = [] ∧
    (deliver notifyScenarioRun.store (fun _ => true) "id" 0
        { resourceType := "payment_submissions", resourceID := "s1",
          eventType := EventUpdated }).map (fun p => p.uri) = ["http://example.com/hook"] := by
  decide

/-! ## The transition driver -/

theorem steps_cons_fail {W : Type} (e : Engine W) (sleep : Int → W → W) (rt rid : String)
    (u : StatusUpdater W) (s : String) (rest : List String) (w : W) (err : Error)
    (h : (u s (sleep e.stepDelay w)).1 = some err) :
    e.steps sleep rt rid u (s :: rest) w = (u s (sleep e.stepDelay w)).2 := by
  unfold Engine.steps
  generalize u s (sleep e.stepDelay w) = r at h ⊢
  obtain ⟨a, b⟩ := r
  simp only at h
  subst h
  rfl

theorem steps_cons_ok_none {W : Type} (e : Engine W) (sleep : Int → W → W) (rt rid : String)
    (u : StatusUpdater W) (s : String) (rest : List String) (w : W)
    (h : (u s (sleep e.stepDelay w)).1 = none) (hc : e.onChange = none) :
    e.steps sleep rt rid u (s :: rest) w
      = e.steps sleep rt rid u rest (u s (sleep e.stepDelay w)).2 := by
  conv => lhs; unfold Engine.steps
  generalize u s (sleep e.stepDelay w) = r at h ⊢
  obtain ⟨a, b⟩ := r
  simp only at h
  subst h
  simp only [hc]

theorem steps_cons_ok_some {W : Type} (e : Engine W) (sleep : Int → W → W) (rt rid : String)
    (u : StatusUpdater W) (s : String) (rest : List String) (w : W)
    (f : StatusChangeCallback W)
    (h : (u s (sleep e.stepDelay w)).1 = none) (hc : e.onChange = some f) :
    e.steps sleep rt rid u (s :: rest) w
      = e.steps sleep rt rid u rest (f rt rid s (u s (sleep e.stepDelay w)).2) := by
  conv => lhs; unfold Engine.steps
  generalize u s (sleep e.stepDelay w) = r at h ⊢
  obtain ⟨a, b⟩ := r
  simp only at h
  subst h
  simp only [hc]

/-- The logged run goes through the same states as the run itself. -/
theorem traced_steps_state {S : Type} (e : Engine S) (sleep : Int → S → S)
    (rt rid : String) (u : StatusUpdater S) (ss : List String) (w : S) (tr : List Call) :
    (e.traced.steps (tracedSleep sleep) rt rid (tracedUpdater u) ss (w, tr)).1
      = e.steps sleep rt rid u ss w := by
  induction ss generalizing w tr with
  | nil => rfl
  | cons s rest ih =>
    cases hu : (u s (sleep e.stepDelay w)).1 with
    | some err =>
      rw [steps_cons_fail e sleep rt rid u s rest w err hu,
        steps_cons_fail e.traced (tracedSleep sleep) rt rid (tracedUpdater u) s rest (w, tr) err
          (by simpa [tracedUpdater, tracedSleep, Engine.traced] using hu)]
      rfl
    | none =>
      cases hc : e.onChange with
      | none =>
        rw [steps_cons_ok_none e sleep rt rid u s rest w hu hc,
          steps_cons_ok_none e.traced (tracedSleep sleep) rt rid (tracedUpdater u) s rest (w, tr)
            (by simpa [tracedUpdater, tracedSleep, Engine.traced] using hu)
            (by simp [Engine.traced, hc])]
        exact ih _ _
      | some f =>
        rw [steps_cons_ok_some e sleep rt rid u s rest w f hu hc,
          steps_cons_ok_some e.traced (tracedSleep sleep) rt rid (tracedUpdater u) s rest (w, tr)
            (tracedOnChange f)
            (by simpa [tracedUpdater, tracedSleep, Engine.traced] using hu)
            (by simp [Engine.traced, hc])]
        exact ih _ _

/-- The log of the steps through a list of statuses: the calls of the successful
steps through all of them, or, when an updater call fails, the calls of the
successful steps before it, the sleep, and the failed call as the last entry. -/
theorem traced_steps_log {S : Type} (e : Engine S) (sleep : Int → S → S)
    (rt rid : String) (u : StatusUpdater S) (ss : List String) (w : S) (tr : List Call) :
    (e.traced.steps (tracedSleep sleep) rt rid (tracedUpdater u) ss (w, tr)).2
        = tr ++ successCalls e.stepDelay e.onChange.isSome rt rid ss ∨
    ∃ pre s err post, ss = pre ++ s :: post ∧
      (e.traced.steps (tracedSleep sleep) rt rid (tracedUpdater u) ss (w, tr)).2
        = tr ++ successCalls e.stepDelay e.onChange.isSome rt rid pre ++
            [Call.sleep e.stepDelay, Call.updater s (some err)] := by
  induction ss generalizing w tr with
  | nil => left; simp [Engine.steps, successCalls]
  | cons s rest ih =>
    cases hu : (u s (sleep e.stepDelay w)).1 with
    | some err =>
      right
      refine ⟨[], s, err, rest, rfl, ?_⟩
      rw [steps_cons_fail e.traced (tracedSleep sleep) rt rid (tracedUpdater u) s rest (w, tr) err
          (by simpa [tracedUpdater, tracedSleep, Engine.traced] using hu)]
      simp [tracedUpdater, tracedSleep, Engine.traced, hu, successCalls]
    | none =>
      cases hc : e.onChange with
      | none =>
        rw [steps_cons_ok_none e.traced (tracedSleep sleep) rt rid (tracedUpdater u) s rest (w, tr)
            (by simpa [tracedUpdater, tracedSleep, Engine.traced] using hu)
            (by simp [Engine.traced, hc])]
        rcases ih ((tracedUpdater u s (tracedSleep sleep e.traced.stepDelay (w, tr))).2).1
            ((tracedUpdater u s (tracedSleep sleep e.traced.stepDelay (w, tr))).2).2 with h | h
        · left
          rw [h]; simp [successCalls, tracedUpdater, tracedSleep, Engine.traced, hu, hc]
        · right
          obtain ⟨pre, s2, err, post, hss, h⟩ := h
          refine ⟨s :: pre, s2, err, post, by rw [hss]; rfl, ?_⟩
          rw [h]; simp [successCalls, tracedUpdater, tracedSleep, Engine.traced, hu, hc]
      | some f =>
        rw [steps_cons_ok_some e.traced (tracedSleep sleep) rt rid (tracedUpdater u) s rest (w, tr)
            (tracedOnChange f)
            (by simpa [tracedUpdater, tracedSleep, Engine.traced] using hu)
            (by simp [Engine.traced, hc])]
        rcases ih
            ((tracedOnChange f rt rid s
              (tracedUpdater u s (tracedSleep sleep e.traced.stepDelay (w, tr))).2).1)
            ((tracedOnChange f rt rid s
              (tracedUpdater u s (tracedSleep sleep e.traced.stepDelay (w, tr))).2).2) with h | h
        · left
          rw [h]
          simp [successCalls, tracedUpdater, tracedSleep, tracedOnChange, Engine.traced, hu, hc]
        · right
          obtain ⟨pre, s2, err, post, hss, h⟩ := h
          refine ⟨s :: pre, s2, err, post, by rw [hss]; rfl, ?_⟩
          rw [h]
          simp [successCalls, tracedUpdater, tracedSleep, tracedOnChange, Engine.traced, hu, hc]

theorem no_failure_in_successCalls (d : Int) (cb : Bool) (rt rid : String) (ss : List String)
    (s : String) (err : Error) : Call.updater s (some err) ∉ successCalls d cb rt rid ss := by
  induction ss with
  | nil => simp [successCalls]
  | cons x rest ih =>
    cases cb <;> simp [successCalls, ih]

theorem traced_steps_ok {S : Type} (e : Engine S) (sleep : Int → S → S)
    (rt rid : String) (u : StatusUpdater S) (hok : ∀ s w, (u s w).1 = none)
    (ss : List String) (w : S) (tr : List Call) :
    (e.traced.steps (tracedSleep sleep) rt rid (tracedUpdater u) ss (w, tr)).2
      = tr ++ successCalls e.stepDelay e.onChange.isSome rt rid ss := by
  induction ss generalizing w tr with
  | nil => simp [Engine.steps, successCalls]
  | cons s rest ih =>
    have hu := hok s (sleep e.stepDelay w)
    cases hc : e.onChange with
    | none =>
      rw [steps_cons_ok_none e.traced (tracedSleep sleep) rt rid (tracedUpdater u) s rest (w, tr)
          (by simpa [tracedUpdater, tracedSleep, Engine.traced] using hu)
          (by simp [Engine.traced, hc])]
      rw [show (tracedUpdater u s (tracedSleep sleep e.traced.stepDelay (w, tr))).2
          = ((u s (sleep e.stepDelay w)).2,
              tr ++ [Call.sleep e.stepDelay] ++ [Call.updater s none]) from by
        simp [tracedUpdater, tracedSleep, Engine.traced, hu]]
      rw [ih]
      simp [successCalls, hc]
    | some f =>
      rw [steps_cons_ok_some e.traced (tracedSleep sleep) rt rid (tracedUpdater u) s rest (w, tr)
          (tracedOnChange f)
          (by simpa [tracedUpdater, tracedSleep, Engine.traced] using hu)
          (by simp [Engine.traced, hc])]
      rw [show tracedOnChange f rt rid s
            (tracedUpdater u s (tracedSleep sleep e.traced.stepDelay (w, tr))).2
          = (f rt rid s (u s (sleep e.stepDelay w)).2,
              tr ++ [Call.sleep e.stepDelay] ++ [Call.updater s none]
                ++ [Call.onChange rt rid s]) from by
        simp [tracedUpdater, tracedSleep, tracedOnChange, Engine.traced, hu]]
      rw [ih]
      simp [successCalls, hc]

/-- C11. Transition trace on success: for every engine, chain (of any length,
0 and 1 included) and updater that never fails, the goroutine started by
StartTransition makes exactly these calls, in this order, and then stops: for
each of chain[1], ..., chain[n-1] in turn a sleep of the step delay, the
updater on that status, and then `onChange(type, id, status)` (when the engine
has a callback; with a nil callback the step has no third call). chain[0] is
never passed on, and a chain of length 0 or 1 makes no call at all. The logged
run ends in the same state as the run itself. -/
theorem transition_trace_on_success {S : Type} (e : Engine S) (sleep : Int → S → S)
    (resourceType resourceID : String) (chain : StatusChain) (updater : StatusUpdater S) (w : S)
    (hok : ∀ s w2, (updater s w2).1 = none) :
    transitionTrace e sleep resourceType resourceID chain updater w
      = successCalls e.stepDelay e.onChange.isSome resourceType resourceID (chain.drop 1) ∧
    (chain.length ≤ 1 →
      transitionTrace e sleep resourceType resourceID chain updater w = []) ∧
    (e.traced.StartTransition (tracedSleep sleep) resourceType resourceID chain
        (tracedUpdater updater) (w, [])).1
      = e.StartTransition sleep resourceType resourceID chain updater w := by
  have h1 : transitionTrace e sleep resourceType resourceID chain updater w
      = successCalls e.stepDelay e.onChange.isSome resourceType resourceID (chain.drop 1) := by
    unfold transitionTrace Engine.StartTransition
    rw [traced_steps_ok e sleep resourceType resourceID updater hok]
    simp
  refine ⟨h1, ?_, ?_⟩
  · intro hlen
    rw [h1]
    have hd : chain.drop 1 = [] := by
      cases chain with
      | nil => rfl
      | cons a t =>
        cases t with
        | nil => rfl
        | cons b t2 => simp at hlen
    rw [hd]; rfl
  · unfold Engine.StartTransition
    exact traced_steps_state e sleep resourceType resourceID updater _ w []

/-- The calls of a three-status chain with a callback: two steps, each a sleep,
the update and the callback. -/
theorem transition_trace_on_success_witness :
    transitionTrace (NewEngine 10 (some (fun _ _ _ (n : Nat) => n))) (fun _ n => n)
        "payment_submissions" "s1" ["a", "b", "c"] (fun _ n => (none, n + 1)) 0
      = [Call.sleep 10000000, Call.updater "b" none,
         Call.onChange "payment_submissions" "s1" "b",
         Call.sleep 10000000, Call.updater "c" none,
         Call.onChange "payment_submissions" "s1" "c"] :=
  (transition_trace_on_success (NewEngine 10 (some (fun _ _ _ (n : Nat) => n))) (fun _ n => n)
    "payment_submissions" "s1" ["a", "b", "c"] (fun _ n => (none, n + 1)) 0
    (fun _ _ => rfl)).1

/-- C12. Transition abandonment: for every engine, chain and updater, when an
updater call of the run fails, on status `s` with error `err`, then that call
is the last call of the run: the statuses after chain[0] split into those
before `s`, `s` itself and the rest, and the calls made are exactly the calls
of the successful steps through the statuses before `s`, then the sleep and the
failed updater call. No updater call and no `onChange` call follows it, for
`s` or for any later status. -/
theorem transition_abandons_at_first_failure {S : Type} (e : Engine S) (sleep : Int → S → S)
    (resourceType resourceID : String) (chain : StatusChain) (updater : StatusUpdater S) (w : S)
    (s : String) (err : Error)
    (hfail : Call.updater s (some err) ∈
      transitionTrace e sleep resourceType resourceID chain updater w) :
    ∃ pre post, chain.drop 1 = pre ++ s :: post ∧
      transitionTrace e sleep resourceType resourceID chain updater w
        = successCalls e.stepDelay e.onChange.isSome resourceType resourceID pre ++
            [Call.sleep e.stepDelay, Call.updater s (some err)] := by
  unfold transitionTrace Engine.StartTransition at hfail ⊢
  rcases traced_steps_log e sleep resourceType resourceID updater (chain.drop 1) w []
    with h | ⟨pre, s2, err2, post, hss, h⟩
  · rw [h] at hfail
    simp only [List.nil_append] at hfail
    exact absurd hfail (no_failure_in_successCalls _ _ _ _ _ _ _)
  · rw [h] at hfail ⊢
    simp only [List.nil_append, List.mem_append, List.mem_cons, List.mem_singleton,
      reduceCtorEq, false_or, List.not_mem_nil, or_false] at hfail
    rcases hfail with hfail | hfail
    · exact absurd hfail (no_failure_in_successCalls _ _ _ _ _ _ _)
    · simp only [Call.updater.injEq, Option.some.injEq] at hfail
      obtain ⟨rfl, rfl⟩ := hfail
      exact ⟨pre, post, hss, by simp⟩

/-- A four-status chain whose updater fails on "c": the step to "b" is made in
full, the step to "c" ends the run, "d" is never tried. -/
theorem transition_abandons_at_first_failure_witness :
    ∃ pre post, (["a", "b", "c", "d"] : StatusChain).drop 1 = pre ++ "c" :: post ∧
      transitionTrace (NewEngine 10 (some (fun _ _ _ (n : Nat) => n))) (fun _ n => n)
          "payment_submissions" "s1" ["a", "b", "c", "d"]
          (fun st n => (if st = "c" then some Error.ErrNotFound else none, n + 1)) 0
        = successCalls (NewEngine 10 (some (fun _ _ _ (n : Nat) => n))).stepDelay
            (NewEngine 10 (some (fun _ _ _ (n : Nat) => n))).onChange.isSome
            "payment_submissions" "s1" pre ++
            [Call.sleep (NewEngine 10 (some (fun _ _ _ (n : Nat) => n))).stepDelay,
             Call.updater "c" (some Error.ErrNotFound)] :=
  transition_abandons_at_first_failure (NewEngine 10 (some (fun _ _ _ (n : Nat) => n)))
    (fun _ n => n) "payment_submissions" "s1" ["a", "b", "c", "d"]
    (fun st n => (if st = "c" then some Error.ErrNotFound else none, n + 1)) 0
    "c" Error.ErrNotFound (by decide)

/-! ## The dispatcher queue -/

theorem pool_step_bounded (p : Pool) (a : PoolAction) (h : p.d.ch.length ≤ p.d.bufferSize) :
    (p.step a).d.ch.length ≤ (p.step a).d.bufferSize ∧
      (p.step a).d.bufferSize = p.d.bufferSize := by
  cases a with
  | notify n =>
    by_cases hc : p.d.closed = true
    · simp [Pool.step, Dispatcher.Notify, hc, h]
    · by_cases hlt : p.d.ch.length < p.d.bufferSize
      · simp only [Pool.step, Dispatcher.Notify, hc, hlt, if_true, if_false,
          List.length_append, List.length_singleton, Bool.false_eq_true]
        exact ⟨hlt, trivial⟩
      · simp [Pool.step, Dispatcher.Notify, hc, hlt, h]
  | receive =>
    by_cases hb : p.busy < p.workers
    · cases hch : p.d.ch with
      | nil => simp [Pool.step, hb, hch]
      | cons n rest =>
        rw [hch] at h
        simp only [List.length_cons] at h
        simp only [Pool.step, hb, hch, if_true, and_true]
        omega
    · simp [Pool.step, hb, h]
  | finish =>
    by_cases hb : 0 < p.busy
    · simp [Pool.step, hb, h]
    · simp [Pool.step, hb, h]
  | close => exact ⟨h, rfl⟩

theorem pool_run_bounded (as : List PoolAction) (p : Pool)
    (h : p.d.ch.length ≤ p.d.bufferSize) :
    (p.run as).d.ch.length ≤ (p.run as).d.bufferSize ∧
      (p.run as).d.bufferSize = p.d.bufferSize := by
  induction as generalizing p with
  | nil => exact ⟨h, rfl⟩
  | cons a rest ih =>
    have hs := pool_step_bounded p a h
    have hr := ih (p.step a) hs.1
    exact ⟨hr.1, by rw [← hs.2]; exact hr.2⟩

theorem pool_move_bounded (p : Pool) (m : PoolMove) (h : p.d.ch.length ≤ p.d.bufferSize) :
    (p.move m).d.ch.length ≤ (p.move m).d.bufferSize ∧
      (p.move m).d.bufferSize = p.d.bufferSize := by
  cases m with
  | act a => exact pool_step_bounded p a h
  | notifyParked n =>
    simp only [Pool.move, Pool.NotifyParked]
    split
    · exact ⟨h, rfl⟩
    · exact pool_step_bounded p (.notify n) h

theorem pool_moves_bounded (ms : List PoolMove) (p : Pool)
    (h : p.d.ch.length ≤ p.d.bufferSize) :
    (p.moves ms).d.ch.length ≤ (p.moves ms).d.bufferSize ∧
      (p.moves ms).d.bufferSize = p.d.bufferSize := by
  induction ms generalizing p with
  | nil => exact ⟨h, rfl⟩
  | cons m rest ih =>
    have hs := pool_move_bounded p m h
    have hr := ih (p.move m) hs.1
    exact ⟨hr.1, by rw [← hs.2]; exact hr.2⟩

/-- C16, counterexample. A dispatcher of capacity 0 (an unbuffered channel) with
one worker, which is parked in the receive: the queue holds as many events as
the capacity, none, and yet Notify does not drop the event: the send goes
through, the event is in the hands of the worker, whose delivery of it has
begun, and the queue is as it was. And on a dispatcher of capacity 1 on which
Close has been called, Notify does not return to its caller: the send panics. -/
theorem notify_at_capacity_zero_hands_over :
    (NewPool 0 1).d.ch.length = (NewPool 0 1).d.bufferSize ∧
    ((NewPool 0 1).NotifyParked ⟨"payment_submissions", "s1", "submitted"⟩).1
      = NotifyOutcome.sent ∧
    ((NewPool 0 1).NotifyParked ⟨"payment_submissions", "s1", "submitted"⟩).2.attempted
      = [⟨"payment_submissions", "s1", "submitted"⟩] ∧
    ((NewPool 0 1).NotifyParked ⟨"payment_submissions", "s1", "submitted"⟩).2.d.ch = [] ∧
    ((NewDispatcher 1).Close.Notify "payment_submissions" "s1" "submitted").1
      = NotifyOutcome.panicked := by
  decide

/-- C16, amended. On a dispatcher that has not been closed, with a queue of any
capacity and any pool of workers. At a moment when no worker is parked in the
receive, Notify on a queue holding fewer events than the capacity appends the
event at the tail, and on a queue holding as many events as the capacity (with
capacity 0, always) it leaves the dispatcher as it is: the event is dropped. At
a moment when an idle worker is parked in the receive, which is only at an empty
queue, Notify hands the event to that worker whatever the capacity: the queue is
as it was and the delivery of the event has begun. With a capacity of at least 1
the hand-over is what appending the event followed at once by the receive of
that worker gives, so there the queue is the FIFO of that capacity. In every
case the call returns at once, sent or dropped, and in every state the pool
reaches from `NewDispatcher(s, c, workers)` by Notify calls of either sort,
worker steps and Close the queue holds at most `c` events. -/
theorem notify_bounded_fifo (p : Pool) (resourceType resourceID eventType : String)
    (hopen : p.d.closed = false) :
    p.d.Notify resourceType resourceID eventType =
      (if p.d.ch.length < p.d.bufferSize then
        (NotifyOutcome.sent, { p.d with ch := p.d.ch ++ [⟨resourceType, resourceID, eventType⟩] })
       else (NotifyOutcome.dropped, p.d)) ∧
    (p.busy < p.workers → p.d.ch = [] →
      p.NotifyParked ⟨resourceType, resourceID, eventType⟩ =
        (NotifyOutcome.sent,
         { p with busy := p.busy + 1,
                  attempted := p.attempted ++ [⟨resourceType, resourceID, eventType⟩] })) ∧
    (1 ≤ p.d.bufferSize → p.busy < p.workers → p.d.ch = [] →
      (p.step (.notify ⟨resourceType, resourceID, eventType⟩)).d.ch
        = [⟨resourceType, resourceID, eventType⟩] ∧
      (p.NotifyParked ⟨resourceType, resourceID, eventType⟩).2 =
        (p.step (.notify ⟨resourceType, resourceID, eventType⟩)).step .receive) ∧
    ((p.d.Notify resourceType resourceID eventType).1 = NotifyOutcome.sent ∨
      (p.d.Notify resourceType resourceID eventType).1 = NotifyOutcome.dropped) ∧
    ((p.NotifyParked ⟨resourceType, resourceID, eventType⟩).1 = NotifyOutcome.sent ∨
      (p.NotifyParked ⟨resourceType, resourceID, eventType⟩).1 = NotifyOutcome.dropped) ∧
    (∀ (c workers : Nat) (ms : List PoolMove),
      ((NewPool c workers).moves ms).d.ch.length ≤ c ∧
        ((NewPool c workers).moves ms).d.bufferSize = c) := by
  have hn : p.d.Notify resourceType resourceID eventType =
      (if p.d.ch.length < p.d.bufferSize then
        (NotifyOutcome.sent, { p.d with ch := p.d.ch ++ [⟨resourceType, resourceID, eventType⟩] })
       else (NotifyOutcome.dropped, p.d)) := by
    simp [Dispatcher.Notify, hopen]
  have hn1 : (p.d.Notify resourceType resourceID eventType).1 = NotifyOutcome.sent ∨
      (p.d.Notify resourceType resourceID eventType).1 = NotifyOutcome.dropped := by
    rw [hn]
    split
    · exact Or.inl rfl
    · exact Or.inr rfl
  refine ⟨hn, ?_, ?_, hn1, ?_, ?_⟩
  · intro hidle hempty
    simp [Pool.NotifyParked, hopen, hidle, hempty]
  · intro hcap hidle hempty
    have hlt : p.d.ch.length < p.d.bufferSize := by
      rw [hempty]
      exact hcap
    have hd : { p.d with ch := ([] : List notification) } = p.d := by
      cases hp : p.d with
      | mk ch b c =>
        rw [hp] at hempty
        simp only at hempty
        rw [hempty]
    have hpos : 0 < p.d.bufferSize := hcap
    refine ⟨by simp [Pool.step, Dispatcher.Notify, hopen, hempty, hpos], ?_⟩
    have hd2 : ({ ch := [], bufferSize := p.d.bufferSize, closed := false } : Dispatcher) = p.d := by
      rw [← hopen]
      exact hd
    simp [Pool.NotifyParked, Pool.step, Dispatcher.Notify, hopen, hidle, hempty, hpos, hd2]
  · simp only [Pool.NotifyParked]
    split
    · exact Or.inl rfl
    · exact hn1
  · intro c workers ms
    have h := pool_moves_bounded ms (NewPool c workers) (Nat.zero_le _)
    exact ⟨by rw [h.2] at h; exact h.1, h.2⟩

/-- The amended C16 on a pool of capacity 1 with two workers: on the fresh pool
Notify appends the event, or hands it to a parked worker, which is the same as
appending it followed by the receive; on the pool whose queue holds one event
Notify drops the event. -/
theorem notify_bounded_fifo_witness :
    (NewPool 1 2).d.Notify "payment_submissions" "s1" "submitted" =
      (NotifyOutcome.sent,
       { NewDispatcher 1 with ch := [⟨"payment_submissions", "s1", "submitted"⟩] }) ∧
    ((NewPool 1 2).NotifyParked ⟨"payment_submissions", "s1", "submitted"⟩).2 =
      ((NewPool 1 2).step (.notify ⟨"payment_submissions", "s1", "submitted"⟩)).step .receive ∧
    ((NewPool 1 2).step (.notify ⟨"payment_submissions", "s1", "a"⟩)).d.Notify
        "payment_submissions" "s1" "submitted" =
      (NotifyOutcome.dropped,
       ((NewPool 1 2).step (.notify ⟨"payment_submissions", "s1", "a"⟩)).d) :=
  ⟨(notify_bounded_fifo (NewPool 1 2) "payment_submissions" "s1" "submitted" rfl).1.trans
      (by decide),
   ((notify_bounded_fifo (NewPool 1 2) "payment_submissions" "s1" "submitted" rfl).2.2.1
      (by decide) (by decide) rfl).2,
   (notify_bounded_fifo ((NewPool 1 2).step (.notify ⟨"payment_submissions", "s1", "a"⟩))
      "payment_submissions" "s1" "submitted" rfl).1.trans (by decide)⟩

/-- C17, the code at the failing input. On a dispatcher on which Close has been
called, Notify is a send on a closed channel: the `select` takes the send case
and the send panics, for every event and every queue; the event is not
enqueued. With the wiring of `main`, a transition still running after
`dispatcher.Close()` makes that call from its own goroutine, where nothing
recovers the panic: the process has crashed after its first step. -/
theorem notify_after_close_panics :
    (∀ (d : Dispatcher) (resourceType resourceID eventType : String),
      (d.Close.Notify resourceType resourceID eventType).1 = NotifyOutcome.panicked ∧
      (d.Close.Notify resourceType resourceID eventType).2.ch = d.ch) ∧
    ((mainEngine 500).StartTransition World.sleep ResourceTypePaymentSubmission "s1"
        PaymentSubmissionChain (paymentSubmissionUpdater "p1" "s1")
        { notifyScenario with dispatcher := notifyScenario.dispatcher.Close }).crashed = true := by
  refine ⟨fun d rt rid et => ⟨rfl, rfl⟩, ?_⟩
  decide

theorem pool_step_conserves (p : Pool) (a : PoolAction) (hn : ∀ n, a ≠ PoolAction.notify n) :
    (p.step a).attempted ++ (p.step a).d.ch = p.attempted ++ p.d.ch := by
  cases a with
  | notify n => exact absurd rfl (hn n)
  | receive =>
    simp only [Pool.step]
    split
    · cases hch : p.d.ch with
      | nil => simp [hch]
      | cons n rest => simp
    · rfl
  | finish =>
    simp only [Pool.step]
    split <;> rfl
  | close => rfl

theorem pool_run_conserves (as : List PoolAction) (p : Pool)
    (hn : ∀ a ∈ as, ∀ n, a ≠ PoolAction.notify n) :
    (p.run as).attempted ++ (p.run as).d.ch = p.attempted ++ p.d.ch := by
  induction as generalizing p with
  | nil => rfl
  | cons a rest ih =>
    have h1 := pool_step_conserves p a (hn a (List.mem_cons_self _ _))
    have h2 := ih (p.step a) (fun b hb => hn b (List.mem_cons_of_mem _ hb))
    simp only [Pool.run, List.foldl_cons] at h2 ⊢
    rw [h2, h1]

/-- The counterexample to C18: capacity 1, two workers, deliveries that never
come back. A worker takes the first event between the two Notify calls, so the
second finds room in the queue; both events are sent and both are taken by a
worker, so the delivery of both has begun. -/
theorem both_events_attempted :
    ((NewPool 1 2).run
      [.notify { resourceType := "payment_submissions", resourceID := "s1", eventType := "a" },
       .receive,
       .notify { resourceType := "payment_submissions", resourceID := "s1", eventType := "b" },
       .receive]).attempted
      = [{ resourceType := "payment_submissions", resourceID := "s1", eventType := "a" },
         { resourceType := "payment_submissions", resourceID := "s1", eventType := "b" }] := by
  decide

/-- C18, amended. For an open dispatcher with queue capacity 1, two Notify calls
with no worker step between them: the second call returns at once with the
event dropped, whatever the state before; the queue after the two calls is the
queue before them, with the first event added when it was empty; and in every
continuation by worker and Close steps, for every pool size, the events taken
by a worker together with the events still queued are those of before the two
calls plus at most the first event, so at most one of the two is ever
delivered or attempted. -/
theorem back_to_back_notify_accepts_at_most_one (p : Pool) (e1 e2 : notification)
    (as : List PoolAction) (hcap : p.d.bufferSize = 1) (hopen : p.d.closed = false)
    (hn : ∀ a ∈ as, ∀ n, a ≠ PoolAction.notify n) :
    (((p.step (.notify e1)).d.Notify e2.resourceType e2.resourceID e2.eventType).1
      = NotifyOutcome.dropped) ∧
    ((p.run [.notify e1, .notify e2]).d.ch = (if p.d.ch = [] then [e1] else p.d.ch)) ∧
    (((p.run [.notify e1, .notify e2]).run as).attempted ++
        ((p.run [.notify e1, .notify e2]).run as).d.ch
      = p.attempted ++ (if p.d.ch = [] then [e1] else p.d.ch)) := by
  have h2 : (p.run [.notify e1, .notify e2]).d.ch = (if p.d.ch = [] then [e1] else p.d.ch) ∧
      (p.run [.notify e1, .notify e2]).attempted = p.attempted ∧
      ((p.step (.notify e1)).d.Notify e2.resourceType e2.resourceID e2.eventType).1
        = NotifyOutcome.dropped := by
    cases hch : p.d.ch with
    | nil =>
      simp [Pool.run, Pool.step, Dispatcher.Notify, hopen, hcap, hch]
    | cons x rest =>
      simp [Pool.run, Pool.step, Dispatcher.Notify, hopen, hcap, hch]
  refine ⟨h2.2.2, h2.1, ?_⟩
  rw [pool_run_conserves as _ hn, h2.1, h2.2.1]

/-- The amended C18 from the fresh pool of capacity 1 with two workers: the
second of two back-to-back events is dropped and only the first is ever taken. -/
theorem back_to_back_notify_accepts_at_most_one_witness :
    ((((NewPool 1 2).step (.notify ⟨"payment_submissions", "s1", "a"⟩)).d.Notify
        "payment_submissions" "s1" "b").1 = NotifyOutcome.dropped) ∧
    (((NewPool 1 2).run [.notify ⟨"payment_submissions", "s1", "a"⟩,
        .notify ⟨"payment_submissions", "s1", "b"⟩]).d.ch
      = (if (NewPool 1 2).d.ch = [] then [⟨"payment_submissions", "s1", "a"⟩]
          else (NewPool 1 2).d.ch)) ∧
    ((((NewPool 1 2).run [.notify ⟨"payment_submissions", "s1", "a"⟩,
        .notify ⟨"payment_submissions", "s1", "b"⟩]).run [.receive, .receive]).attempted ++
      (((NewPool 1 2).run [.notify ⟨"payment_submissions", "s1", "a"⟩,
        .notify ⟨"payment_submissions", "s1", "b"⟩]).run [.receive, .receive]).d.ch
      = (NewPool 1 2).attempted ++
        (if (NewPool 1 2).d.ch = [] then [⟨"payment_submissions", "s1", "a"⟩]
          else (NewPool 1 2).d.ch)) :=
  back_to_back_notify_accepts_at_most_one (NewPool 1 2)
    ⟨"payment_submissions", "s1", "a"⟩ ⟨"payment_submissions", "s1", "b"⟩
    [.receive, .receive] rfl rfl (by simp)

/-! ## Delivery -/

theorem attemptLoop_uris (requestOK : String → Bool) (reply : Nat → Reply)
    (payload : Notification) (subs : List Subscription) (i : Nat) :
    (attemptLoop requestOK reply payload i subs).map (fun a => a.uri)
      = subs.map (fun s => s.Attributes.CallbackURI) := by
  induction subs generalizing i with
  | nil => rfl
  | cons sub rest ih =>
    simp only [attemptLoop]
    split
    · simp [ih]
    · split <;> simp [ih]

theorem attemptLoop_payload (requestOK : String → Bool) (reply : Nat → Reply)
    (payload : Notification) (subs : List Subscription) (i : Nat) :
    ∀ a ∈ attemptLoop requestOK reply payload i subs, a.payload = payload := by
  induction subs generalizing i with
  | nil => simp [attemptLoop]
  | cons sub rest ih =>
    intro a ha
    simp only [attemptLoop] at ha
    split at ha
    · rcases List.mem_cons.1 ha with rfl | h
      · rfl
      · exact ih _ a h
    · split at ha <;>
        (rcases List.mem_cons.1 ha with rfl | h
         · rfl
         · exact ih _ a h)

theorem attemptLoop_posts (requestOK : String → Bool) (reply : Nat → Reply)
    (payload : Notification) (subs : List Subscription) (i : Nat) :
    (attemptLoop requestOK reply payload i subs).filterMap Attempt.post
      = deliverLoop requestOK payload subs := by
  induction subs generalizing i with
  | nil => rfl
  | cons sub rest ih =>
    simp only [attemptLoop, deliverLoop]
    by_cases hok : requestOK sub.Attributes.CallbackURI = true
    · simp only [hok, Bool.not_true, Bool.false_eq_true, if_false, if_true]
      split <;> simp [Attempt.post, ih]
    · simp only [Bool.not_eq_true] at hok
      simp [hok, Attempt.post, ih]

theorem attemptLoop_logged (requestOK : String → Bool) (reply : Nat → Reply)
    (payload : Notification) (subs : List Subscription) (i : Nat) :
    ∀ a ∈ attemptLoop requestOK reply payload i subs,
      (a.outcome = Outcome.buildError → a.logged = some (LogLine.requestBuildError a.uri)) ∧
      (a.outcome = Outcome.transportError → a.logged = some (LogLine.deliveryError a.uri)) ∧
      (∀ status, a.outcome = Outcome.response status → a.logged = none) := by
  induction subs generalizing i with
  | nil => simp [attemptLoop]
  | cons sub rest ih =>
    intro a ha
    simp only [attemptLoop] at ha
    split at ha
    · rcases List.mem_cons.1 ha with rfl | h
      · simp
      · exact ih _ a h
    · split at ha <;>
        (rcases List.mem_cons.1 ha with rfl | h
         · simp
         · exact ih _ a h)

/-- C19. For every event, store and behaviour of the network: `deliver` goes
through exactly one attempt per subscription returned by
MatchSubscriptions(event.resourceType, event.eventType), in order, each
addressed to the callback URI of its subscription, and through none when no
subscription matches. The list of attempts does not depend on how any of them
ends: the same addresses are tried whichever requests fail to build and whatever
`client.Do` returns. Every attempt carries the one payload of the event, whose
record_type, event_type and resource_id are the three fields of the event. The
outbound calls made are those of the attempts whose request could be built. -/
theorem deliver_one_attempt_per_subscription (m : MemoryStore) (requestOK : String → Bool)
    (reply : Nat → Reply) (id : String) (now : Time) (n : notification) :
    (deliverAttempts m requestOK reply id now n).map (fun a => a.uri)
      = (m.MatchSubscriptions n.resourceType n.eventType).map
          (fun s => s.Attributes.CallbackURI) ∧
    (m.MatchSubscriptions n.resourceType n.eventType = [] →
      deliverAttempts m requestOK reply id now n = []) ∧
    (∀ a ∈ deliverAttempts m requestOK reply id now n,
      a.payload = deliverPayload id now n ∧
      a.payload.Data.RecordType = n.resourceType ∧ a.payload.Data.EventType = n.eventType ∧
      a.payload.Data.ResourceID = n.resourceID) ∧
    (deliverAttempts m requestOK reply id now n).filterMap Attempt.post
      = deliver m requestOK id now n := by
  refine ⟨?_, ?_, ?_, ?_⟩
  · unfold deliverAttempts
    simp only
    split
    · rename_i h0
      rw [List.length_eq_zero.mp h0]; rfl
    · exact attemptLoop_uris _ _ _ _ _
  · intro h
    simp [deliverAttempts, h]
  · intro a ha
    have hp : a.payload = deliverPayload id now n := by
      unfold deliverAttempts at ha
      simp only at ha
      split at ha
      · simp at ha
      · exact attemptLoop_payload _ _ _ _ _ a ha
    rw [hp]
    exact ⟨rfl, rfl, rfl, rfl⟩
  · unfold deliverAttempts deliver
    simp only
    split
    · rfl
    · exact attemptLoop_posts _ _ _ _ _

/-- The counterexample to C20: with the store of the notification scenario and
an "updated" event, the callback answers 500 Internal Server Error. `deliver`
logs nothing, exactly as when the callback answers 200. -/
theorem non_success_response_not_logged :
    (deliverAttempts notifyScenario.store (fun _ => true) (fun _ => Reply.response 500) "id" 0
        { resourceType := "payment_submissions", resourceID := "s1",
          eventType := EventUpdated }).map (fun a => (a.uri, a.logged))
      = [("http://example.com/hook", none)] ∧
    (deliverAttempts notifyScenario.store (fun _ => true) (fun _ => Reply.response 500) "id" 0
        { resourceType := "payment_submissions", resourceID := "s1",
          eventType := EventUpdated }).map (fun a => a.logged)
      = (deliverAttempts notifyScenario.store (fun _ => true) (fun _ => Reply.response 200) "id" 0
          { resourceType := "payment_submissions", resourceID := "s1",
            eventType := EventUpdated }).map (fun a => a.logged) := by
  decide

/-- C20, amended. A delivery attempt is logged as a failure when its request
cannot be built and when the outbound call returns an error; when the call
returns a response, nothing is logged, whatever the HTTP status, so a response
with a non-success status is treated as a successful delivery is. -/
theorem delivery_logs_errors_only (m : MemoryStore) (requestOK : String → Bool)
    (reply : Nat → Reply) (id : String) (now : Time) (n : notification) :
    ∀ a ∈ deliverAttempts m requestOK reply id now n,
      (a.outcome = Outcome.buildError → a.logged = some (LogLine.requestBuildError a.uri)) ∧
      (a.outcome = Outcome.transportError → a.logged = some (LogLine.deliveryError a.uri)) ∧
      (∀ status, a.outcome = Outcome.response status → a.logged = none) := by
  intro a ha
  unfold deliverAttempts at ha
  simp only at ha
  split at ha
  · simp at ha
  · exact attemptLoop_logged _ _ _ _ _ a ha

/-- The amended C20 on a call that fails: the callback of the notification
scenario cannot be reached, and the attempt is logged as a delivery error. -/
theorem delivery_logs_errors_only_witness :
    (Outcome.transportError = Outcome.buildError →
      some (LogLine.deliveryError "http://example.com/hook")
        = some (LogLine.requestBuildError "http://example.com/hook")) ∧
    (Outcome.transportError = Outcome.transportError →
      some (LogLine.deliveryError "http://example.com/hook")
        = some (LogLine.deliveryError "http://example.com/hook")) ∧
    (∀ status, Outcome.transportError = Outcome.response status →
      some (LogLine.deliveryError "http://example.com/hook") = none) :=
  delivery_logs_errors_only notifyScenario.store (fun _ => true) (fun _ => Reply.netError) "id" 0
    { resourceType := "payment_submissions", resourceID := "s1", eventType := EventUpdated }
    { uri := "http://example.com/hook",
      payload := deliverPayload "id" 0
        { resourceType := "payment_submissions", resourceID := "s1", eventType := EventUpdated },
      outcome := Outcome.transportError,
      logged := some (LogLine.deliveryError "http://example.com/hook") }
    (by decide)

/-! ## The Create handlers of the chained kinds -/

theorem paymentSubmission_create_eq (uuid : String) (fd : Time → String) (paymentID : String)
    (body : Except String PaymentSubmission) (w : World) :
    PaymentSubmissionHandler.Create uuid fd paymentID body w =
      match (w.store.GetPayment paymentID).2 with
      | some .ErrNotFound => ⟨jsonapi.NotFound "payment" paymentID, w, none⟩
      | some _ => ⟨jsonapi.InternalError, w, none⟩
      | none =>
        match body with
        | .error msg => ⟨jsonapi.BadRequest ("invalid JSON: " ++ msg), w, none⟩
        | .ok data =>
          match w.store.CreatePaymentSubmission paymentID (PaymentSubmissionHandler.record uuid fd w.clock data) with
          | (some .ErrConflict, _) => ⟨jsonapi.Conflict "submission already exists", w, none⟩
          | (some _, _) => ⟨jsonapi.InternalError, w, none⟩
          | (none, store2) =>
            ⟨.Created (PaymentSubmissionHandler.record uuid fd w.clock data),
             { w with store := store2 },
             some { resourceType := ResourceTypePaymentSubmission,
                    resourceID := (PaymentSubmissionHandler.record uuid fd w.clock data).ID,
                    chain := PaymentSubmissionChain,
                    updater := paymentSubmissionUpdater paymentID
                      (PaymentSubmissionHandler.record uuid fd w.clock data).ID }⟩ := rfl

/-- What `PaymentSubmissionHandler.Create` has done when it answers 201. -/
theorem paymentSubmission_create_created (uuid : String) (fd : Time → String) (paymentID : String)
    (body : Except String PaymentSubmission) (w : World) (d : PaymentSubmission)
    (h : (PaymentSubmissionHandler.Create uuid fd paymentID body w).response = .Created d) :
    (PaymentSubmissionHandler.Create uuid fd paymentID body w).started
      = some { resourceType := ResourceTypePaymentSubmission, resourceID := d.ID, chain := PaymentSubmissionChain,
               updater := paymentSubmissionUpdater paymentID d.ID } ∧
    (PaymentSubmissionHandler.Create uuid fd paymentID body w).world
      = { w with store := (w.store.CreatePaymentSubmission paymentID d).2 } ∧
    (w.store.CreatePaymentSubmission paymentID d).1 = none ∧
    (w.store.GetPayment paymentID).2 = none ∧
    (∃ data, body = .ok data ∧ d = PaymentSubmissionHandler.record uuid fd w.clock data) := by
  rw [paymentSubmission_create_eq] at h ⊢
  cases hp : (w.store.GetPayment paymentID).2 with
  | some e =>
    rw [hp] at h
    cases e <;> simp [jsonapi.NotFound, jsonapi.InternalError] at h
  | none =>
    rw [hp] at h
    cases body with
    | error msg => simp [jsonapi.BadRequest] at h
    | ok data =>
      simp only at h ⊢
      cases hc : w.store.CreatePaymentSubmission paymentID (PaymentSubmissionHandler.record uuid fd w.clock data) with
      | mk err st =>
        rw [hc] at h
        cases err with
        | some e => cases e <;> simp [jsonapi.Conflict, jsonapi.InternalError] at h
        | none =>
          simp only [Response.Created.injEq] at h
          subst h
          simp [hc]

theorem paymentAdmission_create_eq (uuid : String) (fd : Time → String) (paymentID : String)
    (body : Except String PaymentAdmission) (w : World) :
    PaymentAdmissionHandler.Create uuid fd paymentID body w =
      match (w.store.GetPayment paymentID).2 with
      | some .ErrNotFound => ⟨jsonapi.NotFound "payment" paymentID, w, none⟩
      | some _ => ⟨jsonapi.InternalError, w, none⟩
      | none =>
        match body with
        | .error msg => ⟨jsonapi.BadRequest ("invalid JSON: " ++ msg), w, none⟩
        | .ok data =>
          match w.store.CreatePaymentAdmission paymentID (PaymentAdmissionHandler.record uuid fd w.clock data) with
          | (some .ErrConflict, _) => ⟨jsonapi.Conflict "admission already exists", w, none⟩
          | (some _, _) => ⟨jsonapi.InternalError, w, none⟩
          | (none, store2) =>
            ⟨.Created (PaymentAdmissionHandler.record uuid fd w.clock data),
             { w with store := store2 },
             some { resourceType := ResourceTypePaymentAdmission,
                    resourceID := (PaymentAdmissionHandler.record uuid fd w.clock data).ID,
                    chain := AdmissionChain,
                    updater := paymentAdmissionUpdater paymentID
                      (PaymentAdmissionHandler.record uuid fd w.clock data).ID }⟩ := rfl

/-- What `PaymentAdmissionHandler.Create` has done when it answers 201. -/
theorem paymentAdmission_create_created (uuid : String) (fd : Time → String) (paymentID : String)
    (body : Except String PaymentAdmission) (w : World) (d : PaymentAdmission)
    (h : (PaymentAdmissionHandler.Create uuid fd paymentID body w).response = .Created d) :
    (PaymentAdmissionHandler.Create uuid fd paymentID body w).started
      = some { resourceType := ResourceTypePaymentAdmission, resourceID := d.ID, chain := AdmissionChain,
               updater := paymentAdmissionUpdater paymentID d.ID } ∧
    (PaymentAdmissionHandler.Create uuid fd paymentID body w).world
      = { w with store := (w.store.CreatePaymentAdmission paymentID d).2 } ∧
    (w.store.CreatePaymentAdmission paymentID d).1 = none ∧
    (w.store.GetPayment paymentID).2 = none ∧
    (∃ data, body = .ok data ∧ d = PaymentAdmissionHandler.record uuid fd w.clock data) := by
  rw [paymentAdmission_create_eq] at h ⊢
  cases hp : (w.store.GetPayment paymentID).2 with
  | some e =>
    rw [hp] at h
    cases e <;> simp [jsonapi.NotFound, jsonapi.InternalError] at h
  | none =>
    rw [hp] at h
    cases body with
    | error msg => simp [jsonapi.BadRequest] at h
    | ok data =>
      simp only at h ⊢
      cases hc : w.store.CreatePaymentAdmission paymentID (PaymentAdmissionHandler.record uuid fd w.clock data) with
      | mk err st =>
        rw [hc] at h
        cases err with
        | some e => cases e <;> simp [jsonapi.Conflict, jsonapi.InternalError] at h
        | none =>
          simp only [Response.Created.injEq] at h
          subst h
          simp [hc]

theorem returnSubmission_create_eq (uuid : String) (fd : Time → String) (paymentID returnID : String)
    (body : Except String ReturnSubmission) (w : World) :
    ReturnSubmissionHandler.Create uuid fd paymentID returnID body w =
      match (w.store.GetReturn paymentID returnID).2 with
      | some .ErrNotFound => ⟨jsonapi.NotFound "return_payment" returnID, w, none⟩
      | some _ => ⟨jsonapi.InternalError, w, none⟩
      | none =>
        match body with
        | .error msg => ⟨jsonapi.BadRequest ("invalid JSON: " ++ msg), w, none⟩
        | .ok data =>
          match w.store.CreateReturnSubmission paymentID returnID (ReturnSubmissionHandler.record uuid fd w.clock data) with
          | (some .ErrConflict, _) => ⟨jsonapi.Conflict "return submission already exists", w, none⟩
          | (some _, _) => ⟨jsonapi.InternalError, w, none⟩
          | (none, store2) =>
            ⟨.Created (ReturnSubmissionHandler.record uuid fd w.clock data),
             { w with store := store2 },
             some { resourceType := ResourceTypeReturnSubmission,
                    resourceID := (ReturnSubmissionHandler.record uuid fd w.clock data).ID,
                    chain := SimpleSubmissionChain,
                    updater := returnSubmissionUpdater paymentID returnID
                      (ReturnSubmissionHandler.record uuid fd w.clock data).ID }⟩ := rfl

/-- What `ReturnSubmissionHandler.Create` has done when it answers 201. -/
theorem returnSubmission_create_created (uuid : String) (fd : Time → String) (paymentID returnID : String)
    (body : Except String ReturnSubmission) (w : World) (d : ReturnSubmission)
    (h : (ReturnSubmissionHandler.Create uuid fd paymentID returnID body w).response = .Created d) :
    (ReturnSubmissionHandler.Create uuid fd paymentID returnID body w).started
      = some { resourceType := ResourceTypeReturnSubmission, resourceID := d.ID, chain := SimpleSubmissionChain,
               updater := returnSubmissionUpdater paymentID returnID d.ID } ∧
    (ReturnSubmissionHandler.Create uuid fd paymentID returnID body w).world
      = { w with store := (w.store.CreateReturnSubmission paymentID returnID d).2 } ∧
    (w.store.CreateReturnSubmission paymentID returnID d).1 = none ∧
    (w.store.GetReturn paymentID returnID).2 = none ∧
    (∃ data, body = .ok data ∧ d = ReturnSubmissionHandler.record uuid fd w.clock data) := by
  rw [returnSubmission_create_eq] at h ⊢
  cases hp : (w.store.GetReturn paymentID returnID).2 with
  | some e =>
    rw [hp] at h
    cases e <;> simp [jsonapi.NotFound, jsonapi.InternalError] at h
  | none =>
    rw [hp] at h
    cases body with
    | error msg => simp [jsonapi.BadRequest] at h
    | ok data =>
      simp only at h ⊢
      cases hc : w.store.CreateReturnSubmission paymentID returnID (ReturnSubmissionHandler.record uuid fd w.clock data) with
      | mk err st =>
        rw [hc] at h
        cases err with
        | some e => cases e <;> simp [jsonapi.Conflict, jsonapi.InternalError] at h
        | none =>
          simp only [Response.Created.injEq] at h
          subst h
          simp [hc]

theorem recallSubmission_create_eq (uuid : String) (fd : Time → String) (paymentID recallID : String)
    (body : Except String RecallSubmission) (w : World) :
    RecallSubmissionHandler.Create uuid fd paymentID recallID body w =
      match (w.store.GetRecall paymentID recallID).2 with
      | some .ErrNotFound => ⟨jsonapi.NotFound "recall" recallID, w, none⟩
      | some _ => ⟨jsonapi.InternalError, w, none⟩
      | none =>
        match body with
        | .error msg => ⟨jsonapi.BadRequest ("invalid JSON: " ++ msg), w, none⟩
        | .ok data =>
          match w.store.CreateRecallSubmission paymentID recallID (RecallSubmissionHandler.record uuid fd w.clock data) with
          | (some .ErrConflict, _) => ⟨jsonapi.Conflict "recall submission already exists", w, none⟩
          | (some _, _) => ⟨jsonapi.InternalError, w, none⟩
          | (none, store2) =>
            ⟨.Created (RecallSubmissionHandler.record uuid fd w.clock data),
             { w with store := store2 },
             some { resourceType := ResourceTypeRecallSubmission,
                    resourceID := (RecallSubmissionHandler.record uuid fd w.clock data).ID,
                    chain := SimpleSubmissionChain,
                    updater := recallSubmissionUpdater paymentID recallID
                      (RecallSubmissionHandler.record uuid fd w.clock data).ID }⟩ := rfl

/-- What `RecallSubmissionHandler.Create` has done when it answers 201. -/
theorem recallSubmission_create_created (uuid : String) (fd : Time → String) (paymentID recallID : String)
    (body : Except String RecallSubmission) (w : World) (d : RecallSubmission)
    (h : (RecallSubmissionHandler.Create uuid fd paymentID recallID body w).response = .Created d) :
    (RecallSubmissionHandler.Create uuid fd paymentID recallID body w).started
      = some { resourceType := ResourceTypeRecallSubmission, resourceID := d.ID, chain := SimpleSubmissionChain,
               updater := recallSubmissionUpdater paymentID recallID d.ID } ∧
    (RecallSubmissionHandler.Create uuid fd paymentID recallID body w).world
      = { w with store := (w.store.CreateRecallSubmission paymentID recallID d).2 } ∧
    (w.store.CreateRecallSubmission paymentID recallID d).1 = none ∧
    (w.store.GetRecall paymentID recallID).2 = none ∧
    (∃ data, body = .ok data ∧ d = RecallSubmissionHandler.record uuid fd w.clock data) := by
  rw [recallSubmission_create_eq] at h ⊢
  cases hp : (w.store.GetRecall paymentID recallID).2 with
  | some e =>
    rw [hp] at h
    cases e <;> simp [jsonapi.NotFound, jsonapi.InternalError] at h
  | none =>
    rw [hp] at h
    cases body with
    | error msg => simp [jsonapi.BadRequest] at h
    | ok data =>
      simp only at h ⊢
      cases hc : w.store.CreateRecallSubmission paymentID recallID (RecallSubmissionHandler.record uuid fd w.clock data) with
      | mk err st =>
        rw [hc] at h
        cases err with
        | some e => cases e <;> simp [jsonapi.Conflict, jsonapi.InternalError] at h
        | none =>
          simp only [Response.Created.injEq] at h
          subst h
          simp [hc]

theorem recallDecisionSubmission_create_eq (uuid : String) (fd : Time → String) (paymentID recallID decisionID : String)
    (body : Except String RecallDecisionSubmission) (w : World) :
    RecallDecisionSubmissionHandler.Create uuid fd paymentID recallID decisionID body w =
      match (w.store.GetRecallDecision paymentID recallID decisionID).2 with
      | some .ErrNotFound => ⟨jsonapi.NotFound "recall_decision" decisionID, w, none⟩
      | some _ => ⟨jsonapi.InternalError, w, none⟩
      | none =>
        match body with
        | .error msg => ⟨jsonapi.BadRequest ("invalid JSON: " ++ msg), w, none⟩
        | .ok data =>
          match w.store.CreateRecallDecisionSubmission paymentID recallID decisionID (RecallDecisionSubmissionHandler.record uuid fd w.clock data) with
          | (some .ErrConflict, _) => ⟨jsonapi.Conflict "recall decision submission already exists", w, none⟩
          | (some _, _) => ⟨jsonapi.InternalError, w, none⟩
          | (none, store2) =>
            ⟨.Created (RecallDecisionSubmissionHandler.record uuid fd w.clock data),
             { w with store := store2 },
             some { resourceType := ResourceTypeRecallDecisionSubmission,
                    resourceID := (RecallDecisionSubmissionHandler.record uuid fd w.clock data).ID,
                    chain := SimpleSubmissionChain,
                    updater := recallDecisionSubmissionUpdater paymentID recallID decisionID
                      (RecallDecisionSubmissionHandler.record uuid fd w.clock data).ID }⟩ := rfl

/-- What `RecallDecisionSubmissionHandler.Create` has done when it answers 201. -/
theorem recallDecisionSubmission_create_created (uuid : String) (fd : Time → String) (paymentID recallID decisionID : String)
    (body : Except String RecallDecisionSubmission) (w : World) (d : RecallDecisionSubmission)
    (h : (RecallDecisionSubmissionHandler.Create uuid fd paymentID recallID decisionID body w).response = .Created d) :
    (RecallDecisionSubmissionHandler.Create uuid fd paymentID recallID decisionID body w).started
      = some { resourceType := ResourceTypeRecallDecisionSubmission, resourceID := d.ID, chain := SimpleSubmissionChain,
               updater := recallDecisionSubmissionUpdater paymentID recallID decisionID d.ID } ∧
    (RecallDecisionSubmissionHandler.Create uuid fd paymentID recallID decisionID body w).world
      = { w with store := (w.store.CreateRecallDecisionSubmission paymentID recallID decisionID d).2 } ∧
    (w.store.CreateRecallDecisionSubmission paymentID recallID decisionID d).1 = none ∧
    (w.store.GetRecallDecision paymentID recallID decisionID).2 = none ∧
    (∃ data, body = .ok data ∧ d = RecallDecisionSubmissionHandler.record uuid fd w.clock data) := by
  rw [recallDecisionSubmission_create_eq] at h ⊢
  cases hp : (w.store.GetRecallDecision paymentID recallID decisionID).2 with
  | some e =>
    rw [hp] at h
    cases e <;> simp [jsonapi.NotFound, jsonapi.InternalError] at h
  | none =>
    rw [hp] at h
    cases body with
    | error msg => simp [jsonapi.BadRequest] at h
    | ok data =>
      simp only at h ⊢
      cases hc : w.store.CreateRecallDecisionSubmission paymentID recallID decisionID (RecallDecisionSubmissionHandler.record uuid fd w.clock data) with
      | mk err st =>
        rw [hc] at h
        cases err with
        | some e => cases e <;> simp [jsonapi.Conflict, jsonapi.InternalError] at h
        | none =>
          simp only [Response.Created.injEq] at h
          subst h
          simp [hc]

theorem reversalSubmission_create_eq (uuid : String) (fd : Time → String) (paymentID reversalID : String)
    (body : Except String ReversalSubmission) (w : World) :
    ReversalSubmissionHandler.Create uuid fd paymentID reversalID body w =
      match (w.store.GetReversal paymentID reversalID).2 with
      | some .ErrNotFound => ⟨jsonapi.NotFound "reversal" reversalID, w, none⟩
      | some _ => ⟨jsonapi.InternalError, w, none⟩
      | none =>
        match body with
        | .error msg => ⟨jsonapi.BadRequest ("invalid JSON: " ++ msg), w, none⟩
        | .ok data =>
          match w.store.CreateReversalSubmission paymentID reversalID (ReversalSubmissionHandler.record uuid fd w.clock data) with
          | (some .ErrConflict, _) => ⟨jsonapi.Conflict "reversal submission already exists", w, none⟩
          | (some _, _) => ⟨jsonapi.InternalError, w, none⟩
          | (none, store2) =>
            ⟨.Created (ReversalSubmissionHandler.record uuid fd w.clock data),
             { w with store := store2 },
             some { resourceType := ResourceTypeReversalSubmission,
                    resourceID := (ReversalSubmissionHandler.record uuid fd w.clock data).ID,
                    chain := SimpleSubmissionChain,
                    updater := reversalSubmissionUpdater paymentID reversalID
                      (ReversalSubmissionHandler.record uuid fd w.clock data).ID }⟩ := rfl

/-- What `ReversalSubmissionHandler.Create` has done when it answers 201. -/
theorem reversalSubmission_create_created (uuid : String) (fd : Time → String) (paymentID reversalID : String)
    (body : Except String ReversalSubmission) (w : World) (d : ReversalSubmission)
    (h : (ReversalSubmissionHandler.Create uuid fd paymentID reversalID body w).response = .Created d) :
    (ReversalSubmissionHandler.Create uuid fd paymentID reversalID body w).started
      = some { resourceType := ResourceTypeReversalSubmission, resourceID := d.ID, chain := SimpleSubmissionChain,
               updater := reversalSubmissionUpdater paymentID reversalID d.ID } ∧
    (ReversalSubmissionHandler.Create uuid fd paymentID reversalID body w).world
      = { w with store := (w.store.CreateReversalSubmission paymentID reversalID d).2 } ∧
    (w.store.CreateReversalSubmission paymentID reversalID d).1 = none ∧
    (w.store.GetReversal paymentID reversalID).2 = none ∧
    (∃ data, body = .ok data ∧ d = ReversalSubmissionHandler.record uuid fd w.clock data) := by
  rw [reversalSubmission_create_eq] at h ⊢
  cases hp : (w.store.GetReversal paymentID reversalID).2 with
  | some e =>
    rw [hp] at h
    cases e <;> simp [jsonapi.NotFound, jsonapi.InternalError] at h
  | none =>
    rw [hp] at h
    cases body with
    | error msg => simp [jsonapi.BadRequest] at h
    | ok data =>
      simp only at h ⊢
      cases hc : w.store.CreateReversalSubmission paymentID reversalID (ReversalSubmissionHandler.record uuid fd w.clock data) with
      | mk err st =>
        rw [hc] at h
        cases err with
        | some e => cases e <;> simp [jsonapi.Conflict, jsonapi.InternalError] at h
        | none =>
          simp only [Response.Created.injEq] at h
          subst h
          simp [hc]

/-! ## Status updates through the store -/

theorem lookup_after_create (m : MemoryStore) (c : CreateCall) (h : (m.create c).1 = none) :
    (m.create c).2.lookup c.kind c.key = some c.value := by
  have habs : m.lookup c.kind c.key = none := by
    rw [create_err] at h
    cases hl : m.lookup c.kind c.key with
    | none => rfl
    | some v => rw [hl] at h; simp at h
  rw [lookup_create_of_absent m c habs]
  simp

theorem withStatus_withStatus (v : Value) (a b : String) (t t2 : Time) :
    (v.withStatus a t).withStatus b t2 = v.withStatus b t2 := by
  cases v <;> rfl

theorem withStatus_id (v : Value) (a : String) (t : Time) : (v.withStatus a t).id = v.id := by
  cases v <;> rfl

theorem status_withStatus (v : Value) (a : String) (t : Time) (h : v.status.isSome = true) :
    (v.withStatus a t).status = some a := by
  cases v <;> simp [Value.status] at h <;> rfl

/-- The updater closure of a handler on a store that holds the record under
its own identifier: it returns nil, the record then has the new status and the
clock reading as modification time and is otherwise as before, and the clock
and the dispatcher are untouched. -/
theorem updater_step (ref : ChainedRef) (s : String) (w : World) (v : Value)
    (hv : w.store.lookup ref.getCall.kind ref.getCall.key = some v) (hid : v.id = ref.id) :
    (ref.updater s w).1 = none ∧
    (ref.updater s w).2.clock = w.clock ∧
    (ref.updater s w).2.dispatcher = w.dispatcher ∧
    (ref.updater s w).2.store.lookup ref.getCall.kind ref.getCall.key
      = some (v.withStatus s w.clock) := by
  cases ref <;>
    simp only [ChainedRef.getCall, GetCall.kind, GetCall.key, MemoryStore.lookup,
      Option.map_eq_some'] at hv <;>
    obtain ⟨x, hx, rfl⟩ := hv <;>
    simp only [Value.id, ChainedRef.id] at hid <;>
    subst hid <;>
    simp [ChainedRef.updater, paymentSubmissionUpdater, paymentAdmissionUpdater,
      returnSubmissionUpdater, recallSubmissionUpdater, recallDecisionSubmissionUpdater,
      reversalSubmissionUpdater,
      MemoryStore.GetPaymentSubmission, MemoryStore.GetPaymentAdmission,
      MemoryStore.GetReturnSubmission, MemoryStore.GetRecallSubmission,
      MemoryStore.GetRecallDecisionSubmission, MemoryStore.GetReversalSubmission,
      MemoryStore.UpdatePaymentSubmission, MemoryStore.UpdatePaymentAdmission,
      MemoryStore.UpdateReturnSubmission, MemoryStore.UpdateRecallSubmission,
      MemoryStore.UpdateRecallDecisionSubmission, MemoryStore.UpdateReversalSubmission,
      GoMap.contains, hx, ChainedRef.getCall, GetCall.kind, GetCall.key, MemoryStore.lookup,
      Value.withStatus]

/-- The updater closure of a handler on a store that does not hold the record:
it returns ErrNotFound and changes nothing. -/
theorem updater_absent (ref : ChainedRef) (s : String) (w : World)
    (hv : w.store.lookup ref.getCall.kind ref.getCall.key = none) :
    ref.updater s w = (some Error.ErrNotFound, w) := by
  cases ref <;>
    simp only [ChainedRef.getCall, GetCall.kind, GetCall.key, MemoryStore.lookup,
      Option.map_eq_none'] at hv <;>
    simp [ChainedRef.updater, paymentSubmissionUpdater, paymentAdmissionUpdater,
      returnSubmissionUpdater, recallSubmissionUpdater, recallDecisionSubmissionUpdater,
      reversalSubmissionUpdater,
      MemoryStore.GetPaymentSubmission, MemoryStore.GetPaymentAdmission,
      MemoryStore.GetReturnSubmission, MemoryStore.GetRecallSubmission,
      MemoryStore.GetRecallDecisionSubmission, MemoryStore.GetReversalSubmission, hv]

/-- What a Create handler of a chained kind has done when it answers 201: it
has started one transition, for the created record, with the chain and the
updater of its kind; the store holds the record under its key; the record has
the first status of the chain; and the clock and the dispatcher are
untouched. -/
theorem handleCreate_created (uuid : String) (fd : Time → String) (r : ChainedCreate)
    (w : World) (v : Value) (h : (handleCreate uuid fd r w).created = some v) :
    (handleCreate uuid fd r w).status = 201 ∧
    (handleCreate uuid fd r w).started
      = some { resourceType := (r.ref v.id).resourceType, resourceID := v.id,
               chain := r.chain, updater := (r.ref v.id).updater } ∧
    (handleCreate uuid fd r w).world.store.lookup (r.ref v.id).getCall.kind
      (r.ref v.id).getCall.key = some v ∧
    (handleCreate uuid fd r w).world.clock = w.clock ∧
    (handleCreate uuid fd r w).world.dispatcher = w.dispatcher ∧
    v.status = r.chain.head? := by
  cases r with
  | paymentSubmission paymentID body =>
    simp only [handleCreate, Handled.any] at h ⊢
    cases hr : (PaymentSubmissionHandler.Create uuid fd paymentID body w).response with
    | Error a b c => rw [hr] at h; simp at h
    | Created d =>
      rw [hr] at h
      simp only [Option.some.injEq] at h
      subst h
      obtain ⟨h1, h2, h3, _, data, _, hd⟩ :=
        paymentSubmission_create_created uuid fd paymentID body w d hr
      refine ⟨rfl, h1, ?_, by rw [h2], by rw [h2], by rw [hd]; rfl⟩
      rw [h2]
      exact lookup_after_create w.store (.CreatePaymentSubmission paymentID d) h3
  | paymentAdmission paymentID body =>
    simp only [handleCreate, Handled.any] at h ⊢
    cases hr : (PaymentAdmissionHandler.Create uuid fd paymentID body w).response with
    | Error a b c => rw [hr] at h; simp at h
    | Created d =>
      rw [hr] at h
      simp only [Option.some.injEq] at h
      subst h
      obtain ⟨h1, h2, h3, _, data, _, hd⟩ :=
        paymentAdmission_create_created uuid fd paymentID body w d hr
      refine ⟨rfl, h1, ?_, by rw [h2], by rw [h2], by rw [hd]; rfl⟩
      rw [h2]
      exact lookup_after_create w.store (.CreatePaymentAdmission paymentID d) h3
  | returnSubmission paymentID returnID body =>
    simp only [handleCreate, Handled.any] at h ⊢
    cases hr : (ReturnSubmissionHandler.Create uuid fd paymentID returnID body w).response with
    | Error a b c => rw [hr] at h; simp at h
    | Created d =>
      rw [hr] at h
      simp only [Option.some.injEq] at h
      subst h
      obtain ⟨h1, h2, h3, _, data, _, hd⟩ :=
        returnSubmission_create_created uuid fd paymentID returnID body w d hr
      refine ⟨rfl, h1, ?_, by rw [h2], by rw [h2], by rw [hd]; rfl⟩
      rw [h2]
      exact lookup_after_create w.store (.CreateReturnSubmission paymentID returnID d) h3
  | recallSubmission paymentID recallID body =>
    simp only [handleCreate, Handled.any] at h ⊢
    cases hr : (RecallSubmissionHandler.Create uuid fd paymentID recallID body w).response with
    | Error a b c => rw [hr] at h; simp at h
    | Created d =>
      rw [hr] at h
      simp only [Option.some.injEq] at h
      subst h
      obtain ⟨h1, h2, h3, _, data, _, hd⟩ :=
        recallSubmission_create_created uuid fd paymentID recallID body w d hr
      refine ⟨rfl, h1, ?_, by rw [h2], by rw [h2], by rw [hd]; rfl⟩
      rw [h2]
      exact lookup_after_create w.store (.CreateRecallSubmission paymentID recallID d) h3
  | recallDecisionSubmission paymentID recallID decisionID body =>
    simp only [handleCreate, Handled.any] at h ⊢
    cases hr : (RecallDecisionSubmissionHandler.Create uuid fd paymentID recallID decisionID
        body w).response with
    | Error a b c => rw [hr] at h; simp at h
    | Created d =>
      rw [hr] at h
      simp only [Option.some.injEq] at h
      subst h
      obtain ⟨h1, h2, h3, _, data, _, hd⟩ :=
        recallDecisionSubmission_create_created uuid fd paymentID recallID decisionID body w d hr
      refine ⟨rfl, h1, ?_, by rw [h2], by rw [h2], by rw [hd]; rfl⟩
      rw [h2]
      exact lookup_after_create w.store
        (.CreateRecallDecisionSubmission paymentID recallID decisionID d) h3
  | reversalSubmission paymentID reversalID body =>
    simp only [handleCreate, Handled.any] at h ⊢
    cases hr : (ReversalSubmissionHandler.Create uuid fd paymentID reversalID body w).response
      with
    | Error a b c => rw [hr] at h; simp at h
    | Created d =>
      rw [hr] at h
      simp only [Option.some.injEq] at h
      subst h
      obtain ⟨h1, h2, h3, _, data, _, hd⟩ :=
        reversalSubmission_create_created uuid fd paymentID reversalID body w d hr
      refine ⟨rfl, h1, ?_, by rw [h2], by rw [h2], by rw [hd]; rfl⟩
      rw [h2]
      exact lookup_after_create w.store (.CreateReversalSubmission paymentID reversalID d) h3

/-- C15. Every declared status chain has length at least 1, and for every create
request on a kind with a chain (payment submission, payment admission, return,
recall, recall-decision and reversal submission), whatever the decoded body
carries as status: when the handler answers 201, the record it returns is the
record the store then holds under its key, and its status is the first status
of the chain of its kind, "pending" for admissions and "accepted" for the
submissions. -/
theorem creation_status_is_first_of_chain :
    (1 ≤ PaymentSubmissionChain.length ∧ 1 ≤ AdmissionChain.length ∧
      1 ≤ SimpleSubmissionChain.length) ∧
    (∀ (uuid : String) (fd : Time → String) (r : ChainedCreate) (w : World) (v : Value),
      (handleCreate uuid fd r w).created = some v →
        v.status = r.chain.head? ∧
        v.status = some (match r with
          | .paymentAdmission _ _ => "pending"
          | _ => "accepted") ∧
        (handleCreate uuid fd r w).world.store.get (r.ref v.id).getCall = (v, none)) := by
  refine ⟨by decide, ?_⟩
  intro uuid fd r w v h
  obtain ⟨_, _, hl, _, _, hs⟩ := handleCreate_created uuid fd r w v h
  refine ⟨hs, ?_, get_of_some _ _ _ hl⟩
  rw [hs]
  cases r <;> rfl

/-- The step of `TestPaymentSubmissionLifecycle`: a submission posted under
payment `p1` with the status "delivery_confirmed" in its body is created with
the status "accepted". -/
theorem creation_status_is_first_of_chain_witness :
    Value.status (.paymentSubmissions
        (PaymentSubmissionHandler.record "u1" (fun _ => "2026-01-01") 0
          (newSubmission "s1" "delivery_confirmed")))
      = some "accepted" :=
  (creation_status_is_first_of_chain.2 "u1" (fun _ => "2026-01-01")
    (.paymentSubmission "p1" (.ok (newSubmission "s1" "delivery_confirmed")))
    lifecycleScenario
    (.paymentSubmissions
      (PaymentSubmissionHandler.record "u1" (fun _ => "2026-01-01") 0
        (newSubmission "s1" "delivery_confirmed")))
    (by decide)).2.1

theorem sleep_store (d : Int) (w : World) : (World.sleep d w).store = w.store := rfl

/-- A run of the steps of a transition with the updater of a handler, on a store
that holds the record: the record is still held afterwards, with the last of
the statuses stepped through and otherwise as before. -/
theorem steps_updater_run (e : Engine World)
    (hcb : ∀ f, e.onChange = some f → ∀ a b c w, (f a b c w).store = w.store)
    (ref : ChainedRef) (rt rid : String) (ss : List String) (w : World) (v : Value)
    (hv : w.store.lookup ref.getCall.kind ref.getCall.key = some v) (hid : v.id = ref.id) :
    ∃ v2, (e.steps World.sleep rt rid ref.updater ss w).store.lookup ref.getCall.kind
        ref.getCall.key = some v2 ∧ v2.id = ref.id ∧
      (ss = [] → v2 = v) ∧
      (∀ last, ss.getLast? = some last → ∃ tm, v2 = v.withStatus last tm) := by
  induction ss generalizing w v with
  | nil => exact ⟨v, hv, hid, fun _ => rfl, fun last h => by simp at h⟩
  | cons s rest ih =>
    have hstep := updater_step ref s (World.sleep e.stepDelay w) v
      (by rw [sleep_store]; exact hv) hid
    obtain ⟨hu, _, _, hl⟩ := hstep
    have hfin : ∃ v2, (e.steps World.sleep rt rid ref.updater (s :: rest) w).store.lookup
        ref.getCall.kind ref.getCall.key = some v2 ∧ v2.id = ref.id ∧
        (rest = [] → v2 = v.withStatus s (World.sleep e.stepDelay w).clock) ∧
        (∀ last, rest.getLast? = some last →
          ∃ tm, v2 = (v.withStatus s (World.sleep e.stepDelay w).clock).withStatus last tm) := by
      cases hc : e.onChange with
      | none =>
        rw [steps_cons_ok_none e World.sleep rt rid ref.updater s rest w hu hc]
        exact ih _ _ hl (by rw [withStatus_id]; exact hid)
      | some f =>
        rw [steps_cons_ok_some e World.sleep rt rid ref.updater s rest w f hu hc]
        exact ih _ _ (by rw [hcb f hc]; exact hl) (by rw [withStatus_id]; exact hid)
    obtain ⟨v2, h1, h2, h3, h4⟩ := hfin
    refine ⟨v2, h1, h2, fun h => absurd h (List.cons_ne_nil _ _), ?_⟩
    intro last hlast
    cases rest with
    | nil =>
      simp only [List.getLast?_singleton, Option.some.injEq] at hlast
      subst hlast
      exact ⟨_, h3 rfl⟩
    | cons r rs =>
      rw [List.getLast?_cons_cons] at hlast
      obtain ⟨tm, htm⟩ := h4 last hlast
      exact ⟨tm, by rw [htm, withStatus_withStatus]⟩

/-- C13. For every state of the server and every create request on a kind with
a status chain that the handler answers with 201 (the parent exists, the body
decodes, the key is new): the handler has started a transition, and running it
to completion, with an engine whose callback does not write to the store (nil
as in the tests, or the callback of `main`), leaves the store holding the
created record with the last status of the chain, "delivery_confirmed" for the
8-status chain of payment submissions and the 2-status chain of the return,
recall, recall-decision and reversal submissions and "confirmed" for
admissions, and with every field other than the status and the modification
time as stored at creation. -/
theorem chain_runs_to_last_status (uuid : String) (fd : Time → String) (e : Engine World)
    (r : ChainedCreate) (w : World) (v : Value)
    (hcb : ∀ f, e.onChange = some f → ∀ a b c w2, (f a b c w2).store = w2.store)
    (hcreated : (handleCreate uuid fd r w).created = some v) :
    ∃ t tm, (handleCreate uuid fd r w).started = some t ∧
      (t.run e (handleCreate uuid fd r w).world).store.get (r.ref v.id).getCall
        = (v.withStatus (r.chain.getLastD "") tm, none) ∧
      (v.withStatus (r.chain.getLastD "") tm).status = some (r.chain.getLastD "") ∧
      r.chain.getLastD "" = (match r with
        | .paymentAdmission _ _ => "confirmed"
        | _ => "delivery_confirmed") := by
  obtain ⟨_, hstart, hl, _, _, hs⟩ := handleCreate_created uuid fd r w v hcreated
  have hid : v.id = (r.ref v.id).id := by cases r <;> rfl
  obtain ⟨v2, h1, _, _, h4⟩ := steps_updater_run e hcb (r.ref v.id) (r.ref v.id).resourceType v.id
    (r.chain.drop 1) (handleCreate uuid fd r w).world v hl hid
  have hlast : (r.chain.drop 1).getLast? = some (r.chain.getLastD "") := by cases r <;> rfl
  obtain ⟨tm, htm⟩ := h4 _ hlast
  refine ⟨_, tm, hstart, ?_, ?_, by cases r <;> rfl⟩
  · apply get_of_some
    rw [← htm]
    exact h1
  · apply status_withStatus
    rw [hs]
    cases r <;> rfl

/-- The lifecycle test: payment `p1` exists, a submission `s1` is posted under it
and its transition runs through the chain with the engine of the tests, which
has no callback. -/
theorem chain_runs_to_last_status_witness :
    ∃ t tm, (handleCreate "u1" (fun _ => "2026-01-01")
        (.paymentSubmission "p1" (.ok (newSubmission "s1" ""))) lifecycleScenario).started
        = some t ∧
      (t.run (NewEngine 10 none) (handleCreate "u1" (fun _ => "2026-01-01")
        (.paymentSubmission "p1" (.ok (newSubmission "s1" ""))) lifecycleScenario).world).store.get
          (.GetPaymentSubmission "p1" "s1")
        = ((Value.paymentSubmissions
            (PaymentSubmissionHandler.record "u1" (fun _ => "2026-01-01") 0
              (newSubmission "s1" ""))).withStatus "delivery_confirmed" tm, none) ∧
      ((Value.paymentSubmissions
            (PaymentSubmissionHandler.record "u1" (fun _ => "2026-01-01") 0
              (newSubmission "s1" ""))).withStatus "delivery_confirmed" tm).status
        = some "delivery_confirmed" ∧
      "delivery_confirmed" = "delivery_confirmed" :=
  chain_runs_to_last_status "u1" (fun _ => "2026-01-01") (NewEngine 10 none)
    (.paymentSubmission "p1" (.ok (newSubmission "s1" ""))) lifecycleScenario
    (.paymentSubmissions
      (PaymentSubmissionHandler.record "u1" (fun _ => "2026-01-01") 0 (newSubmission "s1" "")))
    (fun f hf => by cases hf) (by decide)

theorem status_isSome_of_lookup (m : MemoryStore) (ref : ChainedRef) (v : Value)
    (hv : m.lookup ref.getCall.kind ref.getCall.key = some v) : v.status.isSome = true := by
  cases ref <;>
    simp only [ChainedRef.getCall, GetCall.kind, GetCall.key, MemoryStore.lookup,
      Option.map_eq_some'] at hv <;>
    obtain ⟨x, _, rfl⟩ := hv <;> rfl

/-- The steps of a transition whose updater is made to fail on call `i`, from a
state in which `n < i` calls have been made: the run ends with call `i`, and
the record then has the status it had before that call. -/
theorem steps_failing_run (e : Engine World)
    (hcb : ∀ f, e.onChange = some f → ∀ a b c w, (f a b c w).store = w.store)
    (ref : ChainedRef) (rt rid : String) (i : Nat) (err : Error) (ss : List String)
    (w : World) (n : Nat) (v : Value) (cur : String)
    (hv : w.store.lookup ref.getCall.kind ref.getCall.key = some v) (hid : v.id = ref.id)
    (hst : v.status = some cur) (hn : n < i) (hi : i ≤ n + ss.length) :
    ∃ v2, (e.counted.steps countedSleep rt rid (failingAt i err ref.updater) ss
        (w, n)).1.store.lookup ref.getCall.kind ref.getCall.key = some v2 ∧
      v2.status = (cur :: ss)[i - 1 - n]? ∧
      (e.counted.steps countedSleep rt rid (failingAt i err ref.updater) ss (w, n)).2 = i ∧
      (v2 = v ∨ ∃ st tm, v2 = v.withStatus st tm) := by
  induction ss generalizing w n v cur with
  | nil => simp at hi; omega
  | cons s rest ih =>
    by_cases hfail : n + 1 = i
    · have hu : (failingAt i err ref.updater s
          (countedSleep e.counted.stepDelay (w, n))).1 = some err := by
        simp [failingAt, countedSleep, hfail]
      rw [steps_cons_fail e.counted countedSleep rt rid _ s rest (w, n) err hu]
      refine ⟨v, ?_, ?_, ?_, Or.inl rfl⟩
      · simpa [failingAt, countedSleep, hfail, World.sleep] using hv
      · have h0 : i - 1 - n = 0 := by omega
        rw [h0]; simpa using hst
      · simp [failingAt, countedSleep, hfail]
    · obtain ⟨hu, _, _, hl⟩ := updater_step ref s (World.sleep e.stepDelay w) v
        (by rw [sleep_store]; exact hv) hid
      have hu2 : (failingAt i err ref.updater s
          (countedSleep e.counted.stepDelay (w, n))).1 = none := by
        simpa [failingAt, countedSleep, hfail, Engine.counted] using hu
      have hsome : v.status.isSome = true := by rw [hst]; rfl
      have hidx : (cur :: s :: rest)[i - 1 - n]? = (s :: rest)[i - 1 - (n + 1)]? := by
        have h1 : i - 1 - n = (i - 1 - (n + 1)) + 1 := by omega
        rw [h1]; simp
      have hrec : ∀ w2 : World, w2.store = (ref.updater s (World.sleep e.stepDelay w)).2.store →
          ∃ v2, (e.counted.steps countedSleep rt rid (failingAt i err ref.updater) rest
              (w2, n + 1)).1.store.lookup ref.getCall.kind ref.getCall.key = some v2 ∧
            v2.status = (cur :: s :: rest)[i - 1 - n]? ∧
            (e.counted.steps countedSleep rt rid (failingAt i err ref.updater) rest
              (w2, n + 1)).2 = i ∧
            (v2 = v ∨ ∃ st tm, v2 = v.withStatus st tm) := by
        intro w2 hw2
        obtain ⟨v2, h1, h2, h3, h4⟩ := ih w2 (n + 1)
          (v.withStatus s (World.sleep e.stepDelay w).clock) s
          (by rw [hw2]; exact hl) (by rw [withStatus_id]; exact hid)
          (status_withStatus v s _ hsome) (by omega)
          (by simp only [List.length_cons] at hi; omega)
        refine ⟨v2, h1, by rw [hidx]; exact h2, h3, Or.inr ?_⟩
        rcases h4 with h4 | ⟨st, tm, h4⟩
        · exact ⟨_, _, h4⟩
        · exact ⟨st, tm, by rw [h4, withStatus_withStatus]⟩
      cases hc : e.onChange with
      | none =>
        rw [steps_cons_ok_none e.counted countedSleep rt rid _ s rest (w, n) hu2
          (by simp [Engine.counted, hc])]
        have hw : (failingAt i err ref.updater s (countedSleep e.counted.stepDelay (w, n))).2
            = ((ref.updater s (World.sleep e.stepDelay w)).2, n + 1) := by
          simp [failingAt, countedSleep, hfail, Engine.counted]
        rw [hw]
        exact hrec _ rfl
      | some f =>
        rw [steps_cons_ok_some e.counted countedSleep rt rid _ s rest (w, n)
          (fun resourceType resourceID newStatus w3 =>
            (f resourceType resourceID newStatus w3.1, w3.2)) hu2
          (by simp [Engine.counted, hc])]
        have hw : (failingAt i err ref.updater s (countedSleep e.counted.stepDelay (w, n))).2
            = ((ref.updater s (World.sleep e.stepDelay w)).2, n + 1) := by
          simp [failingAt, countedSleep, hfail, Engine.counted]
        rw [hw]
        exact hrec _ (hcb f hc _ _ _ _)

/-- C14. For every chain, every engine whose callback does not write to the
store and the store-backed updater of a handler made to fail on step `i`
(1 <= i < len(chain)), on a store that holds the record under its own
identifier with the status chain[0]: when the transition has ended, the
updater has been called exactly `i` times, the status of the stored record is
chain[i-1], the status written by step i-1 (the creation status chain[0] when
the first update fails), and the record is otherwise as before except for the
modification time. -/
theorem failed_step_leaves_previous_status (e : Engine World) (ref : ChainedRef)
    (chain : StatusChain) (i : Nat) (err : Error) (w : World) (v : Value)
    (hcb : ∀ f, e.onChange = some f → ∀ a b c w2, (f a b c w2).store = w2.store)
    (hv : w.store.lookup ref.getCall.kind ref.getCall.key = some v) (hid : v.id = ref.id)
    (hst : v.status = chain.head?) (hi : 1 ≤ i) (hlt : i < chain.length) :
    ∃ v2, (e.counted.StartTransition countedSleep ref.resourceType ref.id chain
        (failingAt i err ref.updater) (w, 0)).1.store.get ref.getCall = (v2, none) ∧
      v2.status = chain[i - 1]? ∧
      (e.counted.StartTransition countedSleep ref.resourceType ref.id chain
        (failingAt i err ref.updater) (w, 0)).2 = i ∧
      (v2 = v ∨ ∃ st tm, v2 = v.withStatus st tm) := by
  cases chain with
  | nil => simp at hlt
  | cons c0 ss =>
    simp only [List.head?_cons] at hst
    simp only [List.length_cons] at hlt
    obtain ⟨v2, h1, h2, h3, h4⟩ := steps_failing_run e hcb ref ref.resourceType ref.id i err ss
      w 0 v c0 hv hid hst (by omega) (by omega)
    refine ⟨v2, get_of_some _ _ _ h1, ?_, h3, h4⟩
    rw [h2]
    simp

/-- A four-status chain whose second update fails: the stored submission stays
at the status of step 1. -/
theorem failed_step_leaves_previous_status_witness :
    ∃ v2, ((NewEngine 10 none).counted.StartTransition countedSleep
        ResourceTypePaymentSubmission "s1" ["accepted", "b", "c", "d"]
        (failingAt 2 Error.ErrNotFound (paymentSubmissionUpdater "p1" "s1"))
        (notifyScenario, 0)).1.store.get (.GetPaymentSubmission "p1" "s1") = (v2, none) ∧
      v2.status = (["accepted", "b", "c", "d"] : StatusChain)[2 - 1]? ∧
      ((NewEngine 10 none).counted.StartTransition countedSleep
        ResourceTypePaymentSubmission "s1" ["accepted", "b", "c", "d"]
        (failingAt 2 Error.ErrNotFound (paymentSubmissionUpdater "p1" "s1"))
        (notifyScenario, 0)).2 = 2 ∧
      (v2 = .paymentSubmissions (newSubmission "s1" "accepted") ∨
        ∃ st tm, v2 = (Value.paymentSubmissions (newSubmission "s1" "accepted")).withStatus
          st tm) :=
  failed_step_leaves_previous_status (NewEngine 10 none) (.paymentSubmission "p1" "s1")
    ["accepted", "b", "c", "d"] 2 Error.ErrNotFound notifyScenario
    (.paymentSubmissions (newSubmission "s1" "accepted"))
    (fun f hf => by cases hf) (by decide) rfl rfl (by decide) (by decide)

/-! ## Deletion and the frames of the store calls -/

theorem lookup_map_entries {V W : Type} (f : V → W) (es : List (String × V)) (k : String) :
    (es.map (fun e => (e.1, f e.2))).lookup k = (es.lookup k).map f := by
  induction es with
  | nil => rfl
  | cons e rest ih =>
    obtain ⟨k1, v1⟩ := e
    by_cases h : k = k1
    · subst h; simp [List.lookup]
    · have h2 : (k == k1) = false := by simpa using h
      simp [List.lookup, h2, ih]

/-- What a map holds under a key is read off its contents. -/
theorem lookup_eq_content (m : MemoryStore) (kd : Kind) (k : String) :
    m.lookup kd k = (m.content kd).lookup k := by
  cases kd <;> simp only [MemoryStore.lookup, MemoryStore.content, GoMap.get?] <;>
    rw [lookup_map_entries]

/-- A store call leaves the contents of the maps of every other kind as they
are. -/
theorem content_after_other (m : MemoryStore) (c : StoreCall) (kd : Kind)
    (hne : kd ≠ c.kind) : (m.after c).content kd = m.content kd := by
  cases c with
  | get g => rfl
  | list l => rfl
  | MatchSubscriptions a b => rfl
  | DeleteSubscription id =>
    simp only [StoreCall.kind] at hne
    simp only [MemoryStore.after, MemoryStore.DeleteSubscription]
    split
    · rfl
    · cases kd <;> first | rfl | exact absurd rfl hne
  | create c =>
    simp only [StoreCall.kind] at hne
    cases c <;> cases kd <;>
      first
        | exact absurd rfl hne
        | (simp only [MemoryStore.after, MemoryStore.create, MemoryStore.CreatePayment,
            MemoryStore.CreatePaymentSubmission, MemoryStore.CreatePaymentAdmission,
            MemoryStore.CreateAdmissionTask, MemoryStore.CreateReturn,
            MemoryStore.CreateReturnSubmission, MemoryStore.CreateRecall,
            MemoryStore.CreateRecallSubmission, MemoryStore.CreateRecallDecision,
            MemoryStore.CreateRecallDecisionSubmission, MemoryStore.CreateReversal,
            MemoryStore.CreateReversalSubmission, MemoryStore.CreateSubscription]
           split <;> rfl)
  | update u =>
    simp only [StoreCall.kind] at hne
    cases u <;> cases kd <;>
      first
        | exact absurd rfl hne
        | (simp only [MemoryStore.after, MemoryStore.update, MemoryStore.UpdatePayment,
            MemoryStore.UpdatePaymentSubmission, MemoryStore.UpdatePaymentAdmission,
            MemoryStore.UpdateAdmissionTask, MemoryStore.UpdateReturnSubmission,
            MemoryStore.UpdateRecallSubmission, MemoryStore.UpdateRecallDecisionSubmission,
            MemoryStore.UpdateReversalSubmission, MemoryStore.UpdateSubscription]
           split <;> rfl)

theorem lookup_after_other (m : MemoryStore) (c : StoreCall) (kd : Kind) (k : String)
    (hne : kd ≠ c.kind) : (m.after c).lookup kd k = m.lookup kd k := by
  rw [lookup_eq_content, lookup_eq_content, content_after_other m c kd hne]

/-- A store call other than DeleteSubscription keeps every key that is
present. -/
theorem present_after (m : MemoryStore) (c : StoreCall) (kd : Kind) (k : String)
    (hc : ∀ id, c ≠ StoreCall.DeleteSubscription id)
    (h : (m.lookup kd k).isSome = true) : ((m.after c).lookup kd k).isSome = true := by
  cases c with
  | get g => exact h
  | list l => exact h
  | MatchSubscriptions a b => exact h
  | DeleteSubscription id => exact absurd rfl (hc id)
  | create c =>
    simp only [MemoryStore.after]
    cases hp : m.lookup c.kind c.key with
    | some v =>
      rw [create_store_of_present m c (by rw [hp]; rfl)]; exact h
    | none =>
      rw [lookup_create_of_absent m c hp]
      split
      · rfl
      · exact h
  | update u =>
    simp only [MemoryStore.after]
    cases hp : m.lookup u.kind u.key with
    | none => rw [update_store_of_absent m u hp]; exact h
    | some v =>
      rw [lookup_update_of_present m u (by rw [hp]; rfl)]
      split
      · rfl
      · exact h

/-- C22. Records of every kind other than subscriptions are never deleted: for
every store, every call of the Store interface and every kind other than
subscriptions, a composite key present before the call is present after it;
so it is present after every sequence of calls, and a Get call of such a kind
that has returned nil returns nil in every later state. -/
theorem non_subscription_keys_persist (m : MemoryStore) (kd : Kind) (hkd : kd ≠ Kind.subscriptions) :
    (∀ (c : StoreCall) (k : String), (m.lookup kd k).isSome = true →
      ((m.after c).lookup kd k).isSome = true) ∧
    (∀ (calls : List StoreCall) (k : String), (m.lookup kd k).isSome = true →
      ((m.run calls).lookup kd k).isSome = true) ∧
    (∀ (calls : List StoreCall) (g : GetCall), g.kind = kd → (m.get g).2 = none →
      ((m.run calls).get g).2 = none) := by
  have hstep : ∀ (m2 : MemoryStore) (c : StoreCall) (k : String),
      (m2.lookup kd k).isSome = true → ((m2.after c).lookup kd k).isSome = true := by
    intro m2 c k h
    by_cases hd : ∃ id, c = StoreCall.DeleteSubscription id
    · obtain ⟨id, rfl⟩ := hd
      rw [lookup_after_other m2 _ kd k (by simpa [StoreCall.kind] using hkd)]
      exact h
    · exact present_after m2 c kd k (fun id hc => hd ⟨id, hc⟩) h
  have hrun : ∀ (calls : List StoreCall) (m2 : MemoryStore) (k : String),
      (m2.lookup kd k).isSome = true → ((m2.run calls).lookup kd k).isSome = true := by
    intro calls
    induction calls with
    | nil => intro m2 k h; exact h
    | cons c rest ih =>
      intro m2 k h
      exact ih (m2.after c) k (hstep m2 c k h)
  refine ⟨hstep m, fun calls k h => hrun calls m k h, ?_⟩
  intro calls g hg h
  have h1 : (m.lookup g.kind g.key).isSome = true := by
    rw [get_err] at h
    cases hl : m.lookup g.kind g.key with
    | some v => rfl
    | none => rw [hl] at h; simp at h
  have h2 := hrun calls m g.key (by rw [← hg]; exact h1)
  rw [get_err, hg, h2]
  rfl

/-- The payment of the store tests stays through a deletion and an update. -/
theorem non_subscription_keys_persist_witness :
    (∀ (c : StoreCall) (k : String),
      (((NewMemoryStore.CreatePayment (newPayment "p1" 0)).2).lookup Kind.payments k).isSome
        = true →
      ((((NewMemoryStore.CreatePayment (newPayment "p1" 0)).2).after c).lookup
        Kind.payments k).isSome = true) ∧
    (∀ (calls : List StoreCall) (k : String),
      (((NewMemoryStore.CreatePayment (newPayment "p1" 0)).2).lookup Kind.payments k).isSome
        = true →
      ((((NewMemoryStore.CreatePayment (newPayment "p1" 0)).2).run calls).lookup
        Kind.payments k).isSome = true) ∧
    (∀ (calls : List StoreCall) (g : GetCall), g.kind = Kind.payments →
      (((NewMemoryStore.CreatePayment (newPayment "p1" 0)).2).get g).2 = none →
      ((((NewMemoryStore.CreatePayment (newPayment "p1" 0)).2).run calls).get g).2 = none) :=
  non_subscription_keys_persist (NewMemoryStore.CreatePayment (newPayment "p1" 0)).2
    Kind.payments (by decide)

/-- C24. Each kind has its own map: every call of the Store interface leaves the
contents of the map of every other kind, and so what it holds under every
key, as they are. Records of different kinds with equal identifier tuples do
not collide: for every store in which the three keys are free, CreateReturn,
CreateRecall and CreateReversal under the same payment with the same
identifier all return nil and each kind's Get returns its own record; and a
payment and a subscription with the same identifier can both be created. -/
theorem kinds_have_disjoint_namespaces (m : MemoryStore) :
    (∀ (c : StoreCall) (kd : Kind), kd ≠ c.kind →
      (m.after c).content kd = m.content kd ∧
      ∀ k, (m.after c).lookup kd k = m.lookup kd k) ∧
    (∀ (p : String) (r : ReturnPayment) (rc : Recall) (rv : Reversal),
      rc.ID = r.ID → rv.ID = r.ID →
      m.lookup Kind.returns (key2 p r.ID) = none →
      m.lookup Kind.recalls (key2 p r.ID) = none →
      m.lookup Kind.reversals (key2 p r.ID) = none →
      (m.CreateReturn p r).1 = none ∧
      ((m.CreateReturn p r).2.CreateRecall p rc).1 = none ∧
      (((m.CreateReturn p r).2.CreateRecall p rc).2.CreateReversal p rv).1 = none ∧
      (((m.CreateReturn p r).2.CreateRecall p rc).2.CreateReversal p rv).2.GetReturn p r.ID
        = (r, none) ∧
      (((m.CreateReturn p r).2.CreateRecall p rc).2.CreateReversal p rv).2.GetRecall p r.ID
        = (rc, none) ∧
      (((m.CreateReturn p r).2.CreateRecall p rc).2.CreateReversal p rv).2.GetReversal p r.ID
        = (rv, none)) ∧
    (∀ (p : Payment) (s : Subscription), s.ID = p.ID →
      m.lookup Kind.payments p.ID = none → m.lookup Kind.subscriptions p.ID = none →
      (m.CreatePayment p).1 = none ∧ ((m.CreatePayment p).2.CreateSubscription s).1 = none ∧
      ((m.CreatePayment p).2.CreateSubscription s).2.GetPayment p.ID = (p, none) ∧
      ((m.CreatePayment p).2.CreateSubscription s).2.GetSubscription p.ID = (s, none)) := by
  refine ⟨fun c kd hne => ⟨content_after_other m c kd hne,
    fun k => lookup_after_other m c kd k hne⟩, ?_, ?_⟩
  · intro p r rc rv h1 h2 ha hb hc
    simp only [MemoryStore.lookup, Option.map_eq_none'] at ha hb hc
    simp [MemoryStore.CreateReturn, MemoryStore.CreateRecall, MemoryStore.CreateReversal,
      MemoryStore.GetReturn, MemoryStore.GetRecall, MemoryStore.GetReversal, GoMap.contains,
      ha, hb, hc, h1, h2]
  · intro p s h1 ha hb
    simp only [MemoryStore.lookup, Option.map_eq_none'] at ha hb
    simp [MemoryStore.CreatePayment, MemoryStore.CreateSubscription, MemoryStore.GetPayment,
      MemoryStore.GetSubscription, GoMap.contains, ha, hb, h1]

theorem lookup_delete_subscription (m : MemoryStore) (id : String) (kd : Kind) (k : String) :
    (m.DeleteSubscription id).2.lookup kd k =
      if kd = Kind.subscriptions ∧ k = id then none else m.lookup kd k := by
  by_cases hp : m.subscriptions.contains id = true
  · cases kd <;>
      simp [MemoryStore.DeleteSubscription, hp, MemoryStore.lookup, GoMap.get?_delete]
    split <;> simp_all
  · simp only [Bool.not_eq_true] at hp
    have hnone : m.subscriptions.get? id = none := by
      simpa [GoMap.contains] using hp
    simp only [MemoryStore.DeleteSubscription, hp, Bool.not_false, if_true]
    split
    · rename_i h
      rw [h.1, h.2]
      simp [MemoryStore.lookup, hnone]
    · rfl

theorem ownIds_after (m : MemoryStore) (c : StoreCall) (h : OwnIds m) : OwnIds (m.after c) := by
  have hl : ∀ (m2 : MemoryStore) k s, m2.subscriptions.get? k = some s ↔
      m2.lookup Kind.subscriptions k = some (Value.subscriptions s) := by
    intro m2 k s
    simp [MemoryStore.lookup]
  intro k s hs
  rw [hl] at hs
  cases c with
  | get g => exact h k s ((hl m k s).2 hs)
  | list l => exact h k s ((hl m k s).2 hs)
  | MatchSubscriptions a b => exact h k s ((hl m k s).2 hs)
  | DeleteSubscription id =>
    simp only [MemoryStore.after] at hs
    rw [lookup_delete_subscription] at hs
    split at hs
    · cases hs
    · exact h k s ((hl m k s).2 hs)
  | create c =>
    simp only [MemoryStore.after] at hs
    cases hp : m.lookup c.kind c.key with
    | some v =>
      rw [create_store_of_present m c (by rw [hp]; rfl)] at hs
      exact h k s ((hl m k s).2 hs)
    | none =>
      rw [lookup_create_of_absent m c hp] at hs
      split at hs
      · rename_i hk
        cases c <;> simp only [CreateCall.kind, reduceCtorEq, false_and] at hk
        simp only [CreateCall.value, Option.some.injEq, Value.subscriptions.injEq] at hs
        subst hs
        exact hk.2.symm
      · exact h k s ((hl m k s).2 hs)
  | update u =>
    simp only [MemoryStore.after] at hs
    cases hp : m.lookup u.kind u.key with
    | none =>
      rw [update_store_of_absent m u hp] at hs
      exact h k s ((hl m k s).2 hs)
    | some v =>
      rw [lookup_update_of_present m u (by rw [hp]; rfl)] at hs
      split at hs
      · rename_i hk
        cases u <;> simp only [UpdateCall.kind, reduceCtorEq, false_and] at hk
        simp only [UpdateCall.value, Option.some.injEq, Value.subscriptions.injEq] at hs
        subst hs
        exact hk.2.symm
      · exact h k s ((hl m k s).2 hs)

theorem ownIds_run (calls : List StoreCall) (m : MemoryStore) (h : OwnIds m) :
    OwnIds (m.run calls) := by
  induction calls generalizing m with
  | nil => exact h
  | cons c rest ih => exact ih (m.after c) (ownIds_after m c h)

/-- C21. In every store: DeleteSubscription(id) returns ErrNotFound and leaves
the store as it is when no subscription is held under `id`; otherwise it
returns nil, GetSubscription(id) then returns ErrNotFound, ListSubscriptions
and MatchSubscriptions then return exactly the subscriptions held under the
other keys (those of them that match, for MatchSubscriptions), and what every
map holds under every other key is as before. In every store reached from the
empty store by calls of the Store interface each subscription is held under
its own identifier, so there the deleted subscription is no longer returned
by ListSubscriptions or MatchSubscriptions. -/
theorem delete_subscription_removes_one (m : MemoryStore) (id : String) :
    (m.subscriptions.get? id = none →
      (m.DeleteSubscription id).1 = some Error.ErrNotFound ∧
      (m.DeleteSubscription id).2 = m) ∧
    (∀ d, m.subscriptions.get? id = some d →
      (m.DeleteSubscription id).1 = none ∧
      ((m.DeleteSubscription id).2.GetSubscription id).2 = some Error.ErrNotFound ∧
      (∀ s, s ∈ (m.DeleteSubscription id).2.ListSubscriptions ↔
        ∃ k, k ≠ id ∧ m.subscriptions.get? k = some s) ∧
      (∀ rt et s, s ∈ (m.DeleteSubscription id).2.MatchSubscriptions rt et ↔
        s ∈ m.MatchSubscriptions rt et ∧ ∃ k, k ≠ id ∧ m.subscriptions.get? k = some s) ∧
      (∀ kd k, ¬ (kd = Kind.subscriptions ∧ k = id) →
        (m.DeleteSubscription id).2.lookup kd k = m.lookup kd k) ∧
      (OwnIds m → d ∉ (m.DeleteSubscription id).2.ListSubscriptions ∧
        ∀ rt et, d ∉ (m.DeleteSubscription id).2.MatchSubscriptions rt et)) ∧
    (∀ calls, OwnIds (NewMemoryStore.run calls)) := by
  refine ⟨?_, ?_, ?_⟩
  · intro h
    simp [MemoryStore.DeleteSubscription, GoMap.contains, h]
  · intro d hd
    have hsub : (m.DeleteSubscription id).2.subscriptions = m.subscriptions.delete id := by
      simp [MemoryStore.DeleteSubscription, GoMap.contains, hd]
    have hlist : ∀ s, s ∈ (m.DeleteSubscription id).2.ListSubscriptions ↔
        ∃ k, k ≠ id ∧ m.subscriptions.get? k = some s := by
      intro s
      unfold MemoryStore.ListSubscriptions
      rw [mem_collect_iff, hsub]
      constructor
      · rintro ⟨k, hk, _⟩
        rw [GoMap.get?_delete] at hk
        split at hk
        · cases hk
        · rename_i hne
          exact ⟨k, hne, hk⟩
      · rintro ⟨k, hne, hk⟩
        exact ⟨k, by rw [GoMap.get?_delete, if_neg hne]; exact hk, rfl⟩
    have hmatch : ∀ rt et s, s ∈ (m.DeleteSubscription id).2.MatchSubscriptions rt et ↔
        s ∈ m.MatchSubscriptions rt et ∧ ∃ k, k ≠ id ∧ m.subscriptions.get? k = some s := by
      intro rt et s
      unfold MemoryStore.MatchSubscriptions
      rw [mem_collect_iff, mem_collect_iff, hsub]
      constructor
      · rintro ⟨k, hk, hc⟩
        rw [GoMap.get?_delete] at hk
        split at hk
        · cases hk
        · rename_i hne
          exact ⟨⟨k, hk, hc⟩, k, hne, hk⟩
      · rintro ⟨⟨k0, _, hc⟩, k, hne, hk⟩
        exact ⟨k, by rw [GoMap.get?_delete, if_neg hne]; exact hk, hc⟩
    refine ⟨by simp [MemoryStore.DeleteSubscription, GoMap.contains, hd], ?_, hlist, hmatch,
      ?_, ?_⟩
    · simp [MemoryStore.GetSubscription, hsub, GoMap.get?_delete]
    · intro kd k hne
      rw [lookup_delete_subscription, if_neg hne]
    · intro hown
      have hid : d.ID = id := hown id d hd
      have hno : ¬ ∃ k, k ≠ id ∧ m.subscriptions.get? k = some d := by
        rintro ⟨k, hne, hk⟩
        exact hne ((hown k d hk).symm.trans hid)
      exact ⟨fun hmem => hno ((hlist d).1 hmem),
        fun rt et hmem => hno ((hmatch rt et d).1 hmem).2⟩
  · intro calls
    exact ownIds_run calls NewMemoryStore (fun k s h => by simp [NewMemoryStore, GoMap.get?, GoMap.empty] at h)

/-! ## The content-type middleware -/

/-- C28. EnforceContentType on every request: it writes 415 Unsupported Media
Type and does not call the next handler exactly when the method is POST, PATCH
or PUT and the Content-Type header is non-empty and starts with neither
"application/vnd.api+json" nor "application/json"; in every other case it
writes nothing itself and calls the next handler exactly once, with the
request as it came. -/
theorem enforce_content_type_rejects_iff (r : Request) :
    (jsonapi.EnforceContentType r =
        { written := some (415, "Unsupported Media Type",
            "Content-Type must be application/vnd.api+json"), passed := [] } ↔
      ((r.Method = "POST" ∨ r.Method = "PATCH" ∨ r.Method = "PUT") ∧ r.ContentType ≠ "" ∧
        strings.HasPrefix r.ContentType "application/vnd.api+json" = false ∧
        strings.HasPrefix r.ContentType "application/json" = false)) ∧
    (¬ ((r.Method = "POST" ∨ r.Method = "PATCH" ∨ r.Method = "PUT") ∧ r.ContentType ≠ "" ∧
        strings.HasPrefix r.ContentType "application/vnd.api+json" = false ∧
        strings.HasPrefix r.ContentType "application/json" = false) →
      jsonapi.EnforceContentType r = { written := none, passed := [r] }) := by
  by_cases hm : r.Method = "POST" ∨ r.Method = "PATCH" ∨ r.Method = "PUT"
  · by_cases hc : r.ContentType ≠ "" ∧
        strings.HasPrefix r.ContentType "application/vnd.api+json" = false ∧
        strings.HasPrefix r.ContentType "application/json" = false
    · have h1 : jsonapi.EnforceContentType r =
          { written := some (415, "Unsupported Media Type",
              "Content-Type must be application/vnd.api+json"), passed := [] } := by
        simp [jsonapi.EnforceContentType, hm, hc.1, hc.2.1, hc.2.2, jsonapi.ContentType]
      exact ⟨⟨fun _ => ⟨hm, hc⟩, fun _ => h1⟩, fun hn => absurd ⟨hm, hc⟩ hn⟩
    · have h2 : jsonapi.EnforceContentType r = { written := none, passed := [r] } := by
        have hc2 : ¬ (r.ContentType ≠ "" ∧
            (!strings.HasPrefix r.ContentType jsonapi.ContentType) = true ∧
            (!strings.HasPrefix r.ContentType "application/json") = true) := by
          intro h
          apply hc
          simpa [jsonapi.ContentType] using h
        simp only [jsonapi.EnforceContentType, hm, if_true, hc2, if_false]
      refine ⟨⟨fun h => ?_, fun h => absurd h.2 hc⟩, fun _ => h2⟩
      rw [h2] at h
      simp at h
  · have h2 : jsonapi.EnforceContentType r = { written := none, passed := [r] } := by
      simp only [jsonapi.EnforceContentType, hm, if_false]
    refine ⟨⟨fun h => ?_, fun h => absurd h.1 hm⟩, fun _ => h2⟩
    rw [h2] at h
    simp at h

/-! ## Relationships of a payment -/

theorem foldl_set_enumFrom (rt : String) (ids : List String) (pre : List RelationshipData)
    (tail : List RelationshipData) (htail : tail.length = ids.length) :
    (ids.enumFrom pre.length).foldl
        (fun data e => data.set e.1 { Typ := rt, ID := e.2 }) (pre ++ tail)
      = pre ++ ids.map (fun id => ({ Typ := rt, ID := id } : RelationshipData)) := by
  induction ids generalizing pre tail with
  | nil =>
    have : tail = [] := List.length_eq_zero.mp htail
    simp [this]
  | cons id rest ih =>
    cases tail with
    | nil => simp at htail
    | cons t ts =>
      simp only [List.enumFrom_cons, List.foldl_cons, List.map_cons]
      have hset : (pre ++ t :: ts).set pre.length { Typ := rt, ID := id }
          = (pre ++ [({ Typ := rt, ID := id } : RelationshipData)]) ++ ts := by
        simp [List.set_append]
      rw [hset]
      have hlen : pre.length + 1 = (pre ++ [({ Typ := rt, ID := id } : RelationshipData)]).length := by
        simp
      rw [hlen, ih _ ts (by simpa using htail)]
      simp

/-- The loop that fills `data` leaves one entry per listed record, in order,
with the resource type and the identifier of the record. -/
theorem fillData_eq_map (rt : String) (ids : List String) :
    fillData rt ids = ids.map (fun id => ({ Typ := rt, ID := id } : RelationshipData)) := by
  have h := foldl_set_enumFrom rt ids [] (List.replicate ids.length default) (by simp)
  simpa [fillData, List.enum] using h

theorem relationshipOf_eq (rt : String) (ids : List String) :
    relationshipOf rt ids =
      if ids = [] then none
      else some { Data := ids.map (fun id => ({ Typ := rt, ID := id } : RelationshipData)) } := by
  unfold relationshipOf
  cases ids with
  | nil => rfl
  | cons a t => simp [fillData_eq_map]

/-- C26. For every store and every existing payment `p`: GET on `p` answers 200
with `p` and the relationships built from what the store lists under `p`. For
each child kind (submissions, admissions, returns, recalls, reversals) the
relationship has exactly one (type, id) entry per listed child, in order, with
the resource type of the kind and the identifier of the child; a kind with no
listed child has no relationship; and `relationships` is absent altogether
exactly when no kind lists a child. -/
theorem payment_relationships_mirror_lists (m : MemoryStore) (id : String) (p : Payment)
    (hp : m.GetPayment id = (p, none)) :
    PaymentHandler.Get m id
      = .OK { p with Relationships := PaymentHandler.buildRelationships m id } ∧
    (PaymentHandler.buildRelationships m id = none ↔
      (m.ListPaymentSubmissions id = [] ∧ m.ListPaymentAdmissions id = [] ∧
        m.ListReturns id = [] ∧ m.ListRecalls id = [] ∧ m.ListReversals id = [])) ∧
    (∀ rel, PaymentHandler.buildRelationships m id = some rel →
      rel.PaymentSubmissions =
        (if m.ListPaymentSubmissions id = [] then none
         else some ⟨(m.ListPaymentSubmissions id).map (fun s => ⟨"payment_submissions", s.ID⟩)⟩) ∧
      rel.PaymentAdmissions =
        (if m.ListPaymentAdmissions id = [] then none
         else some ⟨(m.ListPaymentAdmissions id).map (fun a => ⟨"payment_admissions", a.ID⟩)⟩) ∧
      rel.PaymentReturns =
        (if m.ListReturns id = [] then none
         else some ⟨(m.ListReturns id).map (fun x => ⟨"return_payments", x.ID⟩)⟩) ∧
      rel.PaymentRecalls =
        (if m.ListRecalls id = [] then none
         else some ⟨(m.ListRecalls id).map (fun x => ⟨"recalls", x.ID⟩)⟩) ∧
      rel.PaymentReversals =
        (if m.ListReversals id = [] then none
         else some ⟨(m.ListReversals id).map (fun x => ⟨"reversals", x.ID⟩)⟩)) := by
  refine ⟨by simp [PaymentHandler.Get, hp], ?_, ?_⟩
  · simp only [PaymentHandler.buildRelationships, relationshipOf_eq, List.map_eq_nil_iff]
    by_cases h1 : m.ListPaymentSubmissions id = [] <;>
    by_cases h2 : m.ListPaymentAdmissions id = [] <;>
    by_cases h3 : m.ListReturns id = [] <;>
    by_cases h4 : m.ListRecalls id = [] <;>
    by_cases h5 : m.ListReversals id = [] <;>
    simp [h1, h2, h3, h4, h5]
  · intro rel hrel
    simp only [PaymentHandler.buildRelationships, Option.ite_none_left_eq_some,
      Option.some.injEq] at hrel
    obtain ⟨_, hrel⟩ := hrel
    subst hrel
    simp only [relationshipOf_eq, ResourceTypePaymentSubmission, ResourceTypePaymentAdmission,
      ResourceTypeReturnPayment, ResourceTypeRecall, ResourceTypeReversal, List.map_map,
      List.map_eq_nil_iff]
    exact ⟨rfl, rfl, rfl, rfl, rfl⟩

/-- The relationships of `TestPaymentRelationships`: payment `p1` with the
submission `s1`. -/
theorem payment_relationships_mirror_lists_witness :
    PaymentHandler.Get notifyScenario.store "p1"
      = .OK { newPayment "p1" 0 with
          Relationships := PaymentHandler.buildRelationships notifyScenario.store "p1" } ∧
    (PaymentHandler.buildRelationships notifyScenario.store "p1" = none ↔
      (notifyScenario.store.ListPaymentSubmissions "p1" = [] ∧
        notifyScenario.store.ListPaymentAdmissions "p1" = [] ∧
        notifyScenario.store.ListReturns "p1" = [] ∧ notifyScenario.store.ListRecalls "p1" = [] ∧
        notifyScenario.store.ListReversals "p1" = [])) :=
  ⟨(payment_relationships_mirror_lists notifyScenario.store "p1" (newPayment "p1" 0)
      (by decide)).1,
   (payment_relationships_mirror_lists notifyScenario.store "p1" (newPayment "p1" 0)
      (by decide)).2.1⟩

/-! ## PATCH on a subscription and on an admission task -/

theorem getSubscription_of_ok (m : MemoryStore) (id : String) (s : Subscription)
    (h : m.GetSubscription id = (s, none)) : m.subscriptions.get? id = some s := by
  unfold MemoryStore.GetSubscription at h
  cases hg : m.subscriptions.get? id with
  | none => rw [hg] at h; simp at h
  | some x =>
    rw [hg] at h
    simp only [Prod.mk.injEq, and_true] at h
    rw [h]

/-- The value of `x++` below the largest `int`. -/
theorem intInc_of_lt (x : Int) (hlo : -(2 ^ 63) ≤ x) (hhi : x < 2 ^ 63 - 1) :
    intInc x = x + 1 := by
  unfold intInc
  norm_num at hlo hhi ⊢
  omega

theorem patched_fields (s patch : Subscription) (now : Time) :
    (SubscriptionHandler.patched s patch now).ID = s.ID ∧
    (SubscriptionHandler.patched s patch now).Attributes.CallbackURI =
      (if patch.Attributes.CallbackURI ≠ "" then patch.Attributes.CallbackURI
       else s.Attributes.CallbackURI) ∧
    (SubscriptionHandler.patched s patch now).Attributes.EventType =
      (if patch.Attributes.EventType ≠ "" then patch.Attributes.EventType
       else s.Attributes.EventType) ∧
    (SubscriptionHandler.patched s patch now).Attributes.RecordType =
      (if patch.Attributes.RecordType ≠ "" then patch.Attributes.RecordType
       else s.Attributes.RecordType) ∧
    (SubscriptionHandler.patched s patch now).Attributes.IsActive = patch.Attributes.IsActive ∧
    (SubscriptionHandler.patched s patch now).Version = intInc s.Version := by
  unfold SubscriptionHandler.patched
  refine ⟨?_, ?_, ?_, ?_, ?_, ?_⟩ <;> simp only [] <;> split_ifs <;> rfl

/-- What `SubscriptionHandler.Patch` does on a subscription stored under its own
identifier, for a body that decodes: it answers 200 with the record it has
stored under the identifier, every other key is as before, and the fields of the
record are as the assignments of the handler leave them. -/
theorem subscription_patch_ok (w : World) (id : String) (s patch : Subscription)
    (hget : w.store.GetSubscription id = (s, none)) (hid : s.ID = id) :
    ∃ s2, SubscriptionHandler.Patch id (.ok patch) w
        = (.OK s2, { w with store :=
            { w.store with subscriptions := w.store.subscriptions.set id s2 } }) ∧
      s2.ID = id ∧
      s2.Attributes.CallbackURI =
        (if patch.Attributes.CallbackURI ≠ "" then patch.Attributes.CallbackURI
         else s.Attributes.CallbackURI) ∧
      s2.Attributes.EventType =
        (if patch.Attributes.EventType ≠ "" then patch.Attributes.EventType
         else s.Attributes.EventType) ∧
      s2.Attributes.RecordType =
        (if patch.Attributes.RecordType ≠ "" then patch.Attributes.RecordType
         else s.Attributes.RecordType) ∧
      s2.Attributes.IsActive = patch.Attributes.IsActive ∧
      s2.Version = intInc s.Version := by
  have hs := getSubscription_of_ok _ _ _ hget
  obtain ⟨h1, h2, h3, h4, h5, h6⟩ := patched_fields s patch w.clock
  refine ⟨SubscriptionHandler.patched s patch w.clock, ?_, h1.trans hid, h2, h3, h4, h5, h6⟩
  subst hid
  simp [SubscriptionHandler.Patch, hget, MemoryStore.UpdateSubscription, GoMap.contains, h1, hs]

/-- C27. For every PATCH on a subscription stored under its identifier whose
body carries no `is_active` member (whatever else it carries): the handler
answers 200 and the stored subscription is then inactive, whatever it was
before, and is returned by no MatchSubscriptions call; callback_uri, event_type
and record_type keep their stored values where the body leaves them out or
empty. The claim expects an active subscription to stay active. -/
theorem patch_without_is_active_deactivates (w : World) (id : String) (s : Subscription)
    (j : SubscriptionAttributesJSON)
    (hget : w.store.GetSubscription id = (s, none)) (hid : s.ID = id)
    (hj : j.is_active = none) :
    ∃ s2, (SubscriptionHandler.Patch id (.ok j.decode) w).1 = .OK s2 ∧
      (SubscriptionHandler.Patch id (.ok j.decode) w).2.store.GetSubscription id = (s2, none) ∧
      s2.Attributes.IsActive = false ∧
      (∀ recordType eventType,
        s2 ∉ (SubscriptionHandler.Patch id (.ok j.decode) w).2.store.MatchSubscriptions
          recordType eventType) ∧
      (j.callback_uri.getD "" = "" → s2.Attributes.CallbackURI = s.Attributes.CallbackURI) ∧
      (j.event_type.getD "" = "" → s2.Attributes.EventType = s.Attributes.EventType) ∧
      (j.record_type.getD "" = "" → s2.Attributes.RecordType = s.Attributes.RecordType) := by
  obtain ⟨s2, heq, _, hc, he, hr, ha, _⟩ := subscription_patch_ok w id s j.decode hget hid
  have hact : s2.Attributes.IsActive = false := by
    rw [ha]; simp [SubscriptionAttributesJSON.decode, hj]
  refine ⟨s2, by rw [heq], ?_, hact, ?_, ?_, ?_, ?_⟩
  · rw [heq]
    simp [MemoryStore.GetSubscription, GoMap.get?_set_self]
  · intro recordType eventType hmem
    have h := ((matchSubscriptions_exact _ recordType eventType).1 s2).mp hmem
    rw [hact] at h
    exact absurd h.2.1 (by simp)
  · intro h0
    rw [hc]
    simp [SubscriptionAttributesJSON.decode, h0]
  · intro h0
    rw [he]
    simp [SubscriptionAttributesJSON.decode, h0]
  · intro h0
    rw [hr]
    simp [SubscriptionAttributesJSON.decode, h0]

/-- The subscription `sub1` that the handler has created is active and matched;
after a PATCH whose body is `{"data":{"attributes":{"callback_uri":"http://example.com/webhook2"}}}`
it is inactive and no longer matched. -/
theorem patch_without_is_active_deactivates_witness :
    (subscriptionScenario.store.MatchSubscriptions "payment_submissions" "updated").map
        (fun s => (s.ID, s.Attributes.IsActive)) = [("sub1", true)] ∧
    (SubscriptionHandler.Patch "sub1"
        (.ok (SubscriptionAttributesJSON.decode
          ⟨some "http://example.com/webhook2", none, none, none⟩))
        subscriptionScenario).2.store.MatchSubscriptions "payment_submissions" "updated" = [] ∧
    ∃ s2, (SubscriptionHandler.Patch "sub1"
        (.ok (SubscriptionAttributesJSON.decode
          ⟨some "http://example.com/webhook2", none, none, none⟩)) subscriptionScenario).1
          = .OK s2 ∧
      s2.Attributes.IsActive = false :=
  ⟨by decide, by decide,
   (patch_without_is_active_deactivates subscriptionScenario "sub1"
      (subscriptionScenario.store.GetSubscription "sub1").1
      ⟨some "http://example.com/webhook2", none, none, none⟩ (by decide) (by decide) rfl).elim
    (fun s2 h => ⟨s2, h.1, h.2.2.1⟩)⟩

/-! ## Versions -/

theorem version_withStatus (v : Value) (a : String) (t : Time) :
    (v.withStatus a t).version = v.version := by
  cases v <;> rfl

/-- C23, counterexample. UpdatePayment on a store that holds payment `p1` at
version 5, with a record of version 0, returns nil and the stored version is
then 0. And through the handlers: a subscription created from a body with
version 9223372036854775807 is stored at that version, and one PATCH on it
answers 200 and stores version -9223372036854775808. -/
theorem update_can_lower_version :
    (versionFiveStore.GetPayment "p1").1.Version = 5 ∧
    (versionFiveStore.UpdatePayment (newPayment "p1" 0)).1 = none ∧
    ((versionFiveStore.UpdatePayment (newPayment "p1" 0)).2.GetPayment "p1").1.Version = 0 ∧
    (maxVersionScenario.store.GetSubscription "sub1").1.Version = 9223372036854775807 ∧
    (SubscriptionHandler.Patch "sub1" (.ok default) maxVersionScenario).1.status = 200 ∧
    ((SubscriptionHandler.Patch "sub1" (.ok default) maxVersionScenario).2.store.GetSubscription
      "sub1").1.Version = -9223372036854775808 := by
  refine ⟨by decide, by decide, by decide, by decide, by decide, by decide⟩

theorem getAdmissionTask_of_ok (m : MemoryStore) (p a tid : String) (t : AdmissionTask)
    (h : m.GetAdmissionTask p a tid = (t, none)) :
    m.admissionTasks.get? (key3 p a tid) = some t := by
  unfold MemoryStore.GetAdmissionTask at h
  cases hg : m.admissionTasks.get? (key3 p a tid) with
  | none => rw [hg] at h; simp at h
  | some x =>
    rw [hg] at h
    simp only [Prod.mk.injEq, and_true] at h
    rw [h]

theorem patchedTask_fields (t patch : AdmissionTask) (now : Time) :
    (PaymentAdmissionHandler.patchedTask t patch now).ID = t.ID ∧
    (PaymentAdmissionHandler.patchedTask t patch now).Version = t.Version := by
  unfold PaymentAdmissionHandler.patchedTask
  refine ⟨?_, ?_⟩ <;> simp only [] <;> split_ifs <;> rfl

/-- What `PatchTask` does on a task stored under its own identifier, for a body
that decodes: it answers 200 with the record it has stored, whose version is the
version stored before. -/
theorem patchTask_ok (w : World) (p a tid : String) (t patch : AdmissionTask)
    (hget : w.store.GetAdmissionTask p a tid = (t, none)) (hid : t.ID = tid) :
    ∃ t2, PaymentAdmissionHandler.PatchTask p a tid (.ok patch) w
        = (.OK t2, { w with store :=
            { w.store with admissionTasks := w.store.admissionTasks.set (key3 p a tid) t2 } }) ∧
      t2.ID = tid ∧ t2.Version = t.Version := by
  have hs := getAdmissionTask_of_ok _ _ _ _ _ hget
  obtain ⟨h1, h2⟩ := patchedTask_fields t patch w.clock
  refine ⟨PaymentAdmissionHandler.patchedTask t patch w.clock, ?_, h1.trans hid, h2⟩
  subst hid
  have hf : PaymentAdmissionHandler.fetchTask p a t.ID w = .ok (t, w.store) := by
    simp [PaymentAdmissionHandler.fetchTask, hget]
  simp [PaymentAdmissionHandler.PatchTask, hf, MemoryStore.UpdateAdmissionTask, GoMap.contains,
    h1, hs]

/-- C23, amended. The updates the server itself makes keep or raise the stored
version. The updater of a transition, on a store that holds the record under its
own identifier, returns nil and stores the version that was stored before. PATCH
on an admission task that is stored under its own identifier answers 200 and
stores the version that was stored before. PATCH on a subscription stored under
its own identifier answers 200 and stores the version incremented as a Go `int`:
the stored version plus one, whenever the stored version is below the largest
`int`, 2^63 - 1. -/
theorem server_updates_keep_or_raise_version :
    (∀ (ref : ChainedRef) (s : String) (w : World) (v : Value),
      w.store.lookup ref.getCall.kind ref.getCall.key = some v → v.id = ref.id →
      (ref.updater s w).1 = none ∧
      ∃ v2, (ref.updater s w).2.store.lookup ref.getCall.kind ref.getCall.key = some v2 ∧
        v2.version = v.version) ∧
    (∀ (w : World) (p a tid : String) (t patch : AdmissionTask),
      w.store.GetAdmissionTask p a tid = (t, none) → t.ID = tid →
      ∃ t2, (PaymentAdmissionHandler.PatchTask p a tid (.ok patch) w).1 = .OK t2 ∧
        (PaymentAdmissionHandler.PatchTask p a tid (.ok patch) w).2.store.GetAdmissionTask p a tid
          = (t2, none) ∧
        t2.Version = t.Version) ∧
    (∀ (w : World) (id : String) (s patch : Subscription),
      w.store.GetSubscription id = (s, none) → s.ID = id →
      ∃ s2, (SubscriptionHandler.Patch id (.ok patch) w).1 = .OK s2 ∧
        (SubscriptionHandler.Patch id (.ok patch) w).2.store.GetSubscription id = (s2, none) ∧
        s2.Version = intInc s.Version ∧
        (-(2 ^ 63) ≤ s.Version → s.Version < 2 ^ 63 - 1 → s2.Version = s.Version + 1)) := by
  refine ⟨?_, ?_, ?_⟩
  · intro ref s w v hv hid
    obtain ⟨h1, _, _, h4⟩ := updater_step ref s w v hv hid
    exact ⟨h1, _, h4, version_withStatus v s w.clock⟩
  · intro w p a tid t patch hget hid
    obtain ⟨t2, heq, _, hver⟩ := patchTask_ok w p a tid t patch hget hid
    refine ⟨t2, by rw [heq], ?_, hver⟩
    rw [heq]
    simp [MemoryStore.GetAdmissionTask, GoMap.get?_set_self]
  · intro w id s patch hget hid
    obtain ⟨s2, heq, _, _, _, _, _, hver⟩ := subscription_patch_ok w id s patch hget hid
    refine ⟨s2, by rw [heq], ?_, hver, fun hlo hhi => by rw [hver, intInc_of_lt s.Version hlo hhi]⟩
    rw [heq]
    simp [MemoryStore.GetSubscription, GoMap.get?_set_self]

/-- The PATCH of `TestSubscriptionCRUD` on `sub1`, stored at version 0: the
stored version is then 1. -/
theorem server_updates_keep_or_raise_version_witness :
    ∃ s2, (SubscriptionHandler.Patch "sub1" (.ok default) subscriptionScenario).1 = .OK s2 ∧
      (SubscriptionHandler.Patch "sub1" (.ok default) subscriptionScenario).2.store.GetSubscription
        "sub1" = (s2, none) ∧
      s2.Version = 1 :=
  (server_updates_keep_or_raise_version.2.2 subscriptionScenario "sub1"
    (subscriptionScenario.store.GetSubscription "sub1").1 default (by decide) (by decide)).elim
    (fun s2 h => ⟨s2, h.1, h.2.1, (h.2.2.2 (by decide) (by decide)).trans (by decide)⟩)

/-! ## Create requests on a child whose parent is missing -/

/-- C25. For every world and every create request on a child resource
(submission, admission, return, recall, reversal, recall decision, or a
submission nested under a return, recall, recall decision or reversal),
whatever its body, malformed or well-formed: when the store does not hold the
parent, the handler answers 404, creates nothing, leaves the world, and so the
store, as it was, and starts no transition. -/
theorem child_create_without_parent_is_404 (uuid : String) (fd : Time → String)
    (r : ChildCreate) (w : World)
    (h : w.store.lookup r.parent.kind r.parent.key = none) :
    (handleChildCreate uuid fd r w).status = 404 ∧
    (handleChildCreate uuid fd r w).created = none ∧
    (handleChildCreate uuid fd r w).world = w ∧
    (handleChildCreate uuid fd r w).started.isNone = true := by
  cases r with
  | chained r =>
    cases r <;>
      simp only [ChildCreate.parent, ChainedCreate.parent, GetCall.kind, GetCall.key,
        MemoryStore.lookup, Option.map_eq_none'] at h <;>
      simp [handleChildCreate, handleCreate, Handled.any, PaymentSubmissionHandler.Create,
        PaymentAdmissionHandler.Create, ReturnSubmissionHandler.Create,
        RecallSubmissionHandler.Create, RecallDecisionSubmissionHandler.Create,
        ReversalSubmissionHandler.Create, MemoryStore.GetPayment, MemoryStore.GetReturn,
        MemoryStore.GetRecall, MemoryStore.GetRecallDecision, MemoryStore.GetReversal, h,
        jsonapi.NotFound, Response.status]
  | paymentReturn paymentID body =>
    simp only [ChildCreate.parent, GetCall.kind, GetCall.key, MemoryStore.lookup,
      Option.map_eq_none'] at h
    simp [handleChildCreate, Handled.any, PaymentReturnHandler.Create, MemoryStore.GetPayment, h,
      jsonapi.NotFound, Response.status]
  | paymentRecall paymentID body =>
    simp only [ChildCreate.parent, GetCall.kind, GetCall.key, MemoryStore.lookup,
      Option.map_eq_none'] at h
    simp [handleChildCreate, Handled.any, PaymentRecallHandler.Create, MemoryStore.GetPayment, h,
      jsonapi.NotFound, Response.status]
  | paymentReversal paymentID body =>
    simp only [ChildCreate.parent, GetCall.kind, GetCall.key, MemoryStore.lookup,
      Option.map_eq_none'] at h
    simp [handleChildCreate, Handled.any, PaymentReversalHandler.Create, MemoryStore.GetPayment, h,
      jsonapi.NotFound, Response.status]
  | recallDecision paymentID recallID body =>
    simp only [ChildCreate.parent, GetCall.kind, GetCall.key, MemoryStore.lookup,
      Option.map_eq_none'] at h
    simp [handleChildCreate, Handled.any, RecallDecisionHandler.Create, MemoryStore.GetRecall, h,
      jsonapi.NotFound, Response.status]

/-- The request of `TestSubmissionRequiresPayment`: a submission under the
payment `nonexistent` on an empty store. -/
theorem child_create_without_parent_is_404_witness :
    (handleChildCreate "generated" (fun _ => "2026-01-01")
      (.chained (.paymentSubmission "nonexistent" (.ok (newSubmission "" "")))) emptyWorld).status
      = 404 ∧
    (handleChildCreate "generated" (fun _ => "2026-01-01")
      (.chained (.paymentSubmission "nonexistent" (.ok (newSubmission "" "")))) emptyWorld).world
      = emptyWorld :=
  ⟨(child_create_without_parent_is_404 "generated" (fun _ => "2026-01-01")
      (.chained (.paymentSubmission "nonexistent" (.ok (newSubmission "" "")))) emptyWorld
      (by decide)).1,
   (child_create_without_parent_is_404 "generated" (fun _ => "2026-01-01")
      (.chained (.paymentSubmission "nonexistent" (.ok (newSubmission "" "")))) emptyWorld
      (by decide)).2.2.1⟩

/-! ## The handlers of the chained kinds, by cases -/

theorem create_err_ne_notFound (m : MemoryStore) (c : CreateCall) :
    (m.create c).1 ≠ some Error.ErrNotFound := by
  rw [create_err]
  split <;> simp

/-- What the Create handler of a chained kind does, in every world and for every
request: 404 when the parent is missing; else 400 when the body does not decode;
else it calls the Create method of the store with the record it has built, and
answers 409 when the call returns ErrConflict, and otherwise, the call having
returned nil, 201 with the record, having started a transition. In the first
three cases the world is as before and no transition is started. -/
theorem handleCreate_cases (uuid : String) (fd : Time → String) (r : ChainedCreate) (w : World) :
    (w.store.lookup r.parent.kind r.parent.key = none ∧
      (handleCreate uuid fd r w).status = 404 ∧ (handleCreate uuid fd r w).created = none ∧
      (handleCreate uuid fd r w).started.isNone = true ∧ (handleCreate uuid fd r w).world = w) ∨
    ((w.store.lookup r.parent.kind r.parent.key).isSome = true ∧
      r.createCall uuid fd w.clock = none ∧
      (handleCreate uuid fd r w).status = 400 ∧ (handleCreate uuid fd r w).created = none ∧
      (handleCreate uuid fd r w).started.isNone = true ∧ (handleCreate uuid fd r w).world = w) ∨
    (∃ c, (w.store.lookup r.parent.kind r.parent.key).isSome = true ∧
      r.createCall uuid fd w.clock = some c ∧ (w.store.create c).1 = some ErrConflict ∧
      (handleCreate uuid fd r w).status = 409 ∧ (handleCreate uuid fd r w).created = none ∧
      (handleCreate uuid fd r w).started.isNone = true ∧ (handleCreate uuid fd r w).world = w) ∨
    (∃ c, (w.store.lookup r.parent.kind r.parent.key).isSome = true ∧
      r.createCall uuid fd w.clock = some c ∧ (w.store.create c).1 = none ∧
      (handleCreate uuid fd r w).status = 201 ∧
      (handleCreate uuid fd r w).created = some c.value ∧
      (handleCreate uuid fd r w).started.isSome = true ∧
      (handleCreate uuid fd r w).world = { w with store := (w.store.create c).2 } ∧
      (c.kind, c.key) = (r.ref c.value.id).slot) := by
  cases r with
  | paymentSubmission paymentID body =>
    rcases hl : w.store.lookup (ChainedCreate.paymentSubmission paymentID body).parent.kind
        (ChainedCreate.paymentSubmission paymentID body).parent.key with _ | pv
    · left
      simp only [ChainedCreate.parent, GetCall.kind, GetCall.key, MemoryStore.lookup,
        Option.map_eq_none'] at hl
      simp [handleCreate, Handled.any, PaymentSubmissionHandler.Create, MemoryStore.GetPayment, hl, jsonapi.NotFound,
        Response.status]
    · right
      simp only [ChainedCreate.parent, GetCall.kind, GetCall.key, MemoryStore.lookup,
        Option.map_eq_some'] at hl
      obtain ⟨x, hx, _⟩ := hl
      cases body with
      | error msg =>
        left
        simp [handleCreate, Handled.any, PaymentSubmissionHandler.Create, MemoryStore.GetPayment, hx, jsonapi.BadRequest,
          Response.status, ChainedCreate.createCall]
      | ok data =>
        right
        have hne := create_err_ne_notFound w.store (.CreatePaymentSubmission paymentID
          (PaymentSubmissionHandler.record uuid fd w.clock data))
        simp only [MemoryStore.create] at hne
        rcases hc : w.store.CreatePaymentSubmission paymentID (PaymentSubmissionHandler.record uuid fd w.clock data) with ⟨_ | err, st⟩
        · right
          refine ⟨_, by simp, rfl, ?_⟩
          simp [handleCreate, Handled.any, paymentSubmission_create_eq, MemoryStore.GetPayment, hx, hc, Response.status,
            MemoryStore.create, CreateCall.value, CreateCall.kind, CreateCall.key,
            ChainedCreate.ref, ChainedRef.slot, ChainedRef.getCall, GetCall.kind, GetCall.key,
            Value.id]
        · left
          rw [hc] at hne
          cases err with
          | ErrNotFound => simp at hne
          | ErrConflict =>
            refine ⟨_, by simp, rfl, ?_⟩
            simp [handleCreate, Handled.any, paymentSubmission_create_eq, MemoryStore.GetPayment, hx, hc, Response.status,
              MemoryStore.create, jsonapi.Conflict]
  | paymentAdmission paymentID body =>
    rcases hl : w.store.lookup (ChainedCreate.paymentAdmission paymentID body).parent.kind
        (ChainedCreate.paymentAdmission paymentID body).parent.key with _ | pv
    · left
      simp only [ChainedCreate.parent, GetCall.kind, GetCall.key, MemoryStore.lookup,
        Option.map_eq_none'] at hl
      simp [handleCreate, Handled.any, PaymentAdmissionHandler.Create, MemoryStore.GetPayment, hl, jsonapi.NotFound,
        Response.status]
    · right
      simp only [ChainedCreate.parent, GetCall.kind, GetCall.key, MemoryStore.lookup,
        Option.map_eq_some'] at hl
      obtain ⟨x, hx, _⟩ := hl
      cases body with
      | error msg =>
        left
        simp [handleCreate, Handled.any, PaymentAdmissionHandler.Create, MemoryStore.GetPayment, hx, jsonapi.BadRequest,
          Response.status, ChainedCreate.createCall]
      | ok data =>
        right
        have hne := create_err_ne_notFound w.store (.CreatePaymentAdmission paymentID
          (PaymentAdmissionHandler.record uuid fd w.clock data))
        simp only [MemoryStore.create] at hne
        rcases hc : w.store.CreatePaymentAdmission paymentID (PaymentAdmissionHandler.record uuid fd w.clock data) with ⟨_ | err, st⟩
        · right
          refine ⟨_, by simp, rfl, ?_⟩
          simp [handleCreate, Handled.any, paymentAdmission_create_eq, MemoryStore.GetPayment, hx, hc, Response.status,
            MemoryStore.create, CreateCall.value, CreateCall.kind, CreateCall.key,
            ChainedCreate.ref, ChainedRef.slot, ChainedRef.getCall, GetCall.kind, GetCall.key,
            Value.id]
        · left
          rw [hc] at hne
          cases err with
          | ErrNotFound => simp at hne
          | ErrConflict =>
            refine ⟨_, by simp, rfl, ?_⟩
            simp [handleCreate, Handled.any, paymentAdmission_create_eq, MemoryStore.GetPayment, hx, hc, Response.status,
              MemoryStore.create, jsonapi.Conflict]
  | returnSubmission paymentID returnID body =>
    rcases hl : w.store.lookup (ChainedCreate.returnSubmission paymentID returnID body).parent.kind
        (ChainedCreate.returnSubmission paymentID returnID body).parent.key with _ | pv
    · left
      simp only [ChainedCreate.parent, GetCall.kind, GetCall.key, MemoryStore.lookup,
        Option.map_eq_none'] at hl
      simp [handleCreate, Handled.any, ReturnSubmissionHandler.Create, MemoryStore.GetReturn, hl, jsonapi.NotFound,
        Response.status]
    · right
      simp only [ChainedCreate.parent, GetCall.kind, GetCall.key, MemoryStore.lookup,
        Option.map_eq_some'] at hl
      obtain ⟨x, hx, _⟩ := hl
      cases body with
      | error msg =>
        left
        simp [handleCreate, Handled.any, ReturnSubmissionHandler.Create, MemoryStore.GetReturn, hx, jsonapi.BadRequest,
          Response.status, ChainedCreate.createCall]
      | ok data =>
        right
        have hne := create_err_ne_notFound w.store (.CreateReturnSubmission paymentID returnID
          (ReturnSubmissionHandler.record uuid fd w.clock data))
        simp only [MemoryStore.create] at hne
        rcases hc : w.store.CreateReturnSubmission paymentID returnID (ReturnSubmissionHandler.record uuid fd w.clock data) with ⟨_ | err, st⟩
        · right
          refine ⟨_, by simp, rfl, ?_⟩
          simp [handleCreate, Handled.any, returnSubmission_create_eq, MemoryStore.GetReturn, hx, hc, Response.status,
            MemoryStore.create, CreateCall.value, CreateCall.kind, CreateCall.key,
            ChainedCreate.ref, ChainedRef.slot, ChainedRef.getCall, GetCall.kind, GetCall.key,
            Value.id]
        · left
          rw [hc] at hne
          cases err with
          | ErrNotFound => simp at hne
          | ErrConflict =>
            refine ⟨_, by simp, rfl, ?_⟩
            simp [handleCreate, Handled.any, returnSubmission_create_eq, MemoryStore.GetReturn, hx, hc, Response.status,
              MemoryStore.create, jsonapi.Conflict]
  | recallSubmission paymentID recallID body =>
    rcases hl : w.store.lookup (ChainedCreate.recallSubmission paymentID recallID body).parent.kind
        (ChainedCreate.recallSubmission paymentID recallID body).parent.key with _ | pv
    · left
      simp only [ChainedCreate.parent, GetCall.kind, GetCall.key, MemoryStore.lookup,
        Option.map_eq_none'] at hl
      simp [handleCreate, Handled.any, RecallSubmissionHandler.Create, MemoryStore.GetRecall, hl, jsonapi.NotFound,
        Response.status]
    · right
      simp only [ChainedCreate.parent, GetCall.kind, GetCall.key, MemoryStore.lookup,
        Option.map_eq_some'] at hl
      obtain ⟨x, hx, _⟩ := hl
      cases body with
      | error msg =>
        left
        simp [handleCreate, Handled.any, RecallSubmissionHandler.Create, MemoryStore.GetRecall, hx, jsonapi.BadRequest,
          Response.status, ChainedCreate.createCall]
      | ok data =>
        right
        have hne := create_err_ne_notFound w.store (.CreateRecallSubmission paymentID recallID
          (RecallSubmissionHandler.record uuid fd w.clock data))
        simp only [MemoryStore.create] at hne
        rcases hc : w.store.CreateRecallSubmission paymentID recallID (RecallSubmissionHandler.record uuid fd w.clock data) with ⟨_ | err, st⟩
        · right
          refine ⟨_, by simp, rfl, ?_⟩
          simp [handleCreate, Handled.any, recallSubmission_create_eq, MemoryStore.GetRecall, hx, hc, Response.status,
            MemoryStore.create, CreateCall.value, CreateCall.kind, CreateCall.key,
            ChainedCreate.ref, ChainedRef.slot, ChainedRef.getCall, GetCall.kind, GetCall.key,
            Value.id]
        · left
          rw [hc] at hne
          cases err with
          | ErrNotFound => simp at hne
          | ErrConflict =>
            refine ⟨_, by simp, rfl, ?_⟩
            simp [handleCreate, Handled.any, recallSubmission_create_eq, MemoryStore.GetRecall, hx, hc, Response.status,
              MemoryStore.create, jsonapi.Conflict]
  | recallDecisionSubmission paymentID recallID decisionID body =>
    rcases hl : w.store.lookup (ChainedCreate.recallDecisionSubmission paymentID recallID decisionID body).parent.kind
        (ChainedCreate.recallDecisionSubmission paymentID recallID decisionID body).parent.key with _ | pv
    · left
      simp only [ChainedCreate.parent, GetCall.kind, GetCall.key, MemoryStore.lookup,
        Option.map_eq_none'] at hl
      simp [handleCreate, Handled.any, RecallDecisionSubmissionHandler.Create, MemoryStore.GetRecallDecision, hl, jsonapi.NotFound,
        Response.status]
    · right
      simp only [ChainedCreate.parent, GetCall.kind, GetCall.key, MemoryStore.lookup,
        Option.map_eq_some'] at hl
      obtain ⟨x, hx, _⟩ := hl
      cases body with
      | error msg =>
        left
        simp [handleCreate, Handled.any, RecallDecisionSubmissionHandler.Create, MemoryStore.GetRecallDecision, hx, jsonapi.BadRequest,
          Response.status, ChainedCreate.createCall]
      | ok data =>
        right
        have hne := create_err_ne_notFound w.store (.CreateRecallDecisionSubmission paymentID recallID decisionID
          (RecallDecisionSubmissionHandler.record uuid fd w.clock data))
        simp only [MemoryStore.create] at hne
        rcases hc : w.store.CreateRecallDecisionSubmission paymentID recallID decisionID (RecallDecisionSubmissionHandler.record uuid fd w.clock data) with ⟨_ | err, st⟩
        · right
          refine ⟨_, by simp, rfl, ?_⟩
          simp [handleCreate, Handled.any, recallDecisionSubmission_create_eq, MemoryStore.GetRecallDecision, hx, hc, Response.status,
            MemoryStore.create, CreateCall.value, CreateCall.kind, CreateCall.key,
            ChainedCreate.ref, ChainedRef.slot, ChainedRef.getCall, GetCall.kind, GetCall.key,
            Value.id]
        · left
          rw [hc] at hne
          cases err with
          | ErrNotFound => simp at hne
          | ErrConflict =>
            refine ⟨_, by simp, rfl, ?_⟩
            simp [handleCreate, Handled.any, recallDecisionSubmission_create_eq, MemoryStore.GetRecallDecision, hx, hc, Response.status,
              MemoryStore.create, jsonapi.Conflict]
  | reversalSubmission paymentID reversalID body =>
    rcases hl : w.store.lookup (ChainedCreate.reversalSubmission paymentID reversalID body).parent.kind
        (ChainedCreate.reversalSubmission paymentID reversalID body).parent.key with _ | pv
    · left
      simp only [ChainedCreate.parent, GetCall.kind, GetCall.key, MemoryStore.lookup,
        Option.map_eq_none'] at hl
      simp [handleCreate, Handled.any, ReversalSubmissionHandler.Create, MemoryStore.GetReversal, hl, jsonapi.NotFound,
        Response.status]
    · right
      simp only [ChainedCreate.parent, GetCall.kind, GetCall.key, MemoryStore.lookup,
        Option.map_eq_some'] at hl
      obtain ⟨x, hx, _⟩ := hl
      cases body with
      | error msg =>
        left
        simp [handleCreate, Handled.any, ReversalSubmissionHandler.Create, MemoryStore.GetReversal, hx, jsonapi.BadRequest,
          Response.status, ChainedCreate.createCall]
      | ok data =>
        right
        have hne := create_err_ne_notFound w.store (.CreateReversalSubmission paymentID reversalID
          (ReversalSubmissionHandler.record uuid fd w.clock data))
        simp only [MemoryStore.create] at hne
        rcases hc : w.store.CreateReversalSubmission paymentID reversalID (ReversalSubmissionHandler.record uuid fd w.clock data) with ⟨_ | err, st⟩
        · right
          refine ⟨_, by simp, rfl, ?_⟩
          simp [handleCreate, Handled.any, reversalSubmission_create_eq, MemoryStore.GetReversal, hx, hc, Response.status,
            MemoryStore.create, CreateCall.value, CreateCall.kind, CreateCall.key,
            ChainedCreate.ref, ChainedRef.slot, ChainedRef.getCall, GetCall.kind, GetCall.key,
            Value.id]
        · left
          rw [hc] at hne
          cases err with
          | ErrNotFound => simp at hne
          | ErrConflict =>
            refine ⟨_, by simp, rfl, ?_⟩
            simp [handleCreate, Handled.any, reversalSubmission_create_eq, MemoryStore.GetReversal, hx, hc, Response.status,
              MemoryStore.create, jsonapi.Conflict]

/-! ## Runs of the server -/

theorem mainOnChange_store (a b c : String) (w : World) :
    (mainOnChange a b c w).store = w.store := by
  unfold mainOnChange
  split <;> rfl

theorem slot_ne_subscriptions (ref : ChainedRef) : ref.slot.1 ≠ Kind.subscriptions := by
  cases ref <;> simp [ChainedRef.slot, ChainedRef.getCall, GetCall.kind]

/-- A store call keeps every key of a kind other than subscriptions that is
present. -/
theorem present_after_call (m : MemoryStore) (c : StoreCall) (kd : Kind) (k : String)
    (hk : kd ≠ Kind.subscriptions) (h : (m.lookup kd k).isSome = true) :
    ((m.after c).lookup kd k).isSome = true := by
  by_cases hc : ∀ id, c ≠ StoreCall.DeleteSubscription id
  · exact present_after m c kd k hc h
  · push_neg at hc
    obtain ⟨id, rfl⟩ := hc
    rw [lookup_after_other m _ kd k (by simpa [StoreCall.kind] using hk)]
    exact h

theorem thread_step_ref (e : Engine World) (t : Thread) (w : World) :
    (t.step e w).1.ref = t.ref := by
  unfold Thread.step
  repeat' split
  all_goals rfl

/-- A step of a goroutine leaves the store as it is or is a successful Update
call, when the callback of the engine leaves the store alone. -/
theorem thread_step_store (e : Engine World)
    (hcb : ∀ f, e.onChange = some f → ∀ a b c w, (f a b c w).store = w.store)
    (t : Thread) (w : World) :
    (t.step e w).2.store = w.store ∨
      ∃ u, (t.step e w).2.store = w.store.after (.update u) := by
  unfold Thread.step
  split
  · exact Or.inl rfl
  · split
    · exact Or.inl rfl
    · split
      · split <;> exact Or.inl rfl
      · split
        · exact Or.inl rfl
        · rename_i u _
          split
          · exact Or.inl rfl
          · rename_i store2 hu
            right
            refine ⟨u, ?_⟩
            simp only [MemoryStore.after, hu]
            cases hf : e.onChange with
            | none => rfl
            | some f => simp only [hcb f hf]

theorem slots_request (e : Engine World) (fd : Time → String) (s : Sys) (uuid : String)
    (r : ChainedCreate) :
    (Sys.act e fd s (.request uuid r)).slots =
      (ServedCreate.startedSlot
        { before := s.world, uuid := uuid, request := r,
          result := handleCreate uuid fd r s.world }).toList ++ s.slots := by
  simp only [Sys.act, Sys.slots, List.filterMap_cons]
  cases h : ServedCreate.startedSlot
      { before := s.world, uuid := uuid, request := r,
        result := handleCreate uuid fd r s.world } <;> simp

theorem spawned_slots (x : ServedCreate) :
    x.spawned.map (fun t => t.ref.slot) = x.startedSlot.toList := by
  unfold ServedCreate.spawned ServedCreate.startedSlot
  split <;> simp_all

theorem toList_reverse {α : Type} (o : Option α) : o.toList.reverse = o.toList := by
  cases o <;> rfl

theorem set_map_of_get? {α β : Type} (f : α → β) (l : List α) (i : Nat) (a b : α)
    (h : l.get? i = some a) (hf : f b = f a) : (l.set i b).map f = l.map f := by
  induction l generalizing i with
  | nil => simp
  | cons x xs ih =>
    cases i with
    | zero =>
      simp only [List.get?_cons_zero, Option.some.injEq] at h
      subst h
      simp [hf]
    | succ n =>
      simp only [List.get?_cons_succ] at h
      simp [ih n h]

/-- The invariant of the runs of the server, for an action of the running
process: every record for which a
transition was started is still in the store, no two transitions were started
for one map and key, and the goroutines are those of the started transitions, in
the order they were started. -/
theorem sys_act_slots (e : Engine World)
    (hcb : ∀ f, e.onChange = some f → ∀ a b c w, (f a b c w).store = w.store)
    (fd : Time → String) (s : Sys) (a : SysAction)
    (hpres : ∀ sl ∈ s.slots,
      (s.world.store.lookup sl.1 sl.2).isSome = true ∧ sl.1 ≠ Kind.subscriptions)
    (hnd : s.slots.Nodup)
    (hthr : s.threads.map (fun t => t.ref.slot) = s.slots.reverse) :
    (∀ sl ∈ (Sys.act e fd s a).slots,
      ((Sys.act e fd s a).world.store.lookup sl.1 sl.2).isSome = true ∧
        sl.1 ≠ Kind.subscriptions) ∧
    (Sys.act e fd s a).slots.Nodup ∧
    (Sys.act e fd s a).threads.map (fun t => t.ref.slot) = (Sys.act e fd s a).slots.reverse := by
  cases a with
  | call c =>
    refine ⟨fun sl hsl => ⟨?_, (hpres sl hsl).2⟩, hnd, hthr⟩
    exact present_after_call _ c _ _ (hpres sl hsl).2 (hpres sl hsl).1
  | sleep d => exact ⟨hpres, hnd, hthr⟩
  | step i =>
    cases hg : s.threads.get? i with
    | none =>
      have : Sys.act e fd s (.step i) = s := by simp only [Sys.act, hg]
      rw [this]
      exact ⟨hpres, hnd, hthr⟩
    | some t =>
      have hst : Sys.act e fd s (.step i) =
          { s with world := (t.step e s.world).2,
                   threads := s.threads.set i (t.step e s.world).1 } := by
        simp only [Sys.act, hg]
      rw [hst]
      refine ⟨fun sl hsl => ⟨?_, (hpres sl hsl).2⟩, hnd, ?_⟩
      · have hsl2 : sl ∈ s.slots := hsl
        rcases thread_step_store e hcb t s.world with h | ⟨u, h⟩
        · simp only [h]
          exact (hpres sl hsl2).1
        · simp only [h]
          exact present_after_call _ _ _ _ (hpres sl hsl2).2 (hpres sl hsl2).1
      · have := set_map_of_get? (fun t => t.ref.slot) s.threads i t (t.step e s.world).1 hg
          (by simp only [thread_step_ref])
        simp only [this]
        exact hthr
  | request uuid r =>
    have hsl := slots_request e fd s uuid r
    have hth : (Sys.act e fd s (.request uuid r)).threads.map (fun t => t.ref.slot)
        = (Sys.act e fd s (.request uuid r)).slots.reverse := by
      rw [hsl]
      simp only [Sys.act, List.map_append, hthr, spawned_slots, List.reverse_append,
        toList_reverse]
    have hw : (Sys.act e fd s (.request uuid r)).world = (handleCreate uuid fd r s.world).world :=
      rfl
    rcases handleCreate_cases uuid fd r s.world with
      ⟨_, _, hcr, hstd, hwd⟩ | ⟨_, _, _, hcr, hstd, hwd⟩ | ⟨c, _, _, _, _, hcr, hstd, hwd⟩ |
      ⟨c, _, _, hok, _, hcr, hstd, hwd, hslot⟩
    · have hnone : ServedCreate.startedSlot
          { before := s.world, uuid := uuid, request := r,
            result := handleCreate uuid fd r s.world } = none := by
        simp [ServedCreate.startedSlot, hcr]
      rw [hnone] at hsl
      simp only [Option.toList, List.nil_append] at hsl
      rw [hsl] at hth ⊢
      rw [hw, hwd]
      exact ⟨hpres, hnd, hth⟩
    · have hnone : ServedCreate.startedSlot
          { before := s.world, uuid := uuid, request := r,
            result := handleCreate uuid fd r s.world } = none := by
        simp [ServedCreate.startedSlot, hcr]
      rw [hnone] at hsl
      simp only [Option.toList, List.nil_append] at hsl
      rw [hsl] at hth ⊢
      rw [hw, hwd]
      exact ⟨hpres, hnd, hth⟩
    · have hnone : ServedCreate.startedSlot
          { before := s.world, uuid := uuid, request := r,
            result := handleCreate uuid fd r s.world } = none := by
        simp [ServedCreate.startedSlot, hcr]
      rw [hnone] at hsl
      simp only [Option.toList, List.nil_append] at hsl
      rw [hsl] at hth ⊢
      rw [hw, hwd]
      exact ⟨hpres, hnd, hth⟩
    · obtain ⟨tr, htr⟩ := Option.isSome_iff_exists.mp hstd
      have hsome : ServedCreate.startedSlot
          { before := s.world, uuid := uuid, request := r,
            result := handleCreate uuid fd r s.world } = some (c.kind, c.key) := by
        simp [ServedCreate.startedSlot, hcr, htr, hslot]
      rw [hsome] at hsl
      simp only [Option.toList, List.singleton_append] at hsl
      have habs : s.world.store.lookup c.kind c.key = none := by
        have := create_err s.world.store c
        rw [hok] at this
        cases hl : s.world.store.lookup c.kind c.key with
        | none => rfl
        | some v => rw [hl] at this; simp at this
      have hnew : (c.kind, c.key) ∉ s.slots := by
        intro hmem
        have := (hpres _ hmem).1
        rw [habs] at this
        simp at this
      rw [hsl] at hth ⊢
      refine ⟨?_, List.nodup_cons.mpr ⟨hnew, hnd⟩, hth⟩
      intro sl hmem
      rw [hw, hwd]
      simp only [lookup_create_of_absent _ c habs]
      rcases List.mem_cons.mp hmem with rfl | hold
      · refine ⟨by simp, ?_⟩
        have := slot_ne_subscriptions (r.ref c.value.id)
        rw [← hslot] at this
        exact this
      · refine ⟨?_, (hpres sl hold).2⟩
        split
        · rfl
        · exact (hpres sl hold).1

/-- The invariant of the runs of the server: every record for which a
transition was started is still in the store, no two transitions were started
for one map and key, and the goroutines are those of the started transitions, in
the order they were started. -/
theorem sys_step_slots (e : Engine World)
    (hcb : ∀ f, e.onChange = some f → ∀ a b c w, (f a b c w).store = w.store)
    (fd : Time → String) (s : Sys) (a : SysAction)
    (hpres : ∀ sl ∈ s.slots,
      (s.world.store.lookup sl.1 sl.2).isSome = true ∧ sl.1 ≠ Kind.subscriptions)
    (hnd : s.slots.Nodup)
    (hthr : s.threads.map (fun t => t.ref.slot) = s.slots.reverse) :
    (∀ sl ∈ (Sys.step e fd s a).slots,
      ((Sys.step e fd s a).world.store.lookup sl.1 sl.2).isSome = true ∧
        sl.1 ≠ Kind.subscriptions) ∧
    (Sys.step e fd s a).slots.Nodup ∧
    (Sys.step e fd s a).threads.map (fun t => t.ref.slot) = (Sys.step e fd s a).slots.reverse := by
  unfold Sys.step
  split
  · exact ⟨hpres, hnd, hthr⟩
  · exact sys_act_slots e hcb fd s a hpres hnd hthr

theorem sys_run_slots (e : Engine World)
    (hcb : ∀ f, e.onChange = some f → ∀ a b c w, (f a b c w).store = w.store)
    (fd : Time → String) (acts : List SysAction) (s : Sys)
    (hpres : ∀ sl ∈ s.slots,
      (s.world.store.lookup sl.1 sl.2).isSome = true ∧ sl.1 ≠ Kind.subscriptions)
    (hnd : s.slots.Nodup)
    (hthr : s.threads.map (fun t => t.ref.slot) = s.slots.reverse) :
    (∀ sl ∈ (Sys.run e fd s acts).slots,
      ((Sys.run e fd s acts).world.store.lookup sl.1 sl.2).isSome = true ∧
        sl.1 ≠ Kind.subscriptions) ∧
    (Sys.run e fd s acts).slots.Nodup ∧
    (Sys.run e fd s acts).threads.map (fun t => t.ref.slot)
      = (Sys.run e fd s acts).slots.reverse := by
  induction acts generalizing s with
  | nil => exact ⟨hpres, hnd, hthr⟩
  | cons a rest ih =>
    obtain ⟨h1, h2, h3⟩ := sys_step_slots e hcb fd s a hpres hnd hthr
    exact ih (Sys.step e fd s a) h1 h2 h3

/-- Every entry of the log of served requests is what the handler did in the
world the request was served in. -/
theorem sys_run_served (e : Engine World) (fd : Time → String) (acts : List SysAction) (s : Sys)
    (h : ∀ x ∈ s.served, x.result = handleCreate x.uuid fd x.request x.before) :
    ∀ x ∈ (Sys.run e fd s acts).served,
      x.result = handleCreate x.uuid fd x.request x.before := by
  induction acts generalizing s with
  | nil => exact h
  | cons a rest ih =>
    apply ih (Sys.step e fd s a)
    unfold Sys.step
    split
    · exact h
    · cases a with
      | call c => exact h
      | sleep d => exact h
      | step i =>
        simp only [Sys.act]
        split <;> exact h
      | request uuid r =>
        intro x hx
        simp only [Sys.act, List.mem_cons] at hx
        rcases hx with rfl | hx
        · rfl
        · exact h x hx
/-- What a served request has started, from what its handler found. -/
theorem served_entry (fd : Time → String) (x : ServedCreate)
    (hx : x.result = handleCreate x.uuid fd x.request x.before) :
    (x.result.started.isSome = true ↔
      ((x.before.store.lookup x.request.parent.kind x.request.parent.key).isSome = true ∧
        ∃ c, x.request.createCall x.uuid fd x.before.clock = some c ∧
          (x.before.store.create c).1 = none)) ∧
    (x.result.started.isSome = true ↔ x.result.status = 201) ∧
    (x.result.started.isSome = true ↔ x.startedSlot.isSome = true) ∧
    (x.result.status = 201 ∨ x.result.status = 400 ∨ x.result.status = 404 ∨
      x.result.status = 409) ∧
    (x.result.status ≠ 201 → x.result.started = none ∧ x.result.world = x.before) := by
  rcases handleCreate_cases x.uuid fd x.request x.before with
    ⟨hp, hs, hcr, hstd, hwd⟩ | ⟨hp, hc, hs, hcr, hstd, hwd⟩ |
    ⟨c, hp, hc, herr, hs, hcr, hstd, hwd⟩ | ⟨c, hp, hc, hok, hs, hcr, hstd, hwd, hslot⟩
  · rw [← hx] at hs hcr hstd hwd
    have hn : x.result.started = none := Option.isNone_iff_eq_none.mp hstd
    refine ⟨?_, ?_, ?_, by simp [hs], fun _ => ⟨hn, hwd⟩⟩
    · simp [hn, hp]
    · simp [hn, hs]
    · simp [hn, ServedCreate.startedSlot]
  · rw [← hx] at hs hcr hstd hwd
    have hn : x.result.started = none := Option.isNone_iff_eq_none.mp hstd
    refine ⟨?_, ?_, ?_, by simp [hs], fun _ => ⟨hn, hwd⟩⟩
    · simp [hn, hc]
    · simp [hn, hs]
    · simp [hn, ServedCreate.startedSlot]
  · rw [← hx] at hs hcr hstd hwd
    have hn : x.result.started = none := Option.isNone_iff_eq_none.mp hstd
    refine ⟨?_, ?_, ?_, by simp [hs], fun _ => ⟨hn, hwd⟩⟩
    · simp [hn, hc, herr]
    · simp [hn, hs]
    · simp [hn, ServedCreate.startedSlot]
  · rw [← hx] at hs hcr hstd hwd
    obtain ⟨tr, htr⟩ := Option.isSome_iff_exists.mp hstd
    refine ⟨?_, ?_, ?_, by simp [hs], fun h => absurd hs h⟩
    · simp [hstd, hp, hc, hok]
    · simp [hstd, hs]
    · simp [htr, hcr, ServedCreate.startedSlot]

/-- C29. In every run of the server (create requests on the chained kinds, any
store calls, time passing and steps of the goroutines of the started
transitions, in any order), from any world, with a callback that leaves the
store alone: each served request has started a transition exactly when its
handler found the parent and its Create call on the store returned nil, which is
exactly when it answered 201; a request answered 400, 404 or 409 (there is no
other status) has started none and left the world as it was; every record for
which a transition was started is still in the store; and no two transitions
were started for the same map and composite key. The goroutines are those of the
started transitions, one each. -/
theorem one_transition_per_key (e : Engine World)
    (hcb : ∀ f, e.onChange = some f → ∀ a b c w, (f a b c w).store = w.store)
    (fd : Time → String) (w0 : World) (acts : List SysAction) :
    (∀ x ∈ (Sys.run e fd (Sys.init w0) acts).served,
      x.result = handleCreate x.uuid fd x.request x.before ∧
      (x.result.started.isSome = true ↔
        ((x.before.store.lookup x.request.parent.kind x.request.parent.key).isSome = true ∧
          ∃ c, x.request.createCall x.uuid fd x.before.clock = some c ∧
            (x.before.store.create c).1 = none)) ∧
      (x.result.started.isSome = true ↔ x.result.status = 201) ∧
      (x.result.started.isSome = true ↔ x.startedSlot.isSome = true) ∧
      (x.result.status = 201 ∨ x.result.status = 400 ∨ x.result.status = 404 ∨
        x.result.status = 409) ∧
      (x.result.status ≠ 201 → x.result.started = none ∧ x.result.world = x.before)) ∧
    (Sys.run e fd (Sys.init w0) acts).slots.Nodup ∧
    (∀ sl ∈ (Sys.run e fd (Sys.init w0) acts).slots,
      ((Sys.run e fd (Sys.init w0) acts).world.store.lookup sl.1 sl.2).isSome = true) ∧
    (Sys.run e fd (Sys.init w0) acts).threads.map (fun t => t.ref.slot)
      = (Sys.run e fd (Sys.init w0) acts).slots.reverse := by
  have hserved := sys_run_served e fd acts (Sys.init w0) (fun x hx => by cases hx)
  obtain ⟨h1, h2, h3⟩ := sys_run_slots e hcb fd acts (Sys.init w0)
    (fun sl hsl => by cases hsl) List.nodup_nil rfl
  exact ⟨fun x hx => ⟨hserved x hx, served_entry fd x (hserved x hx)⟩, h2,
    fun sl hsl => (h1 sl hsl).1, h3⟩

/-- The run `sysScenario` with the engine of `main`: of the two requests for
submission `s1` under `p1` the first is answered 201 and the second 409, the
request under the missing payment is answered 404, and one transition is
started. -/
theorem one_transition_per_key_witness :
    (Sys.run (mainEngine 500) (fun _ => "2026-01-01") (Sys.init lifecycleScenario)
      sysScenario).slots.Nodup ∧
    (Sys.run (mainEngine 500) (fun _ => "2026-01-01") (Sys.init lifecycleScenario)
      sysScenario).slots = [(Kind.paymentSubmissions, "p1:s1")] ∧
    (Sys.run (mainEngine 500) (fun _ => "2026-01-01") (Sys.init lifecycleScenario)
      sysScenario).served.map (fun x => x.result.status) = [404, 409, 201] :=
  ⟨(one_transition_per_key (mainEngine 500)
      (fun f hf a b c w => by
        cases hf
        exact mainOnChange_store a b c w)
      (fun _ => "2026-01-01") lifecycleScenario sysScenario).2.1,
   by decide, by decide⟩

/-! ## The updaters of started transitions -/

/-- The updater closure of a handler is its Get call followed, when the Get
returns no error, by its Update call with the record read, the new status and
the clock reading. -/
theorem updater_eq_two_calls (ref : ChainedRef) (s : String) (w : World) :
    ref.updater s w =
      match w.store.get ref.getCall with
      | (_, some err) => (some err, w)
      | (v, none) =>
        match ref.updateCall (v.withStatus s w.clock) with
        | none => (some ErrNotFound, w)
        | some u => ((w.store.update u).1, { w with store := (w.store.update u).2 }) := by
  cases ref <;>
    simp only [ChainedRef.updater, paymentSubmissionUpdater, paymentAdmissionUpdater,
      returnSubmissionUpdater, recallSubmissionUpdater, recallDecisionSubmissionUpdater,
      reversalSubmissionUpdater, ChainedRef.getCall, MemoryStore.get,
      MemoryStore.GetPaymentSubmission, MemoryStore.GetPaymentAdmission,
      MemoryStore.GetReturnSubmission, MemoryStore.GetRecallSubmission,
      MemoryStore.GetRecallDecisionSubmission, MemoryStore.GetReversalSubmission] <;>
    generalize GoMap.get? _ _ = o <;>
    cases o <;> rfl

theorem kind_of_lookup (m : MemoryStore) (kd : Kind) (k : String) (v : Value)
    (h : m.lookup kd k = some v) : v.kind = kd := by
  cases kd <;>
    simp only [MemoryStore.lookup, Option.map_eq_some'] at h <;>
    obtain ⟨x, _, rfl⟩ := h <;> rfl

theorem withStatus_kind (v : Value) (a : String) (t : Time) : (v.withStatus a t).kind = v.kind := by
  cases v <;> rfl

theorem updateCall_of_kind (ref : ChainedRef) (v : Value) (hk : v.kind = ref.slot.1)
    (hid : v.id = ref.id) :
    ∃ u, ref.updateCall v = some u ∧ u.kind = ref.slot.1 ∧ u.key = ref.slot.2 ∧ u.value = v := by
  cases ref <;> cases v <;>
    simp [ChainedRef.slot, ChainedRef.getCall, GetCall.kind, Value.kind] at hk <;>
    simp only [Value.id, ChainedRef.id] at hid <;>
    subst hid <;>
    exact ⟨_, rfl, rfl, rfl, rfl⟩

theorem ref_id (r : ChainedCreate) (i : String) : (r.ref i).id = i := by
  cases r <;> rfl

theorem ref_chain (r : ChainedCreate) (i : String) : (r.ref i).chain = r.chain := by
  cases r <;> rfl

/-- A store call made outside the updater closures leaves every record of a
chained kind that is in the store as it is. -/
theorem lookup_after_external (m : MemoryStore) (c : StoreCall) (hc : c.external = true)
    (ref : ChainedRef) (v : Value) (h : m.lookup ref.slot.1 ref.slot.2 = some v) :
    (m.after c).lookup ref.slot.1 ref.slot.2 = some v := by
  cases c with
  | get g => exact h
  | list l => exact h
  | MatchSubscriptions a b => exact h
  | DeleteSubscription id =>
    rw [lookup_after_other m _ _ _ (by
      simpa [StoreCall.kind] using slot_ne_subscriptions ref)]
    exact h
  | create c =>
    simp only [MemoryStore.after]
    cases hl : m.lookup c.kind c.key with
    | some x =>
      rw [create_store_of_present m c (by rw [hl]; rfl)]
      exact h
    | none =>
      rw [lookup_create_of_absent m c hl]
      split
      · rename_i heq
        rw [heq.1, heq.2, hl] at h
        cases h
      · exact h
  | update u =>
    rw [lookup_after_other m _ _ _ (by
      cases u <;> cases ref <;>
        simp [StoreCall.kind, UpdateCall.kind, ChainedRef.slot, ChainedRef.getCall, GetCall.kind,
          StoreCall.external] at hc ⊢)]
    exact h

/-- A step of a sound goroutine: the goroutine is sound afterwards, it has made
one store call if it had one to make, and the store is as before or differs in
the record of the goroutine only, which has kept its identifier. -/
theorem thread_step_sound (e : Engine World)
    (hcb : ∀ f, e.onChange = some f → ∀ a b c w, (f a b c w).store = w.store)
    (t : Thread) (w : World) (h : t.Sound w.store) :
    (t.step e w).1.Sound (t.step e w).2.store ∧
    (t.step e w).1.left = t.left - 1 ∧
    ((t.step e w).2.store = w.store ∨
      ∃ v, v.id = t.ref.id ∧
        ∀ kd k, (t.step e w).2.store.lookup kd k =
          if kd = t.ref.slot.1 ∧ k = t.ref.slot.2 then some v else w.store.lookup kd k) := by
  obtain ⟨hab, ⟨v0, hv0, hid0⟩, hheld, hchain⟩ := h
  cases hp : t.pending with
  | nil =>
    have hs : t.step e w = (t, w) := by
      simp [Thread.step, hab, hp]
    rw [hs]
    refine ⟨⟨hab, ⟨v0, hv0, hid0⟩, hheld, hchain⟩, ?_, Or.inl rfl⟩
    simp [Thread.left, hp]
  | cons ns rest =>
    cases hh : t.held with
    | none =>
      have hget : w.store.get t.ref.getCall = (v0, none) := get_of_some _ _ _ hv0
      have hs : t.step e w = ({ t with held := some v0 }, w) := by
        simp [Thread.step, hab, hp, hh, hget]
      rw [hs]
      refine ⟨⟨hab, ⟨v0, hv0, hid0⟩, ?_, hchain⟩, ?_, Or.inl rfl⟩
      · intro v hv
        simp only [Option.some.injEq] at hv
        subst hv
        exact ⟨hid0, kind_of_lookup _ _ _ _ hv0⟩
      · simp [Thread.left, hp, hh]
    | some v =>
      obtain ⟨hvid, hvk⟩ := hheld v hh
      obtain ⟨u, hu, huk, hukey, huv⟩ := updateCall_of_kind t.ref (v.withStatus ns w.clock)
        (by rw [withStatus_kind]; exact hvk) (by rw [withStatus_id]; exact hvid)
      have hpres : (w.store.lookup u.kind u.key).isSome = true := by
        rw [huk, hukey, hv0]; rfl
      have herr : (w.store.update u).1 = none := by
        rw [update_err, hpres]; rfl
      have hupd : w.store.update u = (none, (w.store.update u).2) := by
        rw [← herr]
      have hst : (t.step e w).2.store = (w.store.update u).2 ∧
          (t.step e w).1 = { t with pending := rest, held := none, applied := t.applied ++ [ns] } := by
        unfold Thread.step
        simp only [hab, hp, hh, hu]
        rw [hupd]
        cases hf : e.onChange with
        | none => exact ⟨rfl, rfl⟩
        | some f => exact ⟨by simp [hcb f hf], rfl⟩
      have hlook : ∀ kd k, (t.step e w).2.store.lookup kd k =
          if kd = t.ref.slot.1 ∧ k = t.ref.slot.2 then some (v.withStatus ns w.clock)
          else w.store.lookup kd k := by
        intro kd k
        rw [hst.1, lookup_update_of_present _ _ hpres, huk, hukey, huv]
      refine ⟨⟨?_, ⟨v.withStatus ns w.clock, ?_, ?_⟩, ?_, ?_⟩, ?_, Or.inr ⟨_, ?_, hlook⟩⟩
      · rw [hst.2]
        exact hab
      · rw [hst.2, hlook]
        simp
      · rw [hst.2, withStatus_id]
        exact hvid
      · rw [hst.2]
        intro v2 hv2
        cases hv2
      · rw [hst.2]
        simp only [List.append_assoc, List.singleton_append]
        rw [← hp]
        exact hchain
      · rw [hst.2]
        simp only [Thread.left, hp, hh, List.length_cons, Option.isSome_some, Option.isSome_none,
          if_true]
        simp only [Bool.false_eq_true, if_false]
        omega
      · rw [withStatus_id]
        exact hvid

theorem sound_of_lookup (t : Thread) (m m2 : MemoryStore) (h : t.Sound m)
    (hl : ∀ v, m.lookup t.ref.slot.1 t.ref.slot.2 = some v → v.id = t.ref.id →
      ∃ v2, m2.lookup t.ref.slot.1 t.ref.slot.2 = some v2 ∧ v2.id = t.ref.id) :
    t.Sound m2 := by
  obtain ⟨h1, ⟨v, hv, hid⟩, h3, h4⟩ := h
  exact ⟨h1, hl v hv hid, h3, h4⟩

/-- The goroutines of the started transitions stay sound under every action of
the running process whose store call is made outside the updater closures. -/
theorem sys_act_sound (e : Engine World)
    (hcb : ∀ f, e.onChange = some f → ∀ a b c w, (f a b c w).store = w.store)
    (fd : Time → String) (s : Sys) (a : SysAction) (ha : a.external = true)
    (hnd : (s.threads.map (fun t => t.ref.slot)).Nodup)
    (hs : ∀ t ∈ s.threads, t.Sound s.world.store) :
    ∀ t ∈ (Sys.act e fd s a).threads, t.Sound (Sys.act e fd s a).world.store := by
  cases a with
  | sleep d => exact hs
  | call c =>
    intro t ht
    exact sound_of_lookup t _ _ (hs t ht)
      (fun v hv hid => ⟨v, lookup_after_external _ c ha t.ref v hv, hid⟩)
  | step i =>
    cases hg : s.threads.get? i with
    | none =>
      have : Sys.act e fd s (.step i) = s := by simp only [Sys.act, hg]
      rw [this]
      exact hs
    | some t =>
      have hst : Sys.act e fd s (.step i) =
          { s with world := (t.step e s.world).2,
                   threads := s.threads.set i (t.step e s.world).1 } := by
        simp only [Sys.act, hg]
      rw [hst]
      have htm : t ∈ s.threads := List.get?_mem hg
      obtain ⟨hsound, _, hstore⟩ := thread_step_sound e hcb t s.world (hs t htm)
      intro t2 ht2
      rcases List.mem_or_eq_of_mem_set ht2 with hold | rfl
      · rcases hstore with hsame | ⟨v, hvid, hlook⟩
        · simp only [hsame]
          exact hs t2 hold
        · apply sound_of_lookup t2 _ _ (hs t2 hold)
          intro v2 hv2 hid2
          simp only [hlook]
          by_cases hslot : t2.ref.slot = t.ref.slot
          · have heq : t2 = t := List.inj_on_of_nodup_map hnd hold htm hslot
            subst heq
            exact ⟨v, by simp, hvid⟩
          · refine ⟨v2, ?_, hid2⟩
            rw [if_neg]
            · exact hv2
            · intro hc
              exact hslot (Prod.ext hc.1 hc.2)
      · exact hsound
  | request uuid r =>
    have hw : (Sys.act e fd s (.request uuid r)).world = (handleCreate uuid fd r s.world).world :=
      rfl
    have hth : (Sys.act e fd s (.request uuid r)).threads = s.threads ++
        ServedCreate.spawned ⟨s.world, uuid, r, handleCreate uuid fd r s.world⟩ := rfl
    rw [hw, hth]
    rcases handleCreate_cases uuid fd r s.world with
      ⟨_, _, hcr, hstd, hwd⟩ | ⟨_, _, _, hcr, hstd, hwd⟩ | ⟨c, _, _, _, _, hcr, hstd, hwd⟩ |
      ⟨c, _, _, hok, _, hcr, hstd, hwd, hslot⟩
    · have : ServedCreate.spawned ⟨s.world, uuid, r, handleCreate uuid fd r s.world⟩ = [] := by
        simp [ServedCreate.spawned, hcr]
      rw [this, hwd, List.append_nil]
      exact hs
    · have : ServedCreate.spawned ⟨s.world, uuid, r, handleCreate uuid fd r s.world⟩ = [] := by
        simp [ServedCreate.spawned, hcr]
      rw [this, hwd, List.append_nil]
      exact hs
    · have : ServedCreate.spawned ⟨s.world, uuid, r, handleCreate uuid fd r s.world⟩ = [] := by
        simp [ServedCreate.spawned, hcr]
      rw [this, hwd, List.append_nil]
      exact hs
    · obtain ⟨hst201, hstarted, _, _, _, _⟩ :=
        handleCreate_created uuid fd r s.world c.value hcr
      have habs : s.world.store.lookup c.kind c.key = none := by
        have := create_err s.world.store c
        rw [hok] at this
        cases hl : s.world.store.lookup c.kind c.key with
        | none => rfl
        | some v => rw [hl] at this; simp at this
      have hsp : ServedCreate.spawned ⟨s.world, uuid, r, handleCreate uuid fd r s.world⟩ =
          [{ ref := r.ref c.value.id, pending := r.chain.drop 1, held := none, applied := [],
             abandoned := none }] := by
        simp [ServedCreate.spawned, hcr, hstarted]
      have hslot1 : (r.ref c.value.id).slot.1 = c.kind := by rw [← hslot]
      have hslot2 : (r.ref c.value.id).slot.2 = c.key := by rw [← hslot]
      rw [hsp, hwd]
      intro t ht
      rcases List.mem_append.mp ht with hold | hnew
      · apply sound_of_lookup t _ _ (hs t hold)
        intro v hv hid
        refine ⟨v, ?_, hid⟩
        simp only [lookup_create_of_absent _ c habs]
        rw [if_neg]
        · exact hv
        · intro hc
          rw [hc.1, hc.2, habs] at hv
          cases hv
      · simp only [List.mem_singleton] at hnew
        subst hnew
        refine ⟨rfl, ⟨c.value, ?_, (ref_id r c.value.id).symm⟩, fun v hv => Option.noConfusion hv, ?_⟩
        · simp only [lookup_create_of_absent _ c habs, hslot1, hslot2]
          simp
        · simp [ref_chain]

/-- The goroutines of the started transitions stay sound under every action
whose store call is made outside the updater closures. -/
theorem sys_step_sound (e : Engine World)
    (hcb : ∀ f, e.onChange = some f → ∀ a b c w, (f a b c w).store = w.store)
    (fd : Time → String) (s : Sys) (a : SysAction) (ha : a.external = true)
    (hnd : (s.threads.map (fun t => t.ref.slot)).Nodup)
    (hs : ∀ t ∈ s.threads, t.Sound s.world.store) :
    ∀ t ∈ (Sys.step e fd s a).threads, t.Sound (Sys.step e fd s a).world.store := by
  unfold Sys.step
  split
  · exact hs
  · exact sys_act_sound e hcb fd s a ha hnd hs

theorem sys_run_sound (e : Engine World)
    (hcb : ∀ f, e.onChange = some f → ∀ a b c w, (f a b c w).store = w.store)
    (fd : Time → String) (acts : List SysAction) (hext : ∀ a ∈ acts, a.external = true) (s : Sys)
    (hpres : ∀ sl ∈ s.slots,
      (s.world.store.lookup sl.1 sl.2).isSome = true ∧ sl.1 ≠ Kind.subscriptions)
    (hnd : s.slots.Nodup)
    (hthr : s.threads.map (fun t => t.ref.slot) = s.slots.reverse)
    (hs : ∀ t ∈ s.threads, t.Sound s.world.store) :
    (∀ sl ∈ (Sys.run e fd s acts).slots,
      ((Sys.run e fd s acts).world.store.lookup sl.1 sl.2).isSome = true ∧
        sl.1 ≠ Kind.subscriptions) ∧
    (Sys.run e fd s acts).slots.Nodup ∧
    (Sys.run e fd s acts).threads.map (fun t => t.ref.slot)
      = (Sys.run e fd s acts).slots.reverse ∧
    ∀ t ∈ (Sys.run e fd s acts).threads, t.Sound (Sys.run e fd s acts).world.store := by
  induction acts generalizing s with
  | nil => exact ⟨hpres, hnd, hthr, hs⟩
  | cons a rest ih =>
    obtain ⟨h1, h2, h3⟩ := sys_step_slots e hcb fd s a hpres hnd hthr
    have h4 := sys_step_sound e hcb fd s a (hext a (List.mem_cons_self _ _))
      (by rw [hthr]; exact List.nodup_reverse.mpr hnd) hs
    exact ih (fun b hb => hext b (List.mem_cons_of_mem _ hb)) (Sys.step e fd s a) h1 h2 h3 h4

theorem sys_run_crashed (e : Engine World) (fd : Time → String) (acts : List SysAction) (s : Sys)
    (h : s.world.crashed = true) : Sys.run e fd s acts = s := by
  induction acts with
  | nil => rfl
  | cons a rest ih =>
    have hs : Sys.step e fd s a = s := by simp [Sys.step, h]
    simp only [Sys.run, List.foldl_cons, hs]
    exact ih

/-- From a state in which the goroutines are sound, the goroutine at index `i`
scheduled on its own for the store calls it has left is not abandoned, and it
applies the rest of its chain unless the process has crashed. -/
theorem sys_steps_finish (e : Engine World)
    (hcb : ∀ f, e.onChange = some f → ∀ a b c w, (f a b c w).store = w.store)
    (fd : Time → String) (i : Nat) (n : Nat) (s : Sys) (t : Thread)
    (hpres : ∀ sl ∈ s.slots,
      (s.world.store.lookup sl.1 sl.2).isSome = true ∧ sl.1 ≠ Kind.subscriptions)
    (hnd : s.slots.Nodup)
    (hthr : s.threads.map (fun t => t.ref.slot) = s.slots.reverse)
    (hs : ∀ t ∈ s.threads, t.Sound s.world.store)
    (hg : s.threads.get? i = some t) (hn : t.left = n) :
    ∃ t2, (Sys.run e fd s (List.replicate n (.step i))).threads.get? i = some t2 ∧
      t2.ref = t.ref ∧ t2.abandoned = none ∧
      ((Sys.run e fd s (List.replicate n (.step i))).world.crashed = true ∨
        (t2.pending = [] ∧ t2.applied = t.ref.chain.drop 1)) := by
  induction n generalizing s t with
  | zero =>
    have htm : t ∈ s.threads := List.get?_mem hg
    obtain ⟨h1, _, _, h4⟩ := hs t htm
    have hp : t.pending = [] := by
      unfold Thread.left at hn
      cases hp : t.pending with
      | nil => rfl
      | cons a l =>
        rw [hp] at hn
        simp only [List.length_cons] at hn
        split at hn <;> omega
    refine ⟨t, hg, rfl, h1, Or.inr ⟨hp, ?_⟩⟩
    rw [hp, List.append_nil] at h4
    exact h4
  | succ n ih =>
    have htm : t ∈ s.threads := List.get?_mem hg
    by_cases hc : s.world.crashed = true
    · rw [sys_run_crashed e fd _ s hc]
      exact ⟨t, hg, rfl, (hs t htm).1, Or.inl hc⟩
    · obtain ⟨hsound, hleft, _⟩ := thread_step_sound e hcb t s.world (hs t htm)
      obtain ⟨h1, h2, h3⟩ := sys_step_slots e hcb fd s (.step i) hpres hnd hthr
      have h4 := sys_step_sound e hcb fd s (.step i) rfl
        (by rw [hthr]; exact List.nodup_reverse.mpr hnd) hs
      have hlt : i < s.threads.length := by
        rcases List.get?_eq_some.mp hg with ⟨hlt, _⟩
        exact hlt
      have hstep : Sys.step e fd s (.step i) = Sys.act e fd s (.step i) := by
        simp [Sys.step, hc]
      have hg2 : (Sys.step e fd s (.step i)).threads.get? i = some (t.step e s.world).1 := by
        rw [hstep]
        simp only [Sys.act, hg]
        rw [List.get?_eq_getElem?, List.getElem?_set_self hlt]
      obtain ⟨t2, ht2, hr, hrest⟩ := ih (Sys.step e fd s (.step i)) (t.step e s.world).1
        h1 h2 h3 h4 hg2 (by rw [hleft, hn]; rfl)
      refine ⟨t2, ?_, by rw [hr, thread_step_ref], ?_⟩
      · simpa [Sys.run, List.replicate_succ] using ht2
      · rw [thread_step_ref] at hrest
        simpa [Sys.run, List.replicate_succ] using hrest

/-- The Get step and the Update step of a goroutine, one after the other with
nothing in between, are the updater closure of its handler followed, when the
closure has returned nil, by the callback of the engine. -/
theorem thread_two_steps (e : Engine World) (t : Thread) (s : String) (rest : List String)
    (w : World) (hab : t.abandoned = none) (hheld : t.held = none) (hp : t.pending = s :: rest) :
    ((t.step e w).1.step e (t.step e w).2).1.abandoned = (t.ref.updater s w).1 ∧
    ((t.step e w).1.step e (t.step e w).2).2 =
      (if (t.ref.updater s w).1 = none then
        (match e.onChange with
          | some f => f t.ref.resourceType t.ref.id s (t.ref.updater s w).2
          | none => (t.ref.updater s w).2)
       else (t.ref.updater s w).2) := by
  rw [updater_eq_two_calls]
  rcases hget : w.store.get t.ref.getCall with ⟨v, _ | err⟩
  · have h1 : t.step e w = ({ t with held := some v }, w) := by
      simp [Thread.step, hab, hp, hheld, hget]
    rw [h1]
    cases hu : t.ref.updateCall (v.withStatus s w.clock) with
    | none =>
      simp [Thread.step, hab, hp, hu]
    | some u =>
      rcases hupd : w.store.update u with ⟨_ | err, st⟩
      · cases hf : e.onChange <;> simp [Thread.step, hab, hp, hu, hupd, hf]
      · have hl : w.store.lookup u.kind u.key = none := by
          have := update_err w.store u
          rw [hupd] at this
          cases hl : w.store.lookup u.kind u.key with
          | none => rfl
          | some x => rw [hl] at this; simp at this
        have hst := update_store_of_absent w.store u hl
        rw [hupd] at hst
        simp only at hst
        subst hst
        simp [Thread.step, hab, hp, hu, hupd]
  · have h1 : t.step e w = ({ t with abandoned := some err }, w) := by
      simp [Thread.step, hab, hp, hheld, hget]
    rw [h1]
    simp [Thread.step]

/-- The loop of the driver is made of the steps of the goroutine: one turn of
the loop of `StartTransition` on the status `s`, run without interruption, is
the sleep, the Get step and the Update step of the goroutine, after which the
loop returns if the goroutine has abandoned and goes on with the statuses that
are left if not. -/
theorem steps_cons_thread_steps (e : Engine World) (t : Thread) (s : String)
    (rest : List String) (w : World)
    (hab : t.abandoned = none) (hheld : t.held = none) (hp : t.pending = s :: rest) :
    e.steps World.sleep t.ref.resourceType t.ref.id t.ref.updater (s :: rest) w =
      if ((t.step e (World.sleep e.stepDelay w)).1.step e
          (t.step e (World.sleep e.stepDelay w)).2).1.abandoned.isSome = true then
        ((t.step e (World.sleep e.stepDelay w)).1.step e
          (t.step e (World.sleep e.stepDelay w)).2).2
      else
        e.steps World.sleep t.ref.resourceType t.ref.id t.ref.updater rest
          ((t.step e (World.sleep e.stepDelay w)).1.step e
            (t.step e (World.sleep e.stepDelay w)).2).2 := by
  obtain ⟨hA, hB⟩ := thread_two_steps e t s rest (World.sleep e.stepDelay w) hab hheld hp
  rw [hA, hB]
  cases hr : (t.ref.updater s (World.sleep e.stepDelay w)).1 with
  | some err =>
    rw [steps_cons_fail e World.sleep _ _ _ s rest w err hr]
    simp
  | none =>
    cases hf : e.onChange with
    | none =>
      rw [steps_cons_ok_none e World.sleep _ _ _ s rest w hr hf]
      simp
    | some f =>
      rw [steps_cons_ok_some e World.sleep _ _ _ s rest w f hr hf]
      simp

/-- C30, counterexample. A run of the server in which an Update call on a
chained kind comes from outside the updater closures. The handler creates the
submission `b:c` under payment `p1` (201) and starts its transition; then
`UpdatePaymentSubmission("p1:b", {id: "c"})` returns nil, since the composite
keys "p1" + ":" + "b:c" and "p1:b" + ":" + "c" are the same, and replaces the
record by one with the identifier `c`. The Get of the updater still finds a
record, but its Update goes to the key "p1:c" and returns ErrNotFound: the
goroutine is abandoned before it has applied any status. The updater closure
called as a whole in the state after the foreign call returns ErrNotFound, and
the uninterrupted loop of the driver from that state leaves the record at the
status `accepted`. -/
theorem foreign_update_breaks_updater :
    (Sys.run (mainEngine 500) (fun _ => "2026-01-01") (Sys.init lifecycleScenario)
        foreignUpdateScenario).served.map (fun x => x.result.status) = [201] ∧
    (Sys.run (mainEngine 500) (fun _ => "2026-01-01") (Sys.init lifecycleScenario)
        foreignUpdateScenario).threads.map (fun t => (t.ref, t.applied, t.abandoned))
      = [(.paymentSubmission "p1" "b:c", [], some ErrNotFound)] ∧
    (paymentSubmissionUpdater "p1" "b:c" "validation_pending"
      (Sys.run (mainEngine 500) (fun _ => "2026-01-01") (Sys.init lifecycleScenario)
        (foreignUpdateScenario.take 2)).world).1 = some ErrNotFound ∧
    (((mainEngine 500).StartTransition World.sleep ResourceTypePaymentSubmission "b:c"
        PaymentSubmissionChain (paymentSubmissionUpdater "p1" "b:c")
        (Sys.run (mainEngine 500) (fun _ => "2026-01-01") (Sys.init lifecycleScenario)
          (foreignUpdateScenario.take 2)).world).store.GetPaymentSubmission "p1"
            "b:c").1.Attributes.Status = "accepted" := by
  refine ⟨by decide, by decide, by decide, by decide⟩

/-- C30, amended. In every run of the server from any world in which the Update
methods of the six chained kinds are called by the updater closures only, as
they are in the code of the server (create requests on the chained kinds, every
other call of the Store interface, time passing and the Get and Update calls of
the updaters of the started transitions, interleaved in any order), with a
callback that leaves the store alone, and for every transition a handler has
started: the goroutine has not been abandoned; the store holds the record under
its identifier, so the Get of the updater finds it and the updater as a whole,
called in this state with any status, returns nil; the next store call of the
goroutine does not make it abandon; the statuses applied so far and those still
to apply are the statuses of the chain after the first, in order; and the
goroutine scheduled for the store calls it has left is not abandoned and applies
the whole chain, unless a panic has ended the process. The steps of the
goroutine are those of the loop of the driver: a turn of the loop of
`StartTransition` is the sleep followed by the Get step and the Update step. -/
theorem handler_updater_never_fails (e : Engine World)
    (hcb : ∀ f, e.onChange = some f → ∀ a b c w, (f a b c w).store = w.store)
    (fd : Time → String) (w0 : World) (acts : List SysAction)
    (hext : ∀ a ∈ acts, a.external = true) :
    (∀ t ∈ (Sys.run e fd (Sys.init w0) acts).threads,
      t.abandoned = none ∧
      (∃ v, (Sys.run e fd (Sys.init w0) acts).world.store.get t.ref.getCall = (v, none) ∧
        v.id = t.ref.id) ∧
      (∀ status, (t.ref.updater status (Sys.run e fd (Sys.init w0) acts).world).1 = none) ∧
      (t.step e (Sys.run e fd (Sys.init w0) acts).world).1.abandoned = none ∧
      t.applied ++ t.pending = t.ref.chain.drop 1) ∧
    (∀ i t, (Sys.run e fd (Sys.init w0) acts).threads.get? i = some t →
      ∃ t2, (Sys.run e fd (Sys.run e fd (Sys.init w0) acts)
          (List.replicate t.left (.step i))).threads.get? i = some t2 ∧
        t2.ref = t.ref ∧ t2.abandoned = none ∧
        ((Sys.run e fd (Sys.run e fd (Sys.init w0) acts)
            (List.replicate t.left (.step i))).world.crashed = true ∨
          (t2.pending = [] ∧ t2.applied = t.ref.chain.drop 1))) ∧
    (∀ (t : Thread) (s : String) (rest : List String) (w : World),
      t.abandoned = none → t.held = none → t.pending = s :: rest →
      e.steps World.sleep t.ref.resourceType t.ref.id t.ref.updater (s :: rest) w =
        if ((t.step e (World.sleep e.stepDelay w)).1.step e
            (t.step e (World.sleep e.stepDelay w)).2).1.abandoned.isSome = true then
          ((t.step e (World.sleep e.stepDelay w)).1.step e
            (t.step e (World.sleep e.stepDelay w)).2).2
        else
          e.steps World.sleep t.ref.resourceType t.ref.id t.ref.updater rest
            ((t.step e (World.sleep e.stepDelay w)).1.step e
              (t.step e (World.sleep e.stepDelay w)).2).2) := by
  obtain ⟨h1, h2, h3, h4⟩ := sys_run_sound e hcb fd acts hext (Sys.init w0)
    (fun sl hsl => by cases hsl) List.nodup_nil rfl (fun t ht => by cases ht)
  refine ⟨fun t ht => ?_, fun i t hg => sys_steps_finish e hcb fd i t.left _ t h1 h2 h3 h4 hg rfl,
    fun t s rest w hab hheld hp => steps_cons_thread_steps e t s rest w hab hheld hp⟩
  obtain ⟨hab, ⟨v, hv, hid⟩, hheld, hchain⟩ := h4 t ht
  refine ⟨hab, ⟨v, get_of_some _ _ _ hv, hid⟩, fun status => ?_, ?_, hchain⟩
  · exact (updater_step t.ref status _ v hv hid).1
  · exact (thread_step_sound e hcb t _ (h4 t ht)).1.1

/-- The run `sysScenario` with the engine of `main`: the goroutine of `s1` has
made four store calls between the other actions, has applied the first two
statuses after `accepted` and has not been abandoned; scheduled for ten more
store calls it has applied the whole chain. -/
theorem handler_updater_never_fails_witness :
    (∀ t ∈ (Sys.run (mainEngine 500) (fun _ => "2026-01-01") (Sys.init lifecycleScenario)
        sysScenario).threads, t.abandoned = none) ∧
    (Sys.run (mainEngine 500) (fun _ => "2026-01-01") (Sys.init lifecycleScenario)
        sysScenario).threads.map (fun t => (t.ref, t.applied, t.abandoned))
      = [(.paymentSubmission "p1" "s1", ["validation_pending", "limit_check_pending"], none)] ∧
    (Sys.run (mainEngine 500) (fun _ => "2026-01-01") (Sys.init lifecycleScenario)
        (sysScenario ++ List.replicate 10 (.step 0))).threads.map
          (fun t => (t.applied, t.pending, t.abandoned))
      = [(PaymentSubmissionChain.drop 1, [], none)] :=
  ⟨fun t ht =>
    ((handler_updater_never_fails (mainEngine 500)
      (fun f hf a b c w => by
        cases hf
        exact mainOnChange_store a b c w)
      (fun _ => "2026-01-01") lifecycleScenario sysScenario (by decide)).1 t ht).1,
   by decide, by decide⟩

/-- The delay of the engine is the product in `int64`: 500 ms are 500000000 ns,
and 9223372036855 ms wrap around to a negative duration. -/
theorem newEngine_delay_wraps :
    (mainEngine 500).stepDelay = 500000000 ∧
    (mainEngine 9223372036855).stepDelay = -9223372036854551616 := by
  refine ⟨by decide, by decide⟩

/-- A panic ends the run: with the dispatcher closed, the callback of `main`
panics after the first status has been applied, and the steps scheduled after
it do nothing. -/
theorem sys_stops_at_panic :
    (Sys.run (mainEngine 500) (fun _ => "2026-01-01")
        (Sys.init { lifecycleScenario with dispatcher := lifecycleScenario.dispatcher.Close })
        [.request "u1" (.paymentSubmission "p1" (.ok (newSubmission "s1" ""))),
         .step 0, .step 0, .step 0, .step 0]).world.crashed = true ∧
    (Sys.run (mainEngine 500) (fun _ => "2026-01-01")
        (Sys.init { lifecycleScenario with dispatcher := lifecycleScenario.dispatcher.Close })
        [.request "u1" (.paymentSubmission "p1" (.ok (newSubmission "s1" ""))),
         .step 0, .step 0, .step 0, .step 0]).threads.map (fun t => (t.applied, t.held.isSome))
      = [(["validation_pending"], false)] := by
  refine ⟨by decide, by decide⟩

end MockFps
